import Mathlib

/-!
# libid3bsp: lump decoder, legacy upgrade and Bezier patch tessellator

A shallow embedding of `src/src/BSP.cpp`.

Conventions of the embedding

* `std::vector<T>` is a `List T`; `push_back` appends at the end.
* `std::array<T, N>` is a function `Fin N → T`; `a[i]` is application.
* `float` is modelled by exact rationals `ℚ` wherever a statement is about
  counts, positions in the buffers or exact arithmetic: rounding, infinities
  and NaN are outside that model (in particular `x / 0` is `0` there, NaN in
  C++).  Where a statement is about the values `float` arithmetic returns, the
  vertex arithmetic is repeated over `Binary32`, a model of IEEE 754 binary32
  with rounding to nearest, overflow to infinity and NaN.
* `int`, `int32_t`, `uint32_t` and `size_t` values are unbounded integers:
  wrap-around at `2^31`/`2^32` elements is outside the model.
* The header `id3bsp/BSP.h` is not among the sources.  The types it
  declares are rebuilt from the member accesses in `BSP.cpp`; the constants
  it declares are parameters of the definitions that use them.
* Members of a record that `BSP.cpp` never names are kept as one field
  `Rest` of type `RestBytes`.
* The source has no error return.  A run with undefined behaviour or a
  failed `assert` has no result: the decoder returns `Except.error` with a
  `Fault` (a read behind the end of the input buffer, a failed `assert`), the
  face-level tessellator returns `Except.error` with a `PointerFault` (a read
  of an element the source array does not hold, a read through a pointer
  into storage that `push_back` has released).
* The output vector of the face-level tessellator is kept with its
  capacity, because `push_back` moves the elements when the capacity is
  used up and the tessellator holds pointers into its source array, which
  the four-argument entry point makes the output vector itself.
-/

namespace id3bsp

/-! ## Vector helpers (BSP.cpp:57-72) -/

/-- Componentwise sum, `add_vector` (BSP.cpp:62-66); the result is `r`. -/
def add_vector {N : Nat} (a b : Fin N → ℚ) : Fin N → ℚ :=
  fun i => a i + b i

/-- Uniform scaling, `scale_vector` (BSP.cpp:68-72); the result is `r`. -/
def scale_vector {N : Nat} (a : Fin N → ℚ) (b : ℚ) : Fin N → ℚ :=
  fun i => a i * b

/-- Whole-array copy, `copy_array` (BSP.cpp:57-60); the result is `dst`. -/
def copy_array {T : Type} {N : Nat} (src : Fin N → T) : Fin N → T :=
  src

/-- Element assignment `a[i] = v` on a `std::array`. -/
def setAt {T : Type} {N : Nat} (a : Fin N → T) (i : Nat) (v : T) : Fin N → T :=
  fun j => if j.val = i then v else a j

/-- The state of the members of a record that `BSP.cpp` never names:
`unwritten` after a declaration without initialiser, `zeroed` after
`memset(&a, 0, sizeof(a))`, `raw bytes` after a byte copy from a buffer. -/
inductive RestBytes where
  | unwritten : RestBytes
  | zeroed : RestBytes
  | raw (bytes : List UInt8) : RestBytes
  deriving DecidableEq

namespace BSP

/-- Modelled from the spec: the declaration of `BSP::Vertex` is in the absent
header `id3bsp/BSP.h`.  The members are those `BSP.cpp` accesses (lines 90-93
and 408-426): position, texture coordinate, `kMaxLightMaps` lightmap
coordinate channels and normal.  `Rest` stands for every other member (the
colour, which the spec says is not interpolated). -/
structure Vertex (kMaxLightMaps : Nat) where
  Position : Fin 3 → ℚ
  TexCoord : Fin 2 → ℚ
  LMCoord : Fin kMaxLightMaps → Fin 2 → ℚ
  Normal : Fin 3 → ℚ
  Rest : RestBytes

/-- Modelled from the spec: the declaration of `BSP::Face` is in the absent
header `id3bsp/BSP.h`.  The members are those `BSP.cpp` accesses (lines
102-118 and 302-335); `Rest` stands for every other member. -/
structure Face (kMaxLightMaps : Nat) where
  TextureID : Int
  FogID : Int
  FaceType : Int
  StartVertexIndex : Int
  NumVertices : Int
  StartIndex : Int
  NumIndices : Int
  LightMapIDs : Fin kMaxLightMaps → Int
  LMX : Fin kMaxLightMaps → Int
  LMY : Fin kMaxLightMaps → Int
  LMWidth : Int
  LMHeight : Int
  LMOrigin : Fin 3 → ℚ
  LMVecs : Fin 3 → Fin 3 → ℚ
  BezierDimensions : Fin 2 → Int
  Rest : RestBytes

variable {k : Nat}

/-- Vertex sum, `operator +` (BSP.cpp:403-415).  `temp` is declared without
an initialiser, so the members the function does not assign stay unwritten. -/
def Vertex.add (v1 v2 : Vertex k) : Vertex k :=
  { Position := add_vector v1.Position v2.Position
    TexCoord := add_vector v1.TexCoord v2.TexCoord
    LMCoord := fun i => add_vector (v1.LMCoord i) (v2.LMCoord i)
    Normal := add_vector v1.Normal v2.Normal
    Rest := RestBytes.unwritten }

/-- Vertex scaling, `operator *` (BSP.cpp:417-428). -/
def Vertex.mul (v1 : Vertex k) (d : ℚ) : Vertex k :=
  { Position := scale_vector v1.Position d
    TexCoord := scale_vector v1.TexCoord d
    LMCoord := fun i => scale_vector (v1.LMCoord i) d
    Normal := scale_vector v1.Normal d
    Rest := RestBytes.unwritten }

/-- Equality of two vertices in every interpolated member (position, texture
coordinate, every lightmap-coordinate channel, normal). -/
def Vertex.sameInterpolated (v w : Vertex k) : Prop :=
  v.Position = w.Position ∧ v.TexCoord = w.TexCoord ∧
    v.LMCoord = w.LMCoord ∧ v.Normal = w.Normal

/-- What the sub-patch `Tessellate` leaves behind: the two output buffers
and the returned `int`. -/
structure PatchOut (k : Nat) where
  vertices : List (Vertex k)
  indices : List Int
  ret : Int

/-- The first vertex loop of the sub-patch tessellator (BSP.cpp:351-357):
the vertex pushed at step `j`. -/
def firstRowVertex (controls : Fin 3 → Fin 3 → Vertex k) (numSubdivisions : Int)
    (j : Nat) : Vertex k :=
  let a : ℚ := (j : ℚ) / (numSubdivisions : ℚ)
  let b : ℚ := 1 - a
  ((((controls 0 0).mul b).mul b).add ((((controls 1 0).mul 2).mul b).mul a)).add
    (((controls 2 0).mul a).mul a)

/-- The array `temp` of the second vertex loop (BSP.cpp:361-369), for the
outer counter `i`. -/
def temp (controls : Fin 3 → Fin 3 → Vertex k) (numSubdivisions : Int)
    (i : Nat) : Fin 3 → Vertex k :=
  let a : ℚ := (i : ℚ) / (numSubdivisions : ℚ)
  let b : ℚ := 1 - a
  fun j =>
    ((((controls j 0).mul b).mul b).add ((((controls j 1).mul 2).mul b).mul a)).add
      (((controls j 2).mul a).mul a)

/-- The inner body of the second vertex loop (BSP.cpp:371-378): the vertex
pushed for outer counter `i` and inner counter `j`. -/
def gridVertex (controls : Fin 3 → Fin 3 → Vertex k) (numSubdivisions : Int)
    (i j : Nat) : Vertex k :=
  let a : ℚ := (j : ℚ) / (numSubdivisions : ℚ)
  let b : ℚ := 1 - a
  (((((temp controls numSubdivisions i) 0).mul b).mul b).add
      (((((temp controls numSubdivisions i) 1).mul 2).mul b).mul a)).add
    ((((temp controls numSubdivisions i) 2).mul a).mul a)

/-- The six indices pushed for grid cell `(i, j)` (BSP.cpp:388-394). -/
def cellIndices (L1 indexOffset : Int) (i j : Nat) : List Int :=
  [ (i : Int) * L1 + (j : Int) + indexOffset,
    (i : Int) * L1 + ((j : Int) + 1) + indexOffset,
    ((i : Int) + 1) * L1 + ((j : Int) + 1) + indexOffset,
    ((i : Int) + 1) * L1 + ((j : Int) + 1) + indexOffset,
    ((i : Int) + 1) * L1 + (j : Int) + indexOffset,
    (i : Int) * L1 + (j : Int) + indexOffset ]

/-- The sub-patch tessellator, `int BSP::Tessellate(const Vertex** controls,
TVertexList&, TIndexList&, int numSubdivisions, int indexOffset)`
(BSP.cpp:339-399).  `controls r c` is `controls[r][c]`.  A loop
`for (x = lo; x <= hi; ++x) push_back(e)` is the append of the mapped range.
The two `assert`s (lines 376, 386) compare the buffer size with the position
the loops have reached; they hold on every run and are not part of the
result. -/
def TessellatePatch (controls : Fin 3 → Fin 3 → Vertex k)
    (vertices : List (Vertex k)) (indices : List Int)
    (numSubdivisions indexOffset : Int) : PatchOut k :=
  let vOffset : Int := (vertices.length : Int)
  let L1 : Int := numSubdivisions + 1
  -- for (int j = 0; j <= numSubdivisions; ++j)
  let vertices1 := vertices ++
    (List.range (numSubdivisions + 1).toNat).map
      (fun j => firstRowVertex controls numSubdivisions j)
  -- for (int i = 1; i <= numSubdivisions; ++i) for (int j = 0; j <= numSubdivisions; ++j)
  let vertices2 := vertices1 ++
    (List.range numSubdivisions.toNat).flatMap (fun i0 =>
      (List.range (numSubdivisions + 1).toNat).map
        (fun j => gridVertex controls numSubdivisions (i0 + 1) j))
  -- for (int i = 0; i < numSubdivisions; ++i) for (int j = 0; j < numSubdivisions; ++j)
  let indices1 := indices ++
    (List.range numSubdivisions.toNat).flatMap (fun i =>
      (List.range numSubdivisions.toNat).flatMap (fun j =>
        cellIndices L1 indexOffset i j))
  { vertices := vertices2
    indices := indices1
    ret := (vertices2.length : Int) - vOffset }

/-- Element `ogVertices[i]` for an `int` index; `none` when the index is
outside the vector (undefined behaviour in the source). -/
def vertexAt (ogVertices : List (Vertex k)) (i : Int) : Option (Vertex k) :=
  if 0 ≤ i then ogVertices[i.toNat]? else none

/-- The values of `cpPatchOffs1` over the two nested loops of BSP.cpp:312-314,
in iteration order (`j` outer, `i` inner). -/
def patchOffsets (f : Face k) : List Int :=
  let verticesPerRow : Int := f.BezierDimensions 0
  let numPatchesX : Int := Int.tdiv (f.BezierDimensions 0) 2
  let numPatchesY : Int := Int.tdiv (f.BezierDimensions 1) 2
  let cpBaseOffset : Int := f.StartVertexIndex
  (List.range numPatchesY.toNat).flatMap (fun (j : Nat) =>
    (List.range numPatchesX.toNat).map (fun (i : Nat) =>
      cpBaseOffset + (j : Int) * verticesPerRow * 2 + (i : Int) * 2))

/-- The nine control indices of every visited sub-patch: the rows
`cpPatchOffs1`, `+ verticesPerRow`, `+ 2 * verticesPerRow`, columns
`+0 .. +2`.  These are the elements of `ogVertices` a run with
`numSubdivions ≥ 1` reads; the definition serves to state where the control
points of a face lie. -/
def controlIndices (f : Face k) : List Int :=
  (patchOffsets f).flatMap (fun o =>
    [ o, o + 1, o + 2,
      o + f.BezierDimensions 0, o + f.BezierDimensions 0 + 1, o + f.BezierDimensions 0 + 2,
      o + f.BezierDimensions 0 + f.BezierDimensions 0,
      o + f.BezierDimensions 0 + f.BezierDimensions 0 + 1,
      o + f.BezierDimensions 0 + f.BezierDimensions 0 + 2 ])

/-- The expression `p0 * b * b + p1 * 2 * b * a + p2 * a * a` with
`a = (float)x / numSubdivisions` and `b = 1.f - a`, which the sub-patch
tessellator evaluates at BSP.cpp:356, 368 and 377. -/
def curvePoint (p0 p1 p2 : Vertex k) (numSubdivisions : Int) (x : Nat) : Vertex k :=
  let a : ℚ := (x : ℚ) / (numSubdivisions : ℚ)
  let b : ℚ := 1 - a
  (((p0.mul b).mul b).add (((p1.mul 2).mul b).mul a)).add ((p2.mul a).mul a)

/-- Undefined behaviour that a run of the face-level tessellator can meet
when it reads a control point: the element read does not exist
(`outOfRange`), or the pointer it reads through points into storage that a
`push_back` has released since the pointer was taken (`dangling`). -/
inductive PointerFault where
  | outOfRange : PointerFault
  | dangling : PointerFault
  deriving DecidableEq

/-- The argument `ogVertices` of the face-level tessellator: a vector other
than `newVertices`, or `newVertices` itself, which is what the four-argument
entry point passes (BSP.cpp:292). -/
inductive Source (k : Nat) where
  | other (ogVertices : List (Vertex k)) : Source k
  | output : Source k

/-- The elements of `ogVertices` when `newVertices` holds `newVertices`. -/
def Source.elems (ogVertices : Source k) (newVertices : List (Vertex k)) : List (Vertex k) :=
  match ogVertices with
  | Source.other vertices => vertices
  | Source.output => newVertices

/-- The memory a face-level run works on: the elements and the capacity of
`newVertices`, whether `newVertices` has moved to new storage since
`controlPoints` was filled, and the elements of `newIndices`.  Two more
fields record what the run does: `reads` lists the indices of `ogVertices`
whose elements have been read, in the order the model reads them, and
`calls` counts the calls of the sub-patch tessellator. -/
structure Run (k : Nat) where
  newVertices : List (Vertex k)
  capacity : Nat
  moved : Bool
  newIndices : List Int
  reads : List Int
  calls : Nat

/-- The call `newVertices.push_back(v)`.  When the size has reached the
capacity the vector moves to new storage: `grow` is the capacity it chooses
then (implementation-defined), and every pointer into the old storage is
invalid from then on. -/
def Run.push_back (grow : Nat → Nat) (s : Run k) (v : Vertex k) : Run k :=
  if s.newVertices.length < s.capacity then
    { s with newVertices := s.newVertices ++ [v] }
  else
    { s with newVertices := s.newVertices ++ [v], capacity := grow s.capacity, moved := true }

/-- The read `controls[r][c]` of the sub-patch tessellator: element `c`
behind the pointer `controlPoints[r] = &ogVertices[offs r]`, that is, element
`offs r + c` of the source array as it was when the pointers were taken.
Taking the address reads nothing; the read needs the element to exist and,
when the source is the output vector, the vector not to have moved. -/
def Run.control (ogVertices : Source k) (offs : Fin 3 → Int) (s : Run k) (r c : Fin 3) :
    Except PointerFault (Vertex k × Run k) :=
  match ogVertices with
  | Source.other vertices =>
      match vertexAt vertices (offs r + (c.val : Int)) with
      | none => Except.error PointerFault.outOfRange
      | some v => Except.ok (v, { s with reads := s.reads ++ [offs r + (c.val : Int)] })
  | Source.output =>
      if s.moved = true then Except.error PointerFault.dangling
      else
        match vertexAt s.newVertices (offs r + (c.val : Int)) with
        | none => Except.error PointerFault.outOfRange
        | some v => Except.ok (v, { s with reads := s.reads ++ [offs r + (c.val : Int)] })

/-- One pass of the first vertex loop (BSP.cpp:351-357) against the memory of
the run: the three reads `controls[0][0]`, `controls[1][0]`, `controls[2][0]`,
then the `push_back`. -/
def Run.firstRowStep (ogVertices : Source k) (grow : Nat → Nat) (offs : Fin 3 → Int)
    (numSubdivisions : Int) (s : Run k) (j : Nat) : Except PointerFault (Run k) := do
  let (p0, s0) ← s.control ogVertices offs 0 0
  let (p1, s1) ← s0.control ogVertices offs 1 0
  let (p2, s2) ← s1.control ogVertices offs 2 0
  pure (s2.push_back grow (curvePoint p0 p1 p2 numSubdivisions j))

/-- The assignment `temp[j] = controls[j][0] * b * b + controls[j][1] * 2 * b * a +
controls[j][2] * a * a` (BSP.cpp:368) for the outer counter `i`. -/
def Run.tempRow (ogVertices : Source k) (offs : Fin 3 → Int) (numSubdivisions : Int)
    (i : Nat) (s : Run k) (j : Fin 3) : Except PointerFault (Vertex k × Run k) := do
  let (p0, s0) ← s.control ogVertices offs j 0
  let (p1, s1) ← s0.control ogVertices offs j 1
  let (p2, s2) ← s1.control ogVertices offs j 2
  pure (curvePoint p0 p1 p2 numSubdivisions i, s2)

/-- One pass of the outer loop of BSP.cpp:359-379, for `i = i0 + 1`: the nine
reads that fill `temp`, then the inner loop of `push_back`s, which reads
`temp` only. -/
def Run.gridRowStep (ogVertices : Source k) (grow : Nat → Nat) (offs : Fin 3 → Int)
    (numSubdivisions : Int) (s : Run k) (i0 : Nat) : Except PointerFault (Run k) := do
  let (t0, s0) ← s.tempRow ogVertices offs numSubdivisions (i0 + 1) 0
  let (t1, s1) ← s0.tempRow ogVertices offs numSubdivisions (i0 + 1) 1
  let (t2, s2) ← s1.tempRow ogVertices offs numSubdivisions (i0 + 1) 2
  pure ((List.range (numSubdivisions + 1).toNat).foldl
    (fun (m : Run k) (j : Nat) => m.push_back grow (curvePoint t0 t1 t2 numSubdivisions j)) s2)

/-- The sub-patch tessellator (BSP.cpp:339-399) as the face-level tessellator
calls it: `controls` are the three pointers `&ogVertices[offs r]` and
`vertices`, `indices` are `newVertices`, `newIndices`.  The result is the
memory after the call and the returned `int`.  `TessellatePatch` above is the
same function on control points given by value. -/
def Run.TessellatePatch (ogVertices : Source k) (grow : Nat → Nat) (offs : Fin 3 → Int)
    (s : Run k) (numSubdivisions indexOffset : Int) : Except PointerFault (Run k × Int) := do
  let vOffset : Int := (s.newVertices.length : Int)
  let L1 : Int := numSubdivisions + 1
  -- for (int j = 0; j <= numSubdivisions; ++j)
  let s1 ← (List.range (numSubdivisions + 1).toNat).foldlM
    (Run.firstRowStep ogVertices grow offs numSubdivisions) s
  -- for (int i = 1; i <= numSubdivisions; ++i)
  let s2 ← (List.range numSubdivisions.toNat).foldlM
    (Run.gridRowStep ogVertices grow offs numSubdivisions) s1
  -- for (int i = 0; i < numSubdivisions; ++i) for (int j = 0; j < numSubdivisions; ++j)
  let s3 : Run k :=
    { s2 with newIndices := s2.newIndices ++
        (List.range numSubdivisions.toNat).flatMap (fun i =>
          (List.range numSubdivisions.toNat).flatMap (fun j =>
            cellIndices L1 indexOffset i j)) }
  pure (s3, (s3.newVertices.length : Int) - vOffset)

/-- The body of the nested loops of BSP.cpp:312-331, run over the remaining
values of `cpPatchOffs1`; the state is the memory of the run and
`indexOffset`.  Filling `controlPoints` takes three fresh pointers into the
storage the source array has at that moment. -/
def Run.patchLoop (ogVertices : Source k) (grow : Nat → Nat)
    (numSubdivions verticesPerRow : Int) :
    List Int → Run k → Int → Except PointerFault (Run k × Int)
  | [], s, indexOffset => Except.ok (s, indexOffset)
  | cpPatchOffs1 :: rest, s, indexOffset =>
      let cpPatchOffs2 := cpPatchOffs1 + verticesPerRow
      let cpPatchOffs3 := cpPatchOffs2 + verticesPerRow
      let controlPoints : Fin 3 → Int := ![cpPatchOffs1, cpPatchOffs2, cpPatchOffs3]
      let s0 : Run k := { s with moved := false, calls := s.calls + 1 }
      match Run.TessellatePatch ogVertices grow controlPoints s0 numSubdivions indexOffset with
      | Except.error e => Except.error e
      | Except.ok (s1, ret) =>
          Run.patchLoop ogVertices grow numSubdivions verticesPerRow rest s1 (indexOffset + ret)

/-- What the face-level `Tessellate` leaves behind: the rewritten face, the
two output buffers with the capacity of `newVertices`, and the record of the
run (`reads`, `calls` as in `Run`). -/
structure FaceOut (k : Nat) where
  f : Face k
  newVertices : List (Vertex k)
  capacity : Nat
  newIndices : List Int
  reads : List Int
  calls : Nat

/-- The face-level tessellator, `void BSP::Tessellate(Face& f, const
TVertexList& ogVertices, TVertexList& newVertices, TIndexList& newIndices,
int numSubdivions)` (BSP.cpp:295-336).  `kPolygon` is the constant
`BSP::kPolygon` of the absent header, `capacity` the capacity of
`newVertices` on entry and `grow` the growth rule of `std::vector`.  The
result is an error when the run has undefined behaviour. -/
def Tessellate (kPolygon : Int) (grow : Nat → Nat) (f : Face k) (ogVertices : Source k)
    (newVertices : List (Vertex k)) (capacity : Nat) (newIndices : List Int)
    (numSubdivions : Int) : Except PointerFault (FaceOut k) :=
  let verticesPerRow : Int := f.BezierDimensions 0
  let offsets := patchOffsets f
  let f1 : Face k := { f with StartVertexIndex := (newVertices.length : Int) }
  let f2 : Face k := { f1 with StartIndex := (newIndices.length : Int) }
  let s : Run k :=
    { newVertices := newVertices, capacity := capacity, moved := false,
      newIndices := newIndices, reads := [], calls := 0 }
  match Run.patchLoop ogVertices grow numSubdivions verticesPerRow offsets s 0 with
  | Except.error e => Except.error e
  | Except.ok (s1, _) =>
      let f3 : Face k :=
        { f2 with NumIndices := (s1.newIndices.length : Int) - f2.StartIndex }
      let f4 : Face k :=
        { f3 with NumVertices := (s1.newVertices.length : Int) - f3.StartVertexIndex }
      let f5 : Face k := { f4 with FaceType := kPolygon }
      Except.ok { f := f5, newVertices := s1.newVertices, capacity := s1.capacity,
                  newIndices := s1.newIndices, reads := s1.reads, calls := s1.calls }

/-- The four-argument entry point, `void BSP::Tessellate(Face& f, TVertexList&
vertices, TIndexList& indices, int numSubdivions)` (BSP.cpp:286-293): the
face-level tessellator with `vertices` as source and as output. -/
def Tessellate_inplace (kPolygon : Int) (grow : Nat → Nat) (f : Face k)
    (vertices : List (Vertex k)) (capacity : Nat) (indices : List Int)
    (numSubdivions : Int) : Except PointerFault (FaceOut k) :=
  Tessellate kPolygon grow f Source.output vertices capacity indices numSubdivions

/-- The block of vertices one sub-patch call appends: the first row, then
rows `1 .. numSubdivisions`. -/
def patchVertices (controls : Fin 3 → Fin 3 → Vertex k) (numSubdivisions : Int) :
    List (Vertex k) :=
  (List.range (numSubdivisions + 1).toNat).map
      (fun j => firstRowVertex controls numSubdivisions j) ++
    (List.range numSubdivisions.toNat).flatMap (fun i0 =>
      (List.range (numSubdivisions + 1).toNat).map
        (fun j => gridVertex controls numSubdivisions (i0 + 1) j))

/-- The block of indices one sub-patch call appends. -/
def patchIndices (numSubdivisions indexOffset : Int) : List Int :=
  (List.range numSubdivisions.toNat).flatMap (fun i =>
    (List.range numSubdivisions.toNat).flatMap (fun j =>
      cellIndices (numSubdivisions + 1) indexOffset i j))

/-- A vertex whose interpolated members all hold the value `x`. -/
def sampleVertex (x : ℚ) : Vertex 4 :=
  { Position := fun _ => x
    TexCoord := fun _ => x
    LMCoord := fun _ _ => x
    Normal := fun _ => x
    Rest := RestBytes.zeroed }

/-- A 3×3 control grid whose point `(r, c)` holds the value `3 * r + c`. -/
def sampleControls : Fin 3 → Fin 3 → Vertex 4 :=
  fun r c => sampleVertex ((3 * r.val + c.val : Nat) : ℚ)

/-- A 3×3 patch face whose control points start at index 2 of the source
array. -/
def sampleFace : Face 4 :=
  { TextureID := 7
    FogID := -1
    FaceType := 2
    StartVertexIndex := 2
    NumVertices := 9
    StartIndex := 0
    NumIndices := 0
    LightMapIDs := fun _ => 3
    LMX := fun _ => 0
    LMY := fun _ => 0
    LMWidth := 16
    LMHeight := 16
    LMOrigin := fun _ => 0
    LMVecs := fun _ _ => 0
    BezierDimensions := ![3, 3]
    Rest := RestBytes.zeroed }

/-- Eleven source vertices: two unrelated ones, then the nine control points
of `sampleFace`. -/
def sampleVertices : List (Vertex 4) :=
  (List.range 11).map (fun i => sampleVertex (i : ℚ))

end BSP

/-! ## Legacy records and their upgrade (BSP.cpp:8-131) -/

namespace BSP

/-- Modelled from the spec: the declaration of `BSP::BrushSide` is in the
absent header `id3bsp/BSP.h`.  The members are those `BSP.cpp` accesses
(lines 79-81); `Rest` stands for every other member. -/
structure BrushSide where
  Plane : Int
  TextureIndex : Int
  DrawSurfIndex : Int
  Rest : RestBytes
  deriving DecidableEq

/-- Modelled from the spec: the declaration of `BSP::LightVolume` is in the
absent header `id3bsp/BSP.h`.  The members are those `BSP.cpp` accesses
(lines 127-129); `Rest` stands for every other member. -/
structure LightVolume (kMaxLightMaps : Nat) where
  Ambient : Fin kMaxLightMaps → Fin 3 → UInt8
  Directional : Fin kMaxLightMaps → Fin 3 → UInt8
  Direction : Fin 2 → UInt8
  Rest : RestBytes

/-- Modelled from the spec: `BSP::Lump`, declared in the absent header and
described by the spec as `{offset: u32, length: u32}`. -/
structure Lump where
  Offset : Nat
  Length : Nat
  deriving DecidableEq

end BSP

namespace IBSP

/-- The legacy record `IBSP::BrushSide` (BSP.cpp:10-14). -/
structure BrushSide where
  Plane : Int
  TextureIndex : Int
  deriving DecidableEq

/-- The legacy record `IBSP::Vertex` (BSP.cpp:16-23). -/
structure Vertex where
  Position : Fin 3 → ℚ
  TexCoord : Fin 2 → ℚ
  LMCoord : Fin 2 → ℚ
  Normal : Fin 3 → ℚ
  Color : Fin 4 → UInt8

/-- The legacy record `IBSP::Face` (BSP.cpp:25-47). -/
structure Face where
  TextureID : Int
  FogID : Int
  FaceType : Int
  StartVertexIndex : Int
  NumVertices : Int
  StartIndex : Int
  NumIndices : Int
  LightMapID : Int
  LMX : Int
  LMY : Int
  LMWidth : Int
  LMHeight : Int
  LMOrigin : Fin 3 → ℚ
  LMVecs : Fin 3 → Fin 3 → ℚ
  BezierDimensions : Fin 2 → Int

/-- The legacy record `IBSP::LightVolume` (BSP.cpp:49-54). -/
structure LightVolume where
  Ambient : Fin 3 → UInt8
  Directional : Fin 3 → UInt8
  Direction : Fin 2 → UInt8

end IBSP

variable {k : Nat}

/-- The object left by `BSP::BrushSide a; memset(&a, 0, sizeof(a));`. -/
def BSP.BrushSide.zeroed : BSP.BrushSide :=
  { Plane := 0, TextureIndex := 0, DrawSurfIndex := 0, Rest := RestBytes.zeroed }

/-- The object left by `BSP::Vertex a; memset(&a, 0, sizeof(a));`. -/
def BSP.Vertex.zeroed : BSP.Vertex k :=
  { Position := fun _ => 0
    TexCoord := fun _ => 0
    LMCoord := fun _ _ => 0
    Normal := fun _ => 0
    Rest := RestBytes.zeroed }

/-- The object left by `BSP::Face a; memset(&a, 0, sizeof(a));`. -/
def BSP.Face.zeroed : BSP.Face k :=
  { TextureID := 0
    FogID := 0
    FaceType := 0
    StartVertexIndex := 0
    NumVertices := 0
    StartIndex := 0
    NumIndices := 0
    LightMapIDs := fun _ => 0
    LMX := fun _ => 0
    LMY := fun _ => 0
    LMWidth := 0
    LMHeight := 0
    LMOrigin := fun _ => 0
    LMVecs := fun _ _ => 0
    BezierDimensions := fun _ => 0
    Rest := RestBytes.zeroed }

/-- The object left by `BSP::LightVolume a; memset(&a, 0, sizeof(a));`. -/
def BSP.LightVolume.zeroed : BSP.LightVolume k :=
  { Ambient := fun _ _ => 0
    Directional := fun _ _ => 0
    Direction := fun _ => 0
    Rest := RestBytes.zeroed }

/-- Upgrade of a legacy brush side, `ibsp_to_rbsp(const IBSP::BrushSide&)`
(BSP.cpp:74-83). -/
def ibsp_to_rbsp_BrushSide (b : IBSP.BrushSide) : BSP.BrushSide :=
  let a : BSP.BrushSide := BSP.BrushSide.zeroed
  let a := { a with Plane := b.Plane }
  let a := { a with TextureIndex := b.TextureIndex }
  let a := { a with DrawSurfIndex := -1 }
  a

/-- Upgrade of a legacy vertex, `ibsp_to_rbsp(const IBSP::Vertex&)`
(BSP.cpp:85-95). -/
def ibsp_to_rbsp_Vertex (b : IBSP.Vertex) : BSP.Vertex k :=
  let a : BSP.Vertex k := BSP.Vertex.zeroed
  let a := { a with Position := copy_array b.Position }
  let a := { a with TexCoord := copy_array b.TexCoord }
  let a := { a with LMCoord := setAt a.LMCoord 0 (copy_array b.LMCoord) }
  let a := { a with Normal := copy_array b.Normal }
  a

/-- Upgrade of a legacy face, `ibsp_to_rbsp(const IBSP::Face&)`
(BSP.cpp:97-120).  `kLightMapNone` is the constant `BSP::kLightMapNone` of
the absent header. -/
def ibsp_to_rbsp_Face (kLightMapNone : Int) (b : IBSP.Face) : BSP.Face k :=
  let a : BSP.Face k := BSP.Face.zeroed
  let a := { a with TextureID := b.TextureID }
  let a := { a with FogID := b.FogID }
  let a := { a with FaceType := b.FaceType }
  let a := { a with StartVertexIndex := b.StartVertexIndex }
  let a := { a with NumVertices := b.NumVertices }
  let a := { a with StartIndex := b.StartIndex }
  let a := { a with NumIndices := b.NumIndices }
  let a := { a with LightMapIDs := setAt a.LightMapIDs 0 b.LightMapID }
  -- for (int i = 1; i < BSP::kMaxLightMaps; ++i)
  let a := (List.range' 1 (k - 1)).foldl
    (fun (a : BSP.Face k) i => { a with LightMapIDs := setAt a.LightMapIDs i kLightMapNone }) a
  let a := { a with LMX := setAt a.LMX 0 b.LMX }
  let a := { a with LMY := setAt a.LMY 0 b.LMY }
  let a := { a with LMWidth := b.LMWidth }
  let a := { a with LMHeight := b.LMHeight }
  let a := { a with LMOrigin := copy_array b.LMOrigin }
  let a := { a with LMVecs := copy_array b.LMVecs }
  let a := { a with BezierDimensions := copy_array b.BezierDimensions }
  a

/-- Upgrade of a legacy light volume, `ibsp_to_rbsp(const IBSP::LightVolume&)`
(BSP.cpp:122-131). -/
def ibsp_to_rbsp_LightVolume (b : IBSP.LightVolume) : BSP.LightVolume k :=
  let a : BSP.LightVolume k := BSP.LightVolume.zeroed
  let a := { a with Ambient := setAt a.Ambient 0 (copy_array b.Ambient) }
  let a := { a with Directional := setAt a.Directional 0 (copy_array b.Directional) }
  let a := { a with Direction := copy_array b.Direction }
  a

/-! ## Lump decoding (BSP.cpp:133-284) -/

/-- The two ways a run of the decoder stops being a defined, completed call.
The source has no error return (`Load` always returns `true`): a failed
`assert` aborts the process, and a read behind the end of the input buffer
is undefined behaviour. -/
inductive Fault where
  | assertFailed : Fault
  | readPastEnd : Fault
  deriving DecidableEq

/-- The size of a record type and the reinterpretation of `size` bytes as a
record: what `memcpy` into a `T` object does. -/
structure Layout (T : Type) where
  size : Nat
  ofBytes : List UInt8 → T

/-- A record kept as its bytes. -/
def Layout.raw (size : Nat) : Layout (List UInt8) :=
  { size := size, ofBytes := fun bytes => bytes }

/-- The bytes `cursor[start .. start + len)`. -/
def slice (cursor : List UInt8) (start len : Nat) : List UInt8 :=
  (cursor.drop start).take len

/-- The little-endian `uint32_t` stored at byte `pos`. -/
def u32 (bytes : List UInt8) (pos : Nat) : Nat :=
  (bytes.getD pos 0).toNat + 256 * (bytes.getD (pos + 1) 0).toNat +
    65536 * (bytes.getD (pos + 2) 0).toNat + 16777216 * (bytes.getD (pos + 3) 0).toNat

/-- The little-endian two's-complement `int32_t` stored at byte `pos`. -/
def i32 (bytes : List UInt8) (pos : Nat) : Int :=
  if u32 bytes pos < 2147483648 then (u32 bytes pos : Int)
  else (u32 bytes pos : Int) - 4294967296

/-- The layout of `IBSP::BrushSide` (BSP.cpp:10-14): a `uint32_t` followed by
an `int32_t`. -/
def IBSP.BrushSide.layout : Layout IBSP.BrushSide :=
  { size := 8
    ofBytes := fun bytes => { Plane := (u32 bytes 0 : Int), TextureIndex := i32 bytes 4 } }

/-- The typed lump reader, `template<class T> ReadLump(const uint8_t* cursor,
std::vector<T>& array, const BSP::Lump& lump)` (BSP.cpp:155-169); the result
is `array`.  `ndebug` tells whether `assert` is compiled out.  After
`array.resize(count)` the `memcpy` overwrites all `count` elements, so the
new content is the `count` records cut from the buffer. -/
def ReadLump {T : Type} (ndebug : Bool) (L : Layout T) (cursor : List UInt8)
    (array : List T) (lump : BSP.Lump) : Except Fault (List T) :=
  if lump.Length > 0 then
    let count := lump.Length / L.size
    if ndebug = false ∧ count * L.size ≠ lump.Length then
      Except.error Fault.assertFailed
    else if 0 < count * L.size ∧ cursor.length < lump.Offset + count * L.size then
      Except.error Fault.readPastEnd
    else
      Except.ok ((List.range count).map
        (fun i => L.ofBytes (slice cursor (lump.Offset + i * L.size) L.size)))
  else
    Except.ok array

/-- The upgrading lump reader, `UpgradeLump<IBSP_T, RBSP_T>` (BSP.cpp:171-182);
the result is `rbspArray`.  `conv` is the overload of `ibsp_to_rbsp` for
`IBSP_T`. -/
def UpgradeLump {I R : Type} (ndebug : Bool) (L : Layout I) (conv : I → R)
    (cursor : List UInt8) (rbspArray : List R) (lump : BSP.Lump) :
    Except Fault (List R) :=
  match ReadLump ndebug L cursor ([] : List I) lump with
  | Except.error e => Except.error e
  | Except.ok ibspArray => Except.ok (rbspArray ++ ibspArray.map conv)

/-- The characters of the C string that starts the list: everything before
the first zero byte; `none` when there is no zero byte. -/
def cstring : List UInt8 → Option (List UInt8)
  | [] => none
  | c :: rest => if c = 0 then some [] else (cstring rest).map (fun s => c :: s)

/-- The string lump reader, `ReadLump(const uint8_t* cursor, std::string& str,
const BSP::Lump& lump)` (BSP.cpp:184-191); the result is `str`.  The
assignment from `const char*` copies up to the first zero byte. -/
def ReadLumpString (cursor : List UInt8) (str : List UInt8) (lump : BSP.Lump) :
    Except Fault (List UInt8) :=
  if lump.Length > 0 then
    match cstring (cursor.drop lump.Offset) with
    | none => Except.error Fault.readPastEnd
    | some s => Except.ok s
  else
    Except.ok str

namespace BSP

/-- Modelled from the spec: the constants and layouts that `BSP::Load` takes
from the absent header `id3bsp/BSP.h` (the header size and the place of its
format tag, the tag of the newer generation, the position of every lump in
the lump table, the size of every record type), the layouts of the legacy
records whose member types that header declares, and the build mode. -/
structure Config (kMaxLightMaps : Nat) where
  ndebug : Bool
  sizeofHeader : Nat
  offsetofFormat : Nat
  kRBSPFormat : Nat
  kLightMapNone : Int
  kEntities : Nat
  kTextures : Nat
  kPlanes : Nat
  kNodes : Nat
  kLeaves : Nat
  kLeafFaces : Nat
  kLeafBrushes : Nat
  kModels : Nat
  kBrushes : Nat
  kBrushSides : Nat
  kVertices : Nat
  kIndices : Nat
  kFogs : Nat
  kFaces : Nat
  kLightmaps : Nat
  kLightVolumes : Nat
  kVisData : Nat
  sizeofTexture : Nat
  sizeofPlane : Nat
  sizeofNode : Nat
  sizeofLeaf : Nat
  sizeofLeafFace : Nat
  sizeofLeafBrush : Nat
  sizeofModel : Nat
  sizeofBrush : Nat
  sizeofFog : Nat
  sizeofLightMap : Nat
  layoutIndex : Layout Int
  layoutBrushSide : Layout BrushSide
  layoutVertex : Layout (Vertex kMaxLightMaps)
  layoutFace : Layout (Face kMaxLightMaps)
  layoutLightVolume : Layout (LightVolume kMaxLightMaps)
  layoutLegacyVertex : Layout IBSP.Vertex
  layoutLegacyFace : Layout IBSP.Face
  layoutLegacyLightVolume : Layout IBSP.LightVolume

/-- Modelled from the spec: the data members of class `BSP`, declared in the
absent header; they are those `BSP::Unload` resets (BSP.cpp:263-283).
Records of a type that `BSP.cpp` never looks into are kept as their bytes. -/
structure State (kMaxLightMaps : Nat) where
  Materials : List (List UInt8)
  Planes : List (List UInt8)
  Nodes : List (List UInt8)
  Leaves : List (List UInt8)
  LeafFaces : List (List UInt8)
  LeafBrushes : List (List UInt8)
  Models : List (List UInt8)
  Brushes : List (List UInt8)
  BrushSides : List BrushSide
  Vertices : List (Vertex kMaxLightMaps)
  Indices : List Int
  Fogs : List (List UInt8)
  Faces : List (Face kMaxLightMaps)
  LightMaps : List (List UInt8)
  LightVolumes : List (LightVolume kMaxLightMaps)
  EntityString : List UInt8
  ClusterBits : List UInt8
  NumClusters : Nat
  ClusterVisDataSize : Nat
  Format : Nat

/-- The reset of every data member, `BSP::Unload` (BSP.cpp:261-284). -/
def Unload (self : State k) : State k :=
  { self with
    Materials := []
    Planes := []
    Nodes := []
    Leaves := []
    LeafFaces := []
    LeafBrushes := []
    Models := []
    Brushes := []
    BrushSides := []
    Vertices := []
    Indices := []
    Fogs := []
    Faces := []
    LightMaps := []
    LightVolumes := []
    EntityString := []
    ClusterBits := []
    NumClusters := 0
    ClusterVisDataSize := 0
    Format := 0 }

/-- The read of `header->Format` (BSP.cpp:198-200). -/
def readFormat (cfg : Config k) (lpBytes : List UInt8) : Except Fault Nat :=
  if lpBytes.length < cfg.offsetofFormat + 4 then Except.error Fault.readPastEnd
  else Except.ok (u32 lpBytes cfg.offsetofFormat)

/-- The two words of `lumps[i]`, with
`lumps = (const Lump*)(lpBytes + sizeof(Header))` (BSP.cpp:203). -/
def lumpAt (cfg : Config k) (lpBytes : List UInt8) (i : Nat) : Lump :=
  { Offset := u32 lpBytes (cfg.sizeofHeader + i * 8)
    Length := u32 lpBytes (cfg.sizeofHeader + i * 8 + 4) }

/-- The read of `lumps[i]`; a fault when the entry lies behind the end of the
buffer. -/
def lumps (cfg : Config k) (lpBytes : List UInt8) (i : Nat) : Except Fault Lump :=
  if lpBytes.length < cfg.sizeofHeader + i * 8 + 8 then Except.error Fault.readPastEnd
  else Except.ok (lumpAt cfg lpBytes i)

/-- The visibility block of `BSP::Load` (BSP.cpp:243-254).  After
`ClusterBits.resize(n)` the `memcpy` overwrites all `n` bytes. -/
def LoadVisData (lpBytes : List UInt8) (lump : Lump) (self : State k) :
    Except Fault (State k) :=
  let self := { self with NumClusters := 0 }
  let self := { self with ClusterVisDataSize := 0 }
  if lump.Length ≠ 0 then
    if lpBytes.length < lump.Offset + 8 then Except.error Fault.readPastEnd
    else
      let self := { self with NumClusters := u32 lpBytes lump.Offset }
      let self := { self with ClusterVisDataSize := u32 lpBytes (lump.Offset + 4) }
      let n := self.NumClusters * self.ClusterVisDataSize
      if 0 < n ∧ lpBytes.length < lump.Offset + 8 + n then Except.error Fault.readPastEnd
      else Except.ok { self with ClusterBits := slice lpBytes (lump.Offset + 8) n }
  else
    Except.ok self

/-- The format dispatch of `BSP::Load` (BSP.cpp:215-229): the brush sides,
vertices, faces and light volumes, read directly for the newer generation
and through `UpgradeLump` otherwise. -/
def LoadUpgraded (cfg : Config k) (lpBytes : List UInt8) (Format : Nat) (self : State k) :
    Except Fault
      (List BrushSide × List (Vertex k) × List (Face k) × List (LightVolume k)) :=
  if Format = cfg.kRBSPFormat then do
    let BrushSides ← ReadLump cfg.ndebug cfg.layoutBrushSide lpBytes
      self.BrushSides (← lumps cfg lpBytes cfg.kBrushSides)
    let Vertices ← ReadLump cfg.ndebug cfg.layoutVertex lpBytes
      self.Vertices (← lumps cfg lpBytes cfg.kVertices)
    let Faces ← ReadLump cfg.ndebug cfg.layoutFace lpBytes
      self.Faces (← lumps cfg lpBytes cfg.kFaces)
    let LightVolumes ← ReadLump cfg.ndebug cfg.layoutLightVolume lpBytes
      self.LightVolumes (← lumps cfg lpBytes cfg.kLightVolumes)
    pure (BrushSides, Vertices, Faces, LightVolumes)
  else do
    let BrushSides ← UpgradeLump cfg.ndebug IBSP.BrushSide.layout ibsp_to_rbsp_BrushSide
      lpBytes self.BrushSides (← lumps cfg lpBytes cfg.kBrushSides)
    let Vertices ← UpgradeLump cfg.ndebug cfg.layoutLegacyVertex ibsp_to_rbsp_Vertex
      lpBytes self.Vertices (← lumps cfg lpBytes cfg.kVertices)
    let Faces ← UpgradeLump cfg.ndebug cfg.layoutLegacyFace
      (ibsp_to_rbsp_Face cfg.kLightMapNone) lpBytes self.Faces
      (← lumps cfg lpBytes cfg.kFaces)
    let LightVolumes ← UpgradeLump cfg.ndebug cfg.layoutLegacyLightVolume
      ibsp_to_rbsp_LightVolume lpBytes self.LightVolumes
      (← lumps cfg lpBytes cfg.kLightVolumes)
    pure (BrushSides, Vertices, Faces, LightVolumes)

/-- The entity block of `BSP::Load` (BSP.cpp:237-241); the result is
`EntityString`. -/
def LoadEntities (lpBytes : List UInt8) (entities : Lump) (self : State k) :
    Except Fault (List UInt8) :=
  if entities.Length ≠ 0 then ReadLumpString lpBytes self.EntityString entities
  else Except.ok self.EntityString

/-- The decoder, `bool BSP::Load(const uint8_t* lpBytes, size_t cbSize)`
(BSP.cpp:193-259).  The source never looks at `cbSize`; here the length of
`lpBytes` only decides whether a read stays inside the buffer.  A completed
run is `Except.ok` of the new object state (the source then returns `true`).
Every member is assigned at most once after `Unload`, so the new state is
put together at the end. -/
def Load (cfg : Config k) (lpBytes : List UInt8) (self : State k) :
    Except Fault (State k) := do
  let self := Unload self
  let Format ← readFormat cfg lpBytes
  let Materials ← ReadLump cfg.ndebug (Layout.raw cfg.sizeofTexture) lpBytes
    self.Materials (← lumps cfg lpBytes cfg.kTextures)
  let Planes ← ReadLump cfg.ndebug (Layout.raw cfg.sizeofPlane) lpBytes
    self.Planes (← lumps cfg lpBytes cfg.kPlanes)
  let Nodes ← ReadLump cfg.ndebug (Layout.raw cfg.sizeofNode) lpBytes
    self.Nodes (← lumps cfg lpBytes cfg.kNodes)
  let Leaves ← ReadLump cfg.ndebug (Layout.raw cfg.sizeofLeaf) lpBytes
    self.Leaves (← lumps cfg lpBytes cfg.kLeaves)
  let LeafFaces ← ReadLump cfg.ndebug (Layout.raw cfg.sizeofLeafFace) lpBytes
    self.LeafFaces (← lumps cfg lpBytes cfg.kLeafFaces)
  let LeafBrushes ← ReadLump cfg.ndebug (Layout.raw cfg.sizeofLeafBrush) lpBytes
    self.LeafBrushes (← lumps cfg lpBytes cfg.kLeafBrushes)
  let Models ← ReadLump cfg.ndebug (Layout.raw cfg.sizeofModel) lpBytes
    self.Models (← lumps cfg lpBytes cfg.kModels)
  let Brushes ← ReadLump cfg.ndebug (Layout.raw cfg.sizeofBrush) lpBytes
    self.Brushes (← lumps cfg lpBytes cfg.kBrushes)
  let upgraded ← LoadUpgraded cfg lpBytes Format self
  let Indices ← ReadLump cfg.ndebug cfg.layoutIndex lpBytes
    self.Indices (← lumps cfg lpBytes cfg.kIndices)
  let Fogs ← ReadLump cfg.ndebug (Layout.raw cfg.sizeofFog) lpBytes
    self.Fogs (← lumps cfg lpBytes cfg.kFogs)
  let LightMaps ← ReadLump cfg.ndebug (Layout.raw cfg.sizeofLightMap) lpBytes
    self.LightMaps (← lumps cfg lpBytes cfg.kLightmaps)
  let EntityString ← LoadEntities lpBytes (← lumps cfg lpBytes cfg.kEntities) self
  LoadVisData lpBytes (← lumps cfg lpBytes cfg.kVisData)
    { self with
      Format := Format
      Materials := Materials
      Planes := Planes
      Nodes := Nodes
      Leaves := Leaves
      LeafFaces := LeafFaces
      LeafBrushes := LeafBrushes
      Models := Models
      Brushes := Brushes
      BrushSides := upgraded.1
      Vertices := upgraded.2.1
      Faces := upgraded.2.2.1
      LightVolumes := upgraded.2.2.2
      Indices := Indices
      Fogs := Fogs
      LightMaps := LightMaps
      EntityString := EntityString }

end BSP

/-! ## Well-formed file images -/

namespace BSP

/-- A typed lump is inside the buffer and its length is a multiple of the
record size. -/
abbrev LumpFits (size : Nat) (lpBytes : List UInt8) (lump : Lump) : Prop :=
  lump.Offset + lump.Length ≤ lpBytes.length ∧ lump.Length % size = 0

/-- The lump-table positions `BSP::Load` reads. -/
def lumpKinds (cfg : Config k) : List Nat :=
  [cfg.kTextures, cfg.kPlanes, cfg.kNodes, cfg.kLeaves, cfg.kLeafFaces, cfg.kLeafBrushes,
    cfg.kModels, cfg.kBrushes, cfg.kBrushSides, cfg.kVertices, cfg.kFaces, cfg.kLightVolumes,
    cfg.kIndices, cfg.kFogs, cfg.kLightmaps, cfg.kEntities, cfg.kVisData]

/-- A valid file image: the format tag and the 17 lump-table entries are
inside the buffer, every typed lump fits (with the record size of its
generation), the entity text is zero-terminated inside the buffer, and the
visibility lump is empty or holds its two words and `C * S` bytes. -/
abbrev WellFormed (cfg : Config k) (lpBytes : List UInt8) : Prop :=
  cfg.offsetofFormat + 4 ≤ lpBytes.length ∧
  (∀ i ∈ lumpKinds cfg, cfg.sizeofHeader + i * 8 + 8 ≤ lpBytes.length) ∧
  LumpFits cfg.sizeofTexture lpBytes (lumpAt cfg lpBytes cfg.kTextures) ∧
  LumpFits cfg.sizeofPlane lpBytes (lumpAt cfg lpBytes cfg.kPlanes) ∧
  LumpFits cfg.sizeofNode lpBytes (lumpAt cfg lpBytes cfg.kNodes) ∧
  LumpFits cfg.sizeofLeaf lpBytes (lumpAt cfg lpBytes cfg.kLeaves) ∧
  LumpFits cfg.sizeofLeafFace lpBytes (lumpAt cfg lpBytes cfg.kLeafFaces) ∧
  LumpFits cfg.sizeofLeafBrush lpBytes (lumpAt cfg lpBytes cfg.kLeafBrushes) ∧
  LumpFits cfg.sizeofModel lpBytes (lumpAt cfg lpBytes cfg.kModels) ∧
  LumpFits cfg.sizeofBrush lpBytes (lumpAt cfg lpBytes cfg.kBrushes) ∧
  (if u32 lpBytes cfg.offsetofFormat = cfg.kRBSPFormat then
    LumpFits cfg.layoutBrushSide.size lpBytes (lumpAt cfg lpBytes cfg.kBrushSides) ∧
    LumpFits cfg.layoutVertex.size lpBytes (lumpAt cfg lpBytes cfg.kVertices) ∧
    LumpFits cfg.layoutFace.size lpBytes (lumpAt cfg lpBytes cfg.kFaces) ∧
    LumpFits cfg.layoutLightVolume.size lpBytes (lumpAt cfg lpBytes cfg.kLightVolumes)
  else
    LumpFits IBSP.BrushSide.layout.size lpBytes (lumpAt cfg lpBytes cfg.kBrushSides) ∧
    LumpFits cfg.layoutLegacyVertex.size lpBytes (lumpAt cfg lpBytes cfg.kVertices) ∧
    LumpFits cfg.layoutLegacyFace.size lpBytes (lumpAt cfg lpBytes cfg.kFaces) ∧
    LumpFits cfg.layoutLegacyLightVolume.size lpBytes
      (lumpAt cfg lpBytes cfg.kLightVolumes)) ∧
  LumpFits cfg.layoutIndex.size lpBytes (lumpAt cfg lpBytes cfg.kIndices) ∧
  LumpFits cfg.sizeofFog lpBytes (lumpAt cfg lpBytes cfg.kFogs) ∧
  LumpFits cfg.sizeofLightMap lpBytes (lumpAt cfg lpBytes cfg.kLightmaps) ∧
  ((lumpAt cfg lpBytes cfg.kEntities).Length = 0 ∨
    (cstring (lpBytes.drop (lumpAt cfg lpBytes cfg.kEntities).Offset)).isSome = true) ∧
  ((lumpAt cfg lpBytes cfg.kVisData).Length = 0 ∨
    (lumpAt cfg lpBytes cfg.kVisData).Offset + 8 +
      u32 lpBytes (lumpAt cfg lpBytes cfg.kVisData).Offset *
        u32 lpBytes ((lumpAt cfg lpBytes cfg.kVisData).Offset + 4) ≤ lpBytes.length)

/-- Every array of `t` whose lump is empty in `lpBytes` is empty. -/
def EmptyLumpsGiveEmptyArrays (cfg : Config k) (lpBytes : List UInt8) (t : State k) : Prop :=
  ((lumpAt cfg lpBytes cfg.kTextures).Length = 0 → t.Materials = []) ∧
  ((lumpAt cfg lpBytes cfg.kPlanes).Length = 0 → t.Planes = []) ∧
  ((lumpAt cfg lpBytes cfg.kNodes).Length = 0 → t.Nodes = []) ∧
  ((lumpAt cfg lpBytes cfg.kLeaves).Length = 0 → t.Leaves = []) ∧
  ((lumpAt cfg lpBytes cfg.kLeafFaces).Length = 0 → t.LeafFaces = []) ∧
  ((lumpAt cfg lpBytes cfg.kLeafBrushes).Length = 0 → t.LeafBrushes = []) ∧
  ((lumpAt cfg lpBytes cfg.kModels).Length = 0 → t.Models = []) ∧
  ((lumpAt cfg lpBytes cfg.kBrushes).Length = 0 → t.Brushes = []) ∧
  ((lumpAt cfg lpBytes cfg.kBrushSides).Length = 0 → t.BrushSides = []) ∧
  ((lumpAt cfg lpBytes cfg.kVertices).Length = 0 → t.Vertices = []) ∧
  ((lumpAt cfg lpBytes cfg.kFaces).Length = 0 → t.Faces = []) ∧
  ((lumpAt cfg lpBytes cfg.kLightVolumes).Length = 0 → t.LightVolumes = []) ∧
  ((lumpAt cfg lpBytes cfg.kIndices).Length = 0 → t.Indices = []) ∧
  ((lumpAt cfg lpBytes cfg.kFogs).Length = 0 → t.Fogs = []) ∧
  ((lumpAt cfg lpBytes cfg.kLightmaps).Length = 0 → t.LightMaps = []) ∧
  ((lumpAt cfg lpBytes cfg.kEntities).Length = 0 → t.EntityString = []) ∧
  ((lumpAt cfg lpBytes cfg.kVisData).Length = 0 →
    t.ClusterBits = [] ∧ t.NumClusters = 0 ∧ t.ClusterVisDataSize = 0)

end BSP

/-! ## Sample inputs -/

namespace BSP

/-- The four little-endian bytes of a 32-bit word. -/
def le32 (n : Nat) : List UInt8 :=
  [UInt8.ofNat (n % 256), UInt8.ofNat (n / 256 % 256), UInt8.ofNat (n / 65536 % 256),
    UInt8.ofNat (n / 16777216 % 256)]

/-- A configuration with the lump order and record sizes of the Quake III
format family and four lightmap channels. -/
def sampleConfig : Config 4 :=
  { ndebug := false
    sizeofHeader := 8
    offsetofFormat := 0
    kRBSPFormat := 1347633746
    kLightMapNone := -1
    kEntities := 0
    kTextures := 1
    kPlanes := 2
    kNodes := 3
    kLeaves := 4
    kLeafFaces := 5
    kLeafBrushes := 6
    kModels := 7
    kBrushes := 8
    kBrushSides := 9
    kVertices := 10
    kIndices := 11
    kFogs := 12
    kFaces := 13
    kLightmaps := 14
    kLightVolumes := 15
    kVisData := 16
    sizeofTexture := 72
    sizeofPlane := 16
    sizeofNode := 36
    sizeofLeaf := 48
    sizeofLeafFace := 4
    sizeofLeafBrush := 4
    sizeofModel := 40
    sizeofBrush := 12
    sizeofFog := 72
    sizeofLightMap := 49152
    layoutIndex := { size := 4, ofBytes := fun bytes => (u32 bytes 0 : Int) }
    layoutBrushSide :=
      { size := 12
        ofBytes := fun bytes =>
          { Plane := (u32 bytes 0 : Int), TextureIndex := i32 bytes 4,
            DrawSurfIndex := i32 bytes 8, Rest := RestBytes.raw [] } }
    layoutVertex := { size := 80, ofBytes := fun bytes => { sampleVertex 0 with Rest := RestBytes.raw bytes } }
    layoutFace := { size := 148, ofBytes := fun bytes => { sampleFace with Rest := RestBytes.raw bytes } }
    layoutLightVolume :=
      { size := 30
        ofBytes := fun bytes =>
          { Ambient := fun _ _ => 0, Directional := fun _ _ => 0, Direction := fun _ => 0,
            Rest := RestBytes.raw bytes } }
    layoutLegacyVertex :=
      { size := 44
        ofBytes := fun bytes =>
          { Position := fun _ => 0, TexCoord := fun _ => 0, LMCoord := fun _ => 0,
            Normal := fun _ => 0, Color := fun i => bytes.getD (40 + i.val) 0 } }
    layoutLegacyFace :=
      { size := 104
        ofBytes := fun bytes =>
          { TextureID := i32 bytes 0, FogID := i32 bytes 4, FaceType := (u32 bytes 8 : Int),
            StartVertexIndex := (u32 bytes 12 : Int), NumVertices := (u32 bytes 16 : Int),
            StartIndex := (u32 bytes 20 : Int), NumIndices := (u32 bytes 24 : Int),
            LightMapID := (u32 bytes 28 : Int), LMX := (u32 bytes 32 : Int),
            LMY := (u32 bytes 36 : Int), LMWidth := (u32 bytes 40 : Int),
            LMHeight := (u32 bytes 44 : Int), LMOrigin := fun _ => 0, LMVecs := fun _ _ => 0,
            BezierDimensions := ![i32 bytes 96, i32 bytes 100] } }
    layoutLegacyLightVolume :=
      { size := 8
        ofBytes := fun bytes =>
          { Ambient := fun i => bytes.getD i.val 0, Directional := fun i => bytes.getD (3 + i.val) 0,
            Direction := fun i => bytes.getD (6 + i.val) 0 } } }

/-- A legacy-format file image of 165 bytes: the header, the table of 17
lumps, one brush side (plane 5, texture -1) at offset 144, a visibility
block of 2 clusters with stride 1 at offset 152 and the entity text `{}`
with its terminating zero at offset 162.  Every other lump is empty. -/
def sampleBuffer : List UInt8 :=
  le32 1347633737 ++ le32 46 ++
  (le32 162 ++ le32 3) ++
  (List.replicate 8 (le32 0 ++ le32 0)).flatten ++
  (le32 144 ++ le32 8) ++
  (List.replicate 6 (le32 0 ++ le32 0)).flatten ++
  (le32 152 ++ le32 10) ++
  (le32 5 ++ le32 4294967295) ++
  (le32 2 ++ le32 1 ++ [170, 187]) ++
  [123, 125, 0]

/-- An object state that holds data of an earlier load. -/
def sampleState : State 4 :=
  { Materials := [[1, 2, 3]]
    Planes := [[4]]
    Nodes := [[5]]
    Leaves := [[6]]
    LeafFaces := [[7]]
    LeafBrushes := [[8]]
    Models := [[9]]
    Brushes := [[10]]
    BrushSides := [{ Plane := 1, TextureIndex := 2, DrawSurfIndex := 3, Rest := RestBytes.raw [] }]
    Vertices := [sampleVertex 1]
    Indices := [0, 1, 2]
    Fogs := [[11]]
    Faces := [sampleFace]
    LightMaps := [[12]]
    LightVolumes := []
    EntityString := [65]
    ClusterBits := [255, 255, 255]
    NumClusters := 3
    ClusterVisDataSize := 1
    Format := 1347633746 }

end BSP

/-! ## The tensor-product Bezier formula -/

namespace BSP

end BSP

/-! ## Derived views of the decoder and the tessellator -/

/-- The records of a lump: record `i` is the reinterpretation of the bytes
`cursor[Offset + i·size .. Offset + (i+1)·size)`. -/
def lumpRecords {T : Type} (L : Layout T) (cursor : List UInt8) (lump : BSP.Lump) : List T :=
  (List.range (lump.Length / L.size)).map
    (fun i => L.ofBytes (slice cursor (lump.Offset + i * L.size) L.size))

/-- The indices of `cursor` that the `memcpy` of the typed lump reader reads
(BSP.cpp:164-167): the `array.size() * sizeof(T)` bytes from `lump.Offset` on.
Nothing is read for an empty lump, nor after a failed `assert`. -/
def ReadLump_reads {T : Type} (ndebug : Bool) (L : Layout T) (lump : BSP.Lump) : List Nat :=
  if lump.Length > 0 then
    let count := lump.Length / L.size
    if ndebug = false ∧ count * L.size ≠ lump.Length then []
    else List.range' lump.Offset (count * L.size)
  else []

namespace BSP

/-- The typed lumps that `BSP::Load` materialises (BSP.cpp:207-235), each as
its position in the lump table and the size of the records read from it; the
four dispatched lumps have the record size of the generation `Format`. -/
def typedLumps (cfg : Config k) (Format : Nat) : List (Nat × Nat) :=
  [ (cfg.kTextures, cfg.sizeofTexture), (cfg.kPlanes, cfg.sizeofPlane),
    (cfg.kNodes, cfg.sizeofNode), (cfg.kLeaves, cfg.sizeofLeaf),
    (cfg.kLeafFaces, cfg.sizeofLeafFace), (cfg.kLeafBrushes, cfg.sizeofLeafBrush),
    (cfg.kModels, cfg.sizeofModel), (cfg.kBrushes, cfg.sizeofBrush),
    (cfg.kBrushSides,
      if Format = cfg.kRBSPFormat then cfg.layoutBrushSide.size
      else IBSP.BrushSide.layout.size),
    (cfg.kVertices,
      if Format = cfg.kRBSPFormat then cfg.layoutVertex.size
      else cfg.layoutLegacyVertex.size),
    (cfg.kFaces,
      if Format = cfg.kRBSPFormat then cfg.layoutFace.size else cfg.layoutLegacyFace.size),
    (cfg.kLightVolumes,
      if Format = cfg.kRBSPFormat then cfg.layoutLightVolume.size
      else cfg.layoutLegacyLightVolume.size),
    (cfg.kIndices, cfg.layoutIndex.size), (cfg.kFogs, cfg.sizeofFog),
    (cfg.kLightmaps, cfg.sizeofLightMap) ]

end BSP

namespace BSP

/-- The number of vertices one sub-patch call appends: `numSubdivisions + 1`
in the first loop, `numSubdivisions · (numSubdivisions + 1)` in the second. -/
def patchVertexCount (numSubdivisions : Int) : Nat :=
  (numSubdivisions + 1).toNat + numSubdivisions.toNat * (numSubdivisions + 1).toNat

/-- The run keeps the control points where the pointers found them: the
source is another vector than the output, or the level is at most 0 (no read
follows a `push_back` within a sub-patch call), or the capacity of the output
vector holds all vertices of the call. -/
def Source.Settled (ogVertices : Source k) (f : Face k) (newVertices : List (Vertex k))
    (capacity : Nat) (numSubdivions : Int) : Prop :=
  match ogVertices with
  | Source.other _ => True
  | Source.output =>
      numSubdivions ≤ 0 ∨
      newVertices.length +
        (patchOffsets f).length * patchVertexCount numSubdivions ≤ capacity

/-- The indices one pass of the first vertex loop reads: column 0 of the
three control rows. -/
def firstRowReads (offs : Fin 3 → Int) : List Int :=
  [offs 0 + ((0 : Fin 3).val : Int), offs 1 + ((0 : Fin 3).val : Int),
    offs 2 + ((0 : Fin 3).val : Int)]

/-- The indices one pass of the outer loop of the second vertex loop reads:
the nine control points, row by row. -/
def gridRowReads (offs : Fin 3 → Int) : List Int :=
  [offs 0 + ((0 : Fin 3).val : Int), offs 0 + ((1 : Fin 3).val : Int),
    offs 0 + ((2 : Fin 3).val : Int),
    offs 1 + ((0 : Fin 3).val : Int), offs 1 + ((1 : Fin 3).val : Int),
    offs 1 + ((2 : Fin 3).val : Int),
    offs 2 + ((0 : Fin 3).val : Int), offs 2 + ((1 : Fin 3).val : Int),
    offs 2 + ((2 : Fin 3).val : Int)]

/-- The indices one sub-patch call reads, in order: `numSubdivisions + 1`
passes of the first loop, `numSubdivisions` passes of the second. -/
def patchReads (offs : Fin 3 → Int) (numSubdivisions : Int) : List Int :=
  (List.range (numSubdivisions + 1).toNat).flatMap (fun _ => firstRowReads offs) ++
    (List.range numSubdivisions.toNat).flatMap (fun _ => gridRowReads offs)

/-- Every control read succeeds in the memory `s` and yields the grid
`ctrl`. -/
def Run.Steady (ogVertices : Source k) (offs : Fin 3 → Int)
    (ctrl : Fin 3 → Fin 3 → Vertex k) (s : Run k) : Prop :=
  ∀ r c : Fin 3, s.control ogVertices offs r c =
    Except.ok (ctrl r c, { s with reads := s.reads ++ [offs r + (c.val : Int)] })

/-- The output vector takes `m` more elements without moving, when it is
the source. -/
def Run.Room (ogVertices : Source k) (s : Run k) (m : Nat) : Prop :=
  match ogVertices with
  | Source.other _ => True
  | Source.output => s.newVertices.length + m ≤ s.capacity

/-- The growth rule of a vector that doubles its capacity. -/
def doubling (capacity : Nat) : Nat :=
  if capacity = 0 then 1 else 2 * capacity

/-- The triangles of an index list: its consecutive triples. -/
def triangles : List Int → List (Int × Int × Int)
  | a :: b :: c :: rest => (a, b, c) :: triangles rest
  | _ => []

end BSP

/-! ## More sample inputs -/

/-- A legacy vertex whose four colour bytes all hold `color`. -/
def sampleLegacyVertex (color : UInt8) : IBSP.Vertex :=
  { Position := ![1, 2, 3]
    TexCoord := ![4, 5]
    LMCoord := ![6, 7]
    Normal := ![0, 0, 1]
    Color := fun _ => color }

namespace BSP

/-- A face with the even control grid 2×2 at source index 0. -/
def evenFace : Face 4 :=
  { sampleFace with StartVertexIndex := 0, BezierDimensions := ![2, 2] }

/-- A face with the control grid 1×1 at source index 0. -/
def tinyFace : Face 4 :=
  { sampleFace with StartVertexIndex := 0, BezierDimensions := ![1, 1] }

/-- A face with the control grid 5×3 (two sub-patches) at source index 0. -/
def wideFace : Face 4 :=
  { sampleFace with StartVertexIndex := 0, NumVertices := 15, BezierDimensions := ![5, 3] }

/-- Fifteen source vertices, the control points of `wideFace`. -/
def wideVertices : List (Vertex 4) :=
  (List.range 15).map (fun i => sampleVertex (i : ℚ))

/-- The image `sampleBuffer` with the format tag replaced by 0, a tag of
neither generation. -/
def unknownTagBuffer : List UInt8 :=
  le32 0 ++ sampleBuffer.drop 4

/-- The image `sampleBuffer` with the descriptor of the (empty) textures lump
replaced by `(offset 1000, length 0)`, an offset far behind the 165 bytes. -/
def farLumpBuffer : List UInt8 :=
  sampleBuffer.take 16 ++ le32 1000 ++ le32 0 ++ sampleBuffer.drop 24

end BSP

/-! ## The tessellator in binary32 arithmetic

The definitions above compute with exact rationals.  The source computes
with `float`; the definitions below repeat the vertex arithmetic and the
sub-patch tessellator over a model of IEEE 754 binary32, for statements
about the values that `float` arithmetic returns. -/

/-- A value of type `float` (IEEE 754 binary32): a finite number, an
infinity or a NaN.  The sign of a zero and the payload of a NaN are not
kept; no operation below depends on them, except the sign of `x / 0` for
`x ≠ 0`, which the tessellator never computes. -/
inductive Binary32 where
  | finite (q : ℚ) : Binary32
  | infinite (negative : Bool) : Binary32
  | nan : Binary32
  deriving DecidableEq

namespace Binary32

/-- The integer nearest to `x`, the even one of two that are equally near. -/
def roundHalfEven (x : ℚ) : Int :=
  if x - (⌊x⌋ : ℚ) < 1 / 2 then ⌊x⌋
  else if 1 / 2 < x - (⌊x⌋ : ℚ) then ⌊x⌋ + 1
  else if ⌊x⌋ % 2 = 0 then ⌊x⌋ else ⌊x⌋ + 1

/-- The exponent of the spacing of the binary32 numbers around `q`: 24
significant bits, and never below the spacing `2^-149` of the subnormal
numbers. -/
def ulpExponent (q : ℚ) : Int :=
  max (Int.log 2 |q|) (-126) - 23

/-- The binary32 number nearest to `q` (ties to even), the exponent range
taken as unbounded above. -/
def nearest (q : ℚ) : ℚ :=
  (roundHalfEven (q / (2 : ℚ) ^ ulpExponent q) : ℚ) * (2 : ℚ) ^ ulpExponent q

/-- The least magnitude that rounds to an infinity: `FLT_MAX` plus half a
unit in its last place. -/
def overflowThreshold : ℚ :=
  2 ^ 128 - 2 ^ 103

/-- The binary32 result of an operation whose exact result is `q`:
round to nearest, ties to even, overflow to an infinity. -/
def round (q : ℚ) : Binary32 :=
  if overflowThreshold ≤ |q| then infinite (decide (q < 0)) else finite (nearest q)

/-- The conversion `(float)n` of an `int`. -/
def ofInt (n : Int) : Binary32 :=
  round (n : ℚ)

/-- Negation. -/
def neg : Binary32 → Binary32
  | finite a => finite (-a)
  | infinite s => infinite (!s)
  | nan => nan

/-- The sum `x + y`. -/
def add : Binary32 → Binary32 → Binary32
  | finite a, finite b => round (a + b)
  | finite _, infinite t => infinite t
  | infinite s, finite _ => infinite s
  | infinite s, infinite t => if s = t then infinite s else nan
  | nan, _ => nan
  | _, nan => nan

/-- The difference `x - y`. -/
def sub (x y : Binary32) : Binary32 :=
  add x (neg y)

/-- The product `x * y`; an infinity times zero is a NaN. -/
def mul : Binary32 → Binary32 → Binary32
  | finite a, finite b => round (a * b)
  | finite a, infinite t => if a = 0 then nan else infinite (xor (decide (a < 0)) t)
  | infinite s, finite b => if b = 0 then nan else infinite (xor s (decide (b < 0)))
  | infinite s, infinite t => infinite (xor s t)
  | nan, _ => nan
  | _, nan => nan

/-- The quotient `x / y`; `0 / 0` is a NaN.  For `x ≠ 0` the sign of `x / 0`
is that for a positive zero. -/
def div : Binary32 → Binary32 → Binary32
  | finite a, finite b =>
      if b = 0 then (if a = 0 then nan else infinite (decide (a < 0))) else round (a / b)
  | finite _, infinite _ => finite 0
  | infinite s, finite b => infinite (xor s (decide (b < 0)))
  | infinite _, infinite _ => nan
  | nan, _ => nan
  | _, nan => nan

/-- Componentwise sum, `add_vector` (BSP.cpp:62-66), in binary32. -/
def add_vector {N : Nat} (a b : Fin N → Binary32) : Fin N → Binary32 :=
  fun i => add (a i) (b i)

/-- Uniform scaling, `scale_vector` (BSP.cpp:68-72), in binary32. -/
def scale_vector {N : Nat} (a : Fin N → Binary32) (b : Binary32) : Fin N → Binary32 :=
  fun i => mul (a i) b

/-- The members of `BSP::Vertex` that `BSP.cpp` accesses, as `float`s (see
`BSP.Vertex`). -/
structure Vertex (kMaxLightMaps : Nat) where
  Position : Fin 3 → Binary32
  TexCoord : Fin 2 → Binary32
  LMCoord : Fin kMaxLightMaps → Fin 2 → Binary32
  Normal : Fin 3 → Binary32
  Rest : RestBytes

variable {k : Nat}

/-- Vertex sum, `operator +` (BSP.cpp:403-415), in binary32. -/
def Vertex.add (v1 v2 : Vertex k) : Vertex k :=
  { Position := add_vector v1.Position v2.Position
    TexCoord := add_vector v1.TexCoord v2.TexCoord
    LMCoord := fun i => add_vector (v1.LMCoord i) (v2.LMCoord i)
    Normal := add_vector v1.Normal v2.Normal
    Rest := RestBytes.unwritten }

/-- Vertex scaling, `operator *` (BSP.cpp:417-428), in binary32. -/
def Vertex.mul (v1 : Vertex k) (d : Binary32) : Vertex k :=
  { Position := scale_vector v1.Position d
    TexCoord := scale_vector v1.TexCoord d
    LMCoord := fun i => scale_vector (v1.LMCoord i) d
    Normal := scale_vector v1.Normal d
    Rest := RestBytes.unwritten }

/-- Equality of two vertices in every interpolated member, as binary32
values (`-0` and `+0` are one value here). -/
def Vertex.sameInterpolated (v w : Vertex k) : Prop :=
  v.Position = w.Position ∧ v.TexCoord = w.TexCoord ∧
    v.LMCoord = w.LMCoord ∧ v.Normal = w.Normal

/-- The expression `p0 * b * b + p1 * 2 * b * a + p2 * a * a` with
`a = (float)x / numSubdivisions` and `b = 1.f - a` (BSP.cpp:353-356, 361-368,
373-377), in binary32.  The `int` operands `numSubdivisions` and `2` are
converted to `float`; `2` converts exactly. -/
def curvePoint (p0 p1 p2 : Vertex k) (numSubdivisions : Int) (x : Nat) : Vertex k :=
  let a : Binary32 := div (ofInt (x : Int)) (ofInt numSubdivisions)
  let b : Binary32 := sub (finite 1) a
  (((p0.mul b).mul b).add (((p1.mul (finite 2)).mul b).mul a)).add ((p2.mul a).mul a)

/-- What the sub-patch tessellator leaves behind, in binary32. -/
structure PatchOut (k : Nat) where
  vertices : List (Vertex k)
  indices : List Int
  ret : Int

/-- The sub-patch tessellator (BSP.cpp:339-399) in binary32: the loops of
`BSP.TessellatePatch` over `float` vertices. -/
def TessellatePatch (controls : Fin 3 → Fin 3 → Vertex k)
    (vertices : List (Vertex k)) (indices : List Int)
    (numSubdivisions indexOffset : Int) : PatchOut k :=
  let vOffset : Int := (vertices.length : Int)
  let L1 : Int := numSubdivisions + 1
  -- for (int j = 0; j <= numSubdivisions; ++j)
  let vertices1 := vertices ++
    (List.range (numSubdivisions + 1).toNat).map
      (fun j => curvePoint (controls 0 0) (controls 1 0) (controls 2 0) numSubdivisions j)
  -- for (int i = 1; i <= numSubdivisions; ++i) for (int j = 0; j <= numSubdivisions; ++j)
  let vertices2 := vertices1 ++
    (List.range numSubdivisions.toNat).flatMap (fun i0 =>
      let temp : Fin 3 → Vertex k := fun j =>
        curvePoint (controls j 0) (controls j 1) (controls j 2) numSubdivisions (i0 + 1)
      (List.range (numSubdivisions + 1).toNat).map
        (fun j => curvePoint (temp 0) (temp 1) (temp 2) numSubdivisions j))
  -- for (int i = 0; i < numSubdivisions; ++i) for (int j = 0; j < numSubdivisions; ++j)
  let indices1 := indices ++
    (List.range numSubdivisions.toNat).flatMap (fun i =>
      (List.range numSubdivisions.toNat).flatMap (fun j =>
        BSP.cellIndices L1 indexOffset i j))
  { vertices := vertices2
    indices := indices1
    ret := (vertices2.length : Int) - vOffset }

/-- A `float` vertex whose interpolated members all hold the value `x`. -/
def sampleVertex (x : Binary32) : Vertex 4 :=
  { Position := fun _ => x
    TexCoord := fun _ => x
    LMCoord := fun _ _ => x
    Normal := fun _ => x
    Rest := RestBytes.zeroed }

/-- A 3×3 control grid of `float` vertices whose point `(r, c)` holds the
value `3 * r + c`. -/
def sampleControls : Fin 3 → Fin 3 → Vertex 4 :=
  fun r c => sampleVertex (finite ((3 * r.val + c.val : Nat) : ℚ))

end Binary32

/-! ## The sub-patch tessellator -/

namespace BSP

variable {k : Nat}

theorem length_flatMap_range_const {α : Type} (m c : Nat) (g : Nat → List α)
    (hg : ∀ i, (g i).length = c) : ((List.range m).flatMap g).length = m * c := by
  induction m with
  | zero => simp
  | succ m ih =>
      rw [List.range_succ, List.flatMap_append, List.length_append, ih]
      simp [hg, Nat.succ_mul]

/-- Element `i * L + j` of a row-major `flatMap` of `m` rows of `L` elements. -/
theorem getElem?_flatMap_range_map {α : Type} (m L : Nat) (g : Nat → Nat → α)
    (i j : Nat) (hi : i < m) (hj : j < L) :
    ((List.range m).flatMap (fun i => (List.range L).map (g i)))[i * L + j]? =
      some (g i j) := by
  induction m with
  | zero => omega
  | succ m ih =>
      have hlen : ((List.range m).flatMap (fun i => (List.range L).map (g i))).length = m * L :=
        length_flatMap_range_const m L _ (by intro x; simp)
      rw [List.range_succ, List.flatMap_append]
      by_cases him : i < m
      · have hlt : i * L + j < m * L := by
          have : (i + 1) * L ≤ m * L := Nat.mul_le_mul_right L him
          rw [Nat.succ_mul] at this
          omega
        rw [List.getElem?_append_left (by rw [hlen]; exact hlt)]
        exact ih him
      · have hieq : i = m := by omega
        subst hieq
        rw [List.getElem?_append_right (by rw [hlen]; omega), hlen]
        have : i * L + j - i * L = j := by omega
        rw [this]
        simp [hj]

theorem patchVertices_getElem?_zero (controls : Fin 3 → Fin 3 → Vertex k) (m j : Nat)
    (hj : j ≤ m) :
    (patchVertices controls (m : Int))[j]? = some (firstRowVertex controls (m : Int) j) := by
  have hm1 : ((m : Int) + 1).toNat = m + 1 := by omega
  unfold patchVertices
  simp only [hm1, Int.toNat_ofNat]
  rw [List.getElem?_append_left (by rw [List.length_map, List.length_range]; omega)]
  rw [List.getElem?_map, List.getElem?_range (by omega)]
  rfl

theorem patchVertices_getElem?_succ (controls : Fin 3 → Fin 3 → Vertex k) (m i j : Nat)
    (hi : i < m) (hj : j ≤ m) :
    (patchVertices controls (m : Int))[(i + 1) * (m + 1) + j]? =
      some (gridVertex controls (m : Int) (i + 1) j) := by
  have hm1 : ((m : Int) + 1).toNat = m + 1 := by omega
  unfold patchVertices
  simp only [hm1, Int.toNat_ofNat]
  rw [List.getElem?_append_right (by rw [List.length_map, List.length_range, Nat.succ_mul]; omega)]
  have : (i + 1) * (m + 1) + j -
      (List.map (fun j => firstRowVertex controls (m : Int) j) (List.range (m + 1))).length =
      i * (m + 1) + j := by
    simp
    rw [Nat.succ_mul]
    omega
  rw [this]
  exact getElem?_flatMap_range_map m (m + 1)
    (fun i0 j => gridVertex controls (m : Int) (i0 + 1) j) i j hi (by omega)

theorem firstRowVertex_zero (controls : Fin 3 → Fin 3 → Vertex k) (n : Int) :
    (firstRowVertex controls n 0).sameInterpolated (controls 0 0) := by
  refine ⟨funext fun i => ?_, funext fun i => ?_, funext fun c => funext fun i => ?_,
    funext fun i => ?_⟩ <;>
    simp [firstRowVertex, Vertex.add, Vertex.mul, add_vector, scale_vector]

theorem firstRowVertex_last (controls : Fin 3 → Fin 3 → Vertex k) (m : Nat) (hm : 1 ≤ m) :
    (firstRowVertex controls (m : Int) m).sameInterpolated (controls 2 0) := by
  have h0 : (m : ℚ) ≠ 0 := by
    have : (0 : ℚ) < (m : ℚ) := by exact_mod_cast hm
    exact ne_of_gt this
  refine ⟨funext fun i => ?_, funext fun i => ?_, funext fun c => funext fun i => ?_,
    funext fun i => ?_⟩ <;>
    simp [firstRowVertex, Vertex.add, Vertex.mul, add_vector, scale_vector, div_self h0]

theorem gridVertex_last_zero (controls : Fin 3 → Fin 3 → Vertex k) (m : Nat) (hm : 1 ≤ m) :
    (gridVertex controls (m : Int) m 0).sameInterpolated (controls 0 2) := by
  have h0 : (m : ℚ) ≠ 0 := by
    have : (0 : ℚ) < (m : ℚ) := by exact_mod_cast hm
    exact ne_of_gt this
  refine ⟨funext fun i => ?_, funext fun i => ?_, funext fun c => funext fun i => ?_,
    funext fun i => ?_⟩ <;>
    simp [gridVertex, temp, Vertex.add, Vertex.mul, add_vector, scale_vector, div_self h0]

theorem gridVertex_last_last (controls : Fin 3 → Fin 3 → Vertex k) (m : Nat) (hm : 1 ≤ m) :
    (gridVertex controls (m : Int) m m).sameInterpolated (controls 2 2) := by
  have h0 : (m : ℚ) ≠ 0 := by
    have : (0 : ℚ) < (m : ℚ) := by exact_mod_cast hm
    exact ne_of_gt this
  refine ⟨funext fun i => ?_, funext fun i => ?_, funext fun c => funext fun i => ?_,
    funext fun i => ?_⟩ <;>
    simp [gridVertex, temp, Vertex.add, Vertex.mul, add_vector, scale_vector, div_self h0]

theorem TessellatePatch_vertices (controls : Fin 3 → Fin 3 → Vertex k)
    (vertices : List (Vertex k)) (indices : List Int) (n indexOffset : Int) :
    (TessellatePatch controls vertices indices n indexOffset).vertices =
      vertices ++ patchVertices controls n := by
  simp only [TessellatePatch, patchVertices, List.append_assoc]

theorem TessellatePatch_indices (controls : Fin 3 → Fin 3 → Vertex k)
    (vertices : List (Vertex k)) (indices : List Int) (n indexOffset : Int) :
    (TessellatePatch controls vertices indices n indexOffset).indices =
      indices ++ patchIndices n indexOffset := rfl

theorem TessellatePatch_ret (controls : Fin 3 → Fin 3 → Vertex k)
    (vertices : List (Vertex k)) (indices : List Int) (n indexOffset : Int) :
    (TessellatePatch controls vertices indices n indexOffset).ret =
      ((patchVertices controls n).length : Int) := by
  have h := TessellatePatch_vertices controls vertices indices n indexOffset
  have h2 : (TessellatePatch controls vertices indices n indexOffset).ret =
      ((TessellatePatch controls vertices indices n indexOffset).vertices.length : Int) -
        (vertices.length : Int) := rfl
  rw [h2, h, List.length_append]
  push_cast
  ring

theorem patchVertices_length (controls : Fin 3 → Fin 3 → Vertex k) (n : Int) :
    (patchVertices controls n).length = (n + 1).toNat + n.toNat * (n + 1).toNat := by
  unfold patchVertices
  rw [List.length_append, length_flatMap_range_const n.toNat (n + 1).toNat _ (by intro i; simp)]
  simp

theorem patchIndices_length (n indexOffset : Int) :
    (patchIndices n indexOffset).length = n.toNat * (n.toNat * 6) := by
  unfold patchIndices
  rw [length_flatMap_range_const n.toNat (n.toNat * 6)]
  intro i
  exact length_flatMap_range_const n.toNat 6 _ (fun j => rfl)

end BSP

/-! ## Grid corners and the face-level tessellator -/

namespace BSP

variable {k : Nat}

/-- In exact arithmetic, for every `n ≥ 1` and every 3×3 control grid, the
vertices at offsets `0`, `n`, `n·(n+1)` and `(n+1)² - 1` of the appended block
(grid positions `(0,0)`, `(0,n)`, `(n,0)`, `(n,n)`) equal the corner control
points `controls[0][0]`, `controls[2][0]`, `controls[0][2]` and
`controls[2][2]` in position, texture coordinate, every lightmap-coordinate
channel and normal. -/
theorem TessellatePatch_corners_exact (controls : Fin 3 → Fin 3 → Vertex k)
    (vertices : List (Vertex k)) (indices : List Int) (n indexOffset : Int) (hn : 1 ≤ n) :
    ∃ v00 v0n vn0 vnn : Vertex k,
      (TessellatePatch controls vertices indices n indexOffset).vertices[vertices.length + 0]? =
        some v00 ∧
      (TessellatePatch controls vertices indices n indexOffset).vertices[
        vertices.length + n.toNat]? = some v0n ∧
      (TessellatePatch controls vertices indices n indexOffset).vertices[
        vertices.length + n.toNat * (n.toNat + 1)]? = some vn0 ∧
      (TessellatePatch controls vertices indices n indexOffset).vertices[
        vertices.length + ((n.toNat + 1) ^ 2 - 1)]? = some vnn ∧
      v00.sameInterpolated (controls 0 0) ∧ v0n.sameInterpolated (controls 2 0) ∧
      vn0.sameInterpolated (controls 0 2) ∧ vnn.sameInterpolated (controls 2 2) := by
  obtain ⟨m, rfl⟩ : ∃ m : ℕ, n = (m : Int) := ⟨n.toNat, (Int.toNat_of_nonneg (by omega)).symm⟩
  have hm : 1 ≤ m := by omega
  obtain ⟨p, rfl⟩ : ∃ p : ℕ, m = p + 1 := ⟨m - 1, by omega⟩
  have hidx : ∀ x : Nat,
      (TessellatePatch controls vertices indices ((p + 1 : ℕ) : Int) indexOffset).vertices[
        vertices.length + x]? = (patchVertices controls ((p + 1 : ℕ) : Int))[x]? := by
    intro x
    rw [TessellatePatch_vertices, List.getElem?_append_right (by omega)]
    congr 1
    omega
  have e3 : (p + 1) * (p + 1 + 1) = (p + 1) * (p + 1 + 1) + 0 := by omega
  have e4 : (p + 1 + 1) ^ 2 - 1 = (p + 1) * (p + 1 + 1) + (p + 1) := by
    have : (p + 1 + 1) ^ 2 = (p + 1) * (p + 1 + 1) + (p + 1) + 1 := by ring
    omega
  refine ⟨firstRowVertex controls ((p + 1 : ℕ) : Int) 0,
    firstRowVertex controls ((p + 1 : ℕ) : Int) (p + 1),
    gridVertex controls ((p + 1 : ℕ) : Int) (p + 1) 0,
    gridVertex controls ((p + 1 : ℕ) : Int) (p + 1) (p + 1),
    ?_, ?_, ?_, ?_, firstRowVertex_zero controls _,
    firstRowVertex_last controls (p + 1) hm, gridVertex_last_zero controls (p + 1) hm,
    gridVertex_last_last controls (p + 1) hm⟩
  · rw [hidx]
    exact patchVertices_getElem?_zero controls (p + 1) 0 (by omega)
  · rw [hidx, Int.toNat_ofNat]
    exact patchVertices_getElem?_zero controls (p + 1) (p + 1) (by omega)
  · rw [hidx, Int.toNat_ofNat, e3]
    exact patchVertices_getElem?_succ controls (p + 1) p 0 (by omega) (by omega)
  · rw [hidx, Int.toNat_ofNat, e4]
    exact patchVertices_getElem?_succ controls (p + 1) p (p + 1) (by omega) (by omega)

/-! ### The memory of a face-level run -/

theorem vertexAt_append (vs ws : List (Vertex k)) (i : Int) (v : Vertex k)
    (h : vertexAt vs i = some v) : vertexAt (vs ++ ws) i = some v := by
  unfold vertexAt at *
  split at h
  · rename_i h0
    rw [if_pos h0]
    have hlt : i.toNat < vs.length := by
      by_contra hc
      rw [List.getElem?_eq_none (by omega)] at h
      cases h
    rw [List.getElem?_append_left hlt]
    exact h
  · cases h

theorem vertexAt_isSome (ogVertices : List (Vertex k)) (i : Int)
    (h : 0 ≤ i ∧ i < (ogVertices.length : Int)) :
    ∃ v, vertexAt ogVertices i = some v := by
  have hlt : i.toNat < ogVertices.length := by omega
  refine ⟨ogVertices[i.toNat], ?_⟩
  unfold vertexAt
  rw [if_pos h.1]
  exact List.getElem?_eq_getElem hlt

/-- A control read that succeeds tells where the element was found. -/
theorem Run.control_ok (src : Source k) (offs : Fin 3 → Int) (s : Run k) (r c : Fin 3)
    (v : Vertex k) (s' : Run k) (h : s.control src offs r c = Except.ok (v, s')) :
    vertexAt (src.elems s.newVertices) (offs r + (c.val : Int)) = some v ∧
    (src = Source.output → s.moved = false) ∧
    s' = { s with reads := s.reads ++ [offs r + (c.val : Int)] } := by
  cases src with
  | other vertices =>
      simp only [Run.control] at h
      split at h
      · cases h
      · rename_i w hw
        simp only [Except.ok.injEq, Prod.mk.injEq] at h
        exact ⟨by rw [← h.1]; exact hw, (fun h' => by cases h'), h.2.symm⟩
  | output =>
      simp only [Run.control] at h
      split at h
      · cases h
      · rename_i hm
        split at h
        · cases h
        · rename_i w hw
          simp only [Except.ok.injEq, Prod.mk.injEq] at h
          exact ⟨by rw [← h.1]; exact hw, (fun _ => by simpa using hm), h.2.symm⟩

/-- A control read succeeds when the element exists and, for a source that is
the output vector, the vector has not moved. -/
theorem Run.control_eq (src : Source k) (offs : Fin 3 → Int) (s : Run k) (r c : Fin 3)
    (v : Vertex k)
    (hv : vertexAt (src.elems s.newVertices) (offs r + (c.val : Int)) = some v)
    (hm : src = Source.output → s.moved = false) :
    s.control src offs r c =
      Except.ok (v, { s with reads := s.reads ++ [offs r + (c.val : Int)] }) := by
  cases src with
  | other vertices =>
      simp only [Source.elems] at hv
      simp only [Run.control, hv]
  | output =>
      simp only [Source.elems] at hv
      have hm' : s.moved = false := hm rfl
      simp only [Run.control, hv, hm']
      rfl

/-- The control reads stay as they are when the output vector only grows and
(as a source) does not move. -/
theorem Run.Steady.mono {src : Source k} {offs : Fin 3 → Int}
    {ctrl : Fin 3 → Fin 3 → Vertex k} {s : Run k} (hs : Run.Steady src offs ctrl s)
    (s' : Run k) (vs : List (Vertex k)) (hv : s'.newVertices = s.newVertices ++ vs)
    (hm : src = Source.output → s'.moved = s.moved) :
    Run.Steady src offs ctrl s' := by
  intro r c
  obtain ⟨h1, h2, -⟩ := Run.control_ok src offs s r c _ _ (hs r c)
  apply Run.control_eq
  · cases src with
    | other vertices => exact h1
    | output =>
        simp only [Source.elems] at h1 ⊢
        rw [hv]
        exact vertexAt_append _ _ _ _ h1
  · intro h
    rw [hm h]
    exact h2 h

theorem Run.push_back_fields (grow : Nat → Nat) (s : Run k) (v : Vertex k) :
    (s.push_back grow v).newVertices = s.newVertices ++ [v] ∧
    (s.push_back grow v).newIndices = s.newIndices ∧
    (s.push_back grow v).reads = s.reads ∧
    (s.push_back grow v).calls = s.calls := by
  unfold Run.push_back
  split <;> exact ⟨rfl, rfl, rfl, rfl⟩

theorem Run.push_back_of_lt (grow : Nat → Nat) (s : Run k) (v : Vertex k)
    (h : s.newVertices.length < s.capacity) :
    s.push_back grow v = { s with newVertices := s.newVertices ++ [v] } := by
  unfold Run.push_back
  rw [if_pos h]

theorem Run.push_back_of_ge (grow : Nat → Nat) (s : Run k) (v : Vertex k)
    (h : s.capacity ≤ s.newVertices.length) :
    s.push_back grow v =
      { s with newVertices := s.newVertices ++ [v], capacity := grow s.capacity,
               moved := true } := by
  unfold Run.push_back
  rw [if_neg (by omega)]

/-- A `push_back` with room left keeps the control reads as they are. -/
theorem Run.Steady.push {src : Source k} {offs : Fin 3 → Int}
    {ctrl : Fin 3 → Fin 3 → Vertex k} {s : Run k} (hs : Run.Steady src offs ctrl s)
    (grow : Nat → Nat) (v : Vertex k) (m : Nat) (hroom : Run.Room src s (m + 1)) :
    Run.Steady src offs ctrl (s.push_back grow v) ∧ Run.Room src (s.push_back grow v) m := by
  cases src with
  | other vertices =>
      exact ⟨hs.mono _ [v] (Run.push_back_fields grow s v).1 (fun h => by cases h), trivial⟩
  | output =>
      have hlt : s.newVertices.length < s.capacity := by
        simp only [Run.Room] at hroom
        omega
      rw [Run.push_back_of_lt grow s v hlt]
      refine ⟨hs.mono _ [v] rfl (fun _ => rfl), ?_⟩
      simp only [Run.Room, List.length_append, List.length_singleton] at hroom ⊢
      omega

/-- A run of `push_back`s with room left: the vertices are appended and the
control reads stay as they are. -/
theorem Run.foldl_push_back {src : Source k} {offs : Fin 3 → Int}
    {ctrl : Fin 3 → Fin 3 → Vertex k} (grow : Nat → Nat) (g : Nat → Vertex k) :
    ∀ (js : List Nat) (s : Run k) (m : Nat), Run.Steady src offs ctrl s →
      Run.Room src s (js.length + m) →
      (js.foldl (fun (t : Run k) (j : Nat) => t.push_back grow (g j)) s).newVertices =
        s.newVertices ++ js.map g ∧
      (js.foldl (fun (t : Run k) (j : Nat) => t.push_back grow (g j)) s).newIndices =
        s.newIndices ∧
      (js.foldl (fun (t : Run k) (j : Nat) => t.push_back grow (g j)) s).reads = s.reads ∧
      (js.foldl (fun (t : Run k) (j : Nat) => t.push_back grow (g j)) s).calls = s.calls ∧
      Run.Steady src offs ctrl
        (js.foldl (fun (t : Run k) (j : Nat) => t.push_back grow (g j)) s) ∧
      Run.Room src (js.foldl (fun (t : Run k) (j : Nat) => t.push_back grow (g j)) s) m
  | [], s, m, hs, hroom => by
      simp only [List.length_nil, Nat.zero_add] at hroom
      exact ⟨by simp, rfl, rfl, rfl, hs, hroom⟩
  | j :: js, s, m, hs, hroom => by
      have hroom' : Run.Room src s (js.length + m + 1) := by
        simp only [List.length_cons] at hroom
        have e : js.length + 1 + m = js.length + m + 1 := by omega
        rw [e] at hroom
        exact hroom
      obtain ⟨hs1, hr1⟩ := hs.push grow (g j) (js.length + m) hroom'
      obtain ⟨h1, h2, h3, h4, h5, h6⟩ := Run.foldl_push_back grow g js _ m hs1 hr1
      obtain ⟨p1, p2, p3, p4⟩ := Run.push_back_fields grow s (g j)
      simp only [List.foldl_cons]
      refine ⟨?_, ?_, ?_, ?_, h5, h6⟩
      · rw [h1, p1]; simp
      · rw [h2, p2]
      · rw [h3, p3]
      · rw [h4, p4]

/-- Noting a read keeps the control reads as they are. -/
theorem Run.Steady.noted {src : Source k} {offs : Fin 3 → Int}
    {ctrl : Fin 3 → Fin 3 → Vertex k} {s : Run k} (hs : Run.Steady src offs ctrl s)
    (l : List Int) : Run.Steady src offs ctrl { s with reads := l } :=
  hs.mono _ [] (by simp) (fun _ => rfl)

/-- One pass of the first vertex loop when the control reads succeed. -/
theorem Run.firstRowStep_eq {src : Source k} {offs : Fin 3 → Int}
    {ctrl : Fin 3 → Fin 3 → Vertex k} {s : Run k} (hs : Run.Steady src offs ctrl s)
    (grow : Nat → Nat) (n : Int) (j : Nat) :
    Run.firstRowStep src grow offs n s j =
      Except.ok (Run.push_back grow { s with reads := s.reads ++ firstRowReads offs }
        (firstRowVertex ctrl n j)) := by
  have h1 := hs.noted (s.reads ++ [offs 0 + ((0 : Fin 3).val : Int)])
  have h2 := h1.noted (s.reads ++ [offs 0 + ((0 : Fin 3).val : Int)] ++
    [offs 1 + ((0 : Fin 3).val : Int)])
  unfold Run.firstRowStep
  rw [hs 0 0]
  simp only [bind, Except.bind]
  rw [h1 1 0]
  simp only [bind, Except.bind]
  rw [h2 2 0]
  simp only [bind, Except.bind, pure, Except.pure, firstRowReads, List.append_assoc,
    List.singleton_append]
  rfl

/-- The assignment of `temp[j]` when the control reads succeed. -/
theorem Run.tempRow_eq {src : Source k} {offs : Fin 3 → Int}
    {ctrl : Fin 3 → Fin 3 → Vertex k} {s : Run k} (hs : Run.Steady src offs ctrl s)
    (n : Int) (i : Nat) (j : Fin 3) :
    Run.tempRow src offs n i s j =
      Except.ok (temp ctrl n i j,
        { s with reads := s.reads ++ [offs j + ((0 : Fin 3).val : Int),
            offs j + ((1 : Fin 3).val : Int), offs j + ((2 : Fin 3).val : Int)] }) := by
  have h1 := hs.noted (s.reads ++ [offs j + ((0 : Fin 3).val : Int)])
  have h2 := h1.noted (s.reads ++ [offs j + ((0 : Fin 3).val : Int)] ++
    [offs j + ((1 : Fin 3).val : Int)])
  unfold Run.tempRow
  rw [hs j 0]
  simp only [bind, Except.bind]
  rw [h1 j 1]
  simp only [bind, Except.bind]
  rw [h2 j 2]
  simp only [bind, Except.bind, pure, Except.pure, List.append_assoc, List.singleton_append]
  rfl

/-- One pass of the outer loop of the second vertex loop when the control
reads succeed. -/
theorem Run.gridRowStep_eq {src : Source k} {offs : Fin 3 → Int}
    {ctrl : Fin 3 → Fin 3 → Vertex k} {s : Run k} (hs : Run.Steady src offs ctrl s)
    (grow : Nat → Nat) (n : Int) (i0 : Nat) :
    Run.gridRowStep src grow offs n s i0 =
      Except.ok ((List.range (n + 1).toNat).foldl
        (fun (t : Run k) (j : Nat) => t.push_back grow (gridVertex ctrl n (i0 + 1) j))
        { s with reads := s.reads ++ gridRowReads offs }) := by
  have h1 := hs.noted (s.reads ++ [offs 0 + ((0 : Fin 3).val : Int),
    offs 0 + ((1 : Fin 3).val : Int), offs 0 + ((2 : Fin 3).val : Int)])
  have h2 := h1.noted (s.reads ++ [offs 0 + ((0 : Fin 3).val : Int),
    offs 0 + ((1 : Fin 3).val : Int), offs 0 + ((2 : Fin 3).val : Int)] ++
    [offs 1 + ((0 : Fin 3).val : Int),
    offs 1 + ((1 : Fin 3).val : Int), offs 1 + ((2 : Fin 3).val : Int)])
  unfold Run.gridRowStep
  rw [Run.tempRow_eq hs]
  simp only [bind, Except.bind]
  rw [Run.tempRow_eq h1]
  simp only [bind, Except.bind]
  rw [Run.tempRow_eq h2]
  simp only [bind, Except.bind, pure, Except.pure, gridRowReads, List.append_assoc,
    List.cons_append, List.nil_append]
  rfl

/-- The first vertex loop with room left. -/
theorem Run.firstRow_fold {src : Source k} {offs : Fin 3 → Int}
    {ctrl : Fin 3 → Fin 3 → Vertex k} (grow : Nat → Nat) (n : Int) :
    ∀ (js : List Nat) (s : Run k) (m : Nat), Run.Steady src offs ctrl s →
      Run.Room src s (js.length + m) →
      ∃ s' : Run k,
        js.foldlM (Run.firstRowStep src grow offs n) s = Except.ok s' ∧
        s'.newVertices = s.newVertices ++ js.map (fun j => firstRowVertex ctrl n j) ∧
        s'.newIndices = s.newIndices ∧
        s'.reads = s.reads ++ js.flatMap (fun _ => firstRowReads offs) ∧
        s'.calls = s.calls ∧ Run.Steady src offs ctrl s' ∧ Run.Room src s' m
  | [], s, m, hs, hroom => by
      simp only [List.length_nil, Nat.zero_add] at hroom
      exact ⟨s, rfl, by simp, rfl, by simp, rfl, hs, hroom⟩
  | j :: js, s, m, hs, hroom => by
      have hroom' : Run.Room src { s with reads := s.reads ++ firstRowReads offs }
          (js.length + m + 1) := by
        simp only [List.length_cons] at hroom
        have e : js.length + 1 + m = js.length + m + 1 := by omega
        rw [e] at hroom
        cases src with
        | other vertices => trivial
        | output => exact hroom
      obtain ⟨hs1, hr1⟩ := (hs.noted (s.reads ++ firstRowReads offs)).push grow
        (firstRowVertex ctrl n j) (js.length + m) hroom'
      obtain ⟨s', h0, h1, h2, h3, h4, h5, h6⟩ := Run.firstRow_fold grow n js _ m hs1 hr1
      obtain ⟨p1, p2, p3, p4⟩ := Run.push_back_fields grow
        { s with reads := s.reads ++ firstRowReads offs } (firstRowVertex ctrl n j)
      refine ⟨s', ?_, ?_, ?_, ?_, ?_, h5, h6⟩
      · rw [List.foldlM_cons, Run.firstRowStep_eq hs]
        exact h0
      · rw [h1, p1]; simp
      · rw [h2, p2]
      · rw [h3, p3]; simp
      · rw [h4, p4]

/-- The second vertex loop with room left. -/
theorem Run.gridRow_fold {src : Source k} {offs : Fin 3 → Int}
    {ctrl : Fin 3 → Fin 3 → Vertex k} (grow : Nat → Nat) (n : Int) :
    ∀ (is : List Nat) (s : Run k) (m : Nat), Run.Steady src offs ctrl s →
      Run.Room src s (is.length * (n + 1).toNat + m) →
      ∃ s' : Run k,
        is.foldlM (Run.gridRowStep src grow offs n) s = Except.ok s' ∧
        s'.newVertices = s.newVertices ++ is.flatMap (fun i0 =>
          (List.range (n + 1).toNat).map (fun j => gridVertex ctrl n (i0 + 1) j)) ∧
        s'.newIndices = s.newIndices ∧
        s'.reads = s.reads ++ is.flatMap (fun _ => gridRowReads offs) ∧
        s'.calls = s.calls ∧ Run.Steady src offs ctrl s' ∧ Run.Room src s' m
  | [], s, m, hs, hroom => by
      simp only [List.length_nil, Nat.zero_mul, Nat.zero_add] at hroom
      exact ⟨s, rfl, by simp, rfl, by simp, rfl, hs, hroom⟩
  | i0 :: is, s, m, hs, hroom => by
      have hroom' : Run.Room src { s with reads := s.reads ++ gridRowReads offs }
          ((List.range (n + 1).toNat).length + (is.length * (n + 1).toNat + m)) := by
        simp only [List.length_cons, List.length_range] at hroom ⊢
        have e : (is.length + 1) * (n + 1).toNat + m =
            (n + 1).toNat + (is.length * (n + 1).toNat + m) := by ring
        rw [e] at hroom
        cases src with
        | other vertices => trivial
        | output => exact hroom
      obtain ⟨q1, q2, q3, q4, hs1, hr1⟩ := Run.foldl_push_back grow
        (fun j => gridVertex ctrl n (i0 + 1) j) (List.range (n + 1).toNat) _ _
        (hs.noted (s.reads ++ gridRowReads offs)) hroom'
      obtain ⟨s', h0, h1, h2, h3, h4, h5, h6⟩ := Run.gridRow_fold grow n is _ m hs1 hr1
      refine ⟨s', ?_, ?_, ?_, ?_, ?_, h5, h6⟩
      · rw [List.foldlM_cons, Run.gridRowStep_eq hs]
        exact h0
      · rw [h1, q1]; simp
      · rw [h2, q2]
      · rw [h3, q3]; simp
      · rw [h4, q4]

/-- The sub-patch call against memory with room left for its vertices: it
completes, appends the vertex block of the control grid it reads and the
index block, and returns the number of vertices. -/
theorem Run.TessellatePatch_of_room {src : Source k} {offs : Fin 3 → Int}
    {ctrl : Fin 3 → Fin 3 → Vertex k} {s : Run k} (hs : Run.Steady src offs ctrl s)
    (grow : Nat → Nat) (n indexOffset : Int) (m : Nat)
    (hroom : Run.Room src s (patchVertexCount n + m)) :
    ∃ s' : Run k,
      Run.TessellatePatch src grow offs s n indexOffset =
        Except.ok (s', (patchVertexCount n : Int)) ∧
      s'.newVertices = s.newVertices ++ patchVertices ctrl n ∧
      s'.newIndices = s.newIndices ++ patchIndices n indexOffset ∧
      s'.reads = s.reads ++ patchReads offs n ∧
      s'.calls = s.calls ∧ Run.Room src s' m := by
  have hroom1 : Run.Room src s ((List.range (n + 1).toNat).length +
      ((List.range n.toNat).length * (n + 1).toNat + m)) := by
    simp only [List.length_range]
    have e : (n + 1).toNat + (n.toNat * (n + 1).toNat + m) = patchVertexCount n + m := by
      unfold patchVertexCount
      omega
    rw [e]
    exact hroom
  obtain ⟨s1, a0, a1, a2, a3, a4, hs1, hr1⟩ :=
    Run.firstRow_fold grow n (List.range (n + 1).toNat) s _ hs hroom1
  obtain ⟨s2, b0, b1, b2, b3, b4, -, hr2⟩ :=
    Run.gridRow_fold grow n (List.range n.toNat) s1 m hs1 hr1
  have hv : s2.newVertices = s.newVertices ++ patchVertices ctrl n := by
    rw [b1, a1, List.append_assoc]
    rfl
  refine ⟨{ s2 with newIndices := s2.newIndices ++ patchIndices n indexOffset }, ?_, hv, ?_, ?_,
    ?_, ?_⟩
  · unfold Run.TessellatePatch
    simp only [bind, Except.bind, a0, b0, pure, Except.pure]
    have hlen : ((s2.newVertices.length : Int)) - (s.newVertices.length : Int) =
        (patchVertexCount n : Int) := by
      rw [hv, List.length_append, patchVertices_length]
      unfold patchVertexCount
      push_cast
      ring
    rw [hlen]
    rfl
  · rw [b2, a2]
  · rw [b3, a3, List.append_assoc]
    rfl
  · rw [b4, a4]
  · cases src with
    | other vertices => trivial
    | output => exact hr2

/-- The sub-patch call at a level `n ≤ 0`, whatever the capacity: no read
follows a `push_back`, so the call completes. -/
theorem Run.TessellatePatch_of_nonpos {src : Source k} {offs : Fin 3 → Int}
    {ctrl : Fin 3 → Fin 3 → Vertex k} {s : Run k} (hs : Run.Steady src offs ctrl s)
    (grow : Nat → Nat) (n indexOffset : Int) (hn : n ≤ 0) :
    ∃ s' : Run k,
      Run.TessellatePatch src grow offs s n indexOffset =
        Except.ok (s', (patchVertexCount n : Int)) ∧
      s'.newVertices = s.newVertices ++ patchVertices ctrl n ∧
      s'.newIndices = s.newIndices ++ patchIndices n indexOffset ∧
      s'.reads = s.reads ++ patchReads offs n ∧
      s'.calls = s.calls := by
  have hn0 : n.toNat = 0 := by omega
  rcases (show n < 0 ∨ n = 0 by omega) with hneg | hzero
  · have hn1 : (n + 1).toNat = 0 := by omega
    refine ⟨s, ?_, ?_, ?_, ?_, rfl⟩
    · unfold Run.TessellatePatch
      simp only [hn0, hn1, List.range_zero, List.foldlM_nil, bind, Except.bind, pure,
        Except.pure, List.flatMap_nil, List.append_nil]
      simp [patchVertexCount, hn0, hn1]
    · simp [patchVertices, hn0, hn1]
    · simp [patchIndices, hn0]
    · simp [patchReads, hn0, hn1]
  · subst hzero
    obtain ⟨p1, p2, p3, p4⟩ := Run.push_back_fields grow
      { s with reads := s.reads ++ firstRowReads offs } (firstRowVertex ctrl 0 0)
    refine ⟨Run.push_back grow { s with reads := s.reads ++ firstRowReads offs }
      (firstRowVertex ctrl 0 0), ?_, ?_, ?_, ?_, ?_⟩
    · unfold Run.TessellatePatch
      have h1 : ((0 : Int) + 1).toNat = 1 := rfl
      have h0 : (0 : Int).toNat = 0 := rfl
      have hr1 : List.range 1 = [0] := rfl
      simp only [h1, h0, hr1, List.range_zero, List.foldlM_cons, List.foldlM_nil,
        bind, Except.bind, pure, Except.pure, Run.firstRowStep_eq hs, List.flatMap_nil,
        List.append_nil]
      congr 1
      refine Prod.ext rfl ?_
      simp only [p1, List.length_append, List.length_singleton]
      simp [patchVertexCount]
    · rw [p1]; rfl
    · rw [p2]; simp [patchIndices]
    · have hr1 : List.range 1 = [0] := rfl
      rw [p3]; simp [patchReads, hr1]
    · rw [p4]

/-- The two renderings of the sub-patch tessellator agree: run against
memory with room left, or at a level `n ≤ 0`, the call leaves the buffers and
returns the value that `TessellatePatch` computes from the control points the
pointers lead to. -/
theorem Run.TessellatePatch_agrees {src : Source k} {offs : Fin 3 → Int}
    {ctrl : Fin 3 → Fin 3 → Vertex k} {s : Run k} (hs : Run.Steady src offs ctrl s)
    (grow : Nat → Nat) (n indexOffset : Int)
    (hroom : n ≤ 0 ∨ Run.Room src s (patchVertexCount n + 0)) :
    ∃ s' : Run k,
      Run.TessellatePatch src grow offs s n indexOffset =
        Except.ok (s', (BSP.TessellatePatch ctrl s.newVertices s.newIndices n indexOffset).ret) ∧
      s'.newVertices =
        (BSP.TessellatePatch ctrl s.newVertices s.newIndices n indexOffset).vertices ∧
      s'.newIndices =
        (BSP.TessellatePatch ctrl s.newVertices s.newIndices n indexOffset).indices := by
  rw [TessellatePatch_vertices, TessellatePatch_indices, TessellatePatch_ret,
    patchVertices_length]
  have hcount : ((((n + 1).toNat + n.toNat * (n + 1).toNat : Nat)) : Int) =
      (patchVertexCount n : Int) := rfl
  rw [hcount]
  rcases hroom with hn | hr
  · obtain ⟨s', h0, h1, h2, -, -⟩ := Run.TessellatePatch_of_nonpos hs grow n indexOffset hn
    exact ⟨s', h0, h1, h2⟩
  · obtain ⟨s', h0, h1, h2, -, -, -⟩ := Run.TessellatePatch_of_room hs grow n indexOffset 0 hr
    exact ⟨s', h0, h1, h2⟩

theorem Run.Room.of_fields {src : Source k} {s s' : Run k} {m m' : Nat}
    (h : Run.Room src s m) (hv : s'.newVertices.length + m' ≤ s.newVertices.length + m)
    (hc : s'.capacity = s.capacity) : Run.Room src s' m' := by
  cases src with
  | other vertices => trivial
  | output =>
      simp only [Run.Room] at h ⊢
      omega

/-- The control reads succeed on pointers taken from a source array that
holds all nine elements. -/
theorem Run.Steady.of_inRange (src : Source k) (offs : Fin 3 → Int) (s : Run k) (N : Nat)
    (hin : ∀ r c : Fin 3, 0 ≤ offs r + (c.val : Int) ∧ offs r + (c.val : Int) < (N : Int))
    (hN : N ≤ (src.elems s.newVertices).length) (hm : s.moved = false) :
    ∃ ctrl : Fin 3 → Fin 3 → Vertex k, Run.Steady src offs ctrl s := by
  have h : ∀ r c : Fin 3, ∃ v,
      vertexAt (src.elems s.newVertices) (offs r + (c.val : Int)) = some v := by
    intro r c
    obtain ⟨h1, h2⟩ := hin r c
    exact vertexAt_isSome _ _ ⟨h1, by omega⟩
  choose ctrl hctrl using h
  exact ⟨ctrl, fun r c => Run.control_eq src offs s r c _ (hctrl r c) (fun _ => hm)⟩

theorem Source.elems_length_le (src : Source k) (vs ws : List (Vertex k)) :
    (src.elems vs).length ≤ (src.elems (vs ++ ws)).length := by
  cases src with
  | other vertices => exact le_refl _
  | output => simp [Source.elems]

/-- The sub-patch loop, step by step: every sub-patch appends
`patchVertexCount n` vertices, the index block
`patchIndices n (indexOffset + j · patchVertexCount n)` and its reads. -/
theorem Run.patchLoop_eq (src : Source k) (grow : Nat → Nat) (n verticesPerRow : Int)
    (N : Nat) :
    ∀ (offsets : List Int) (s : Run k) (indexOffset : Int),
      (∀ o ∈ offsets, ∀ r c : Fin 3,
        0 ≤ ![o, o + verticesPerRow, o + verticesPerRow + verticesPerRow] r + (c.val : Int) ∧
        ![o, o + verticesPerRow, o + verticesPerRow + verticesPerRow] r + (c.val : Int) <
          (N : Int)) →
      N ≤ (src.elems s.newVertices).length →
      (n ≤ 0 ∨ Run.Room src s (offsets.length * patchVertexCount n)) →
      ∃ (s' : Run k) (vs : List (Vertex k)),
        Run.patchLoop src grow n verticesPerRow offsets s indexOffset =
          Except.ok (s', indexOffset + (offsets.length : Int) * (patchVertexCount n : Int)) ∧
        s'.newVertices = s.newVertices ++ vs ∧
        vs.length = offsets.length * patchVertexCount n ∧
        s'.newIndices = s.newIndices ++ (List.range offsets.length).flatMap (fun (j : Nat) =>
          patchIndices n (indexOffset + (j : Int) * (patchVertexCount n : Int))) ∧
        s'.reads = s.reads ++ offsets.flatMap (fun o =>
          patchReads ![o, o + verticesPerRow, o + verticesPerRow + verticesPerRow] n) ∧
        s'.calls = s.calls + offsets.length
  | [], s, indexOffset, _, _, _ => by
      exact ⟨s, [], by simp [Run.patchLoop], by simp, by simp, by simp, by simp, by simp⟩
  | o :: rest, s, indexOffset, hin, hN, hroom => by
      obtain ⟨ctrl, hs⟩ := Run.Steady.of_inRange src
        ![o, o + verticesPerRow, o + verticesPerRow + verticesPerRow]
        { s with moved := false, calls := s.calls + 1 } N
        (hin o (List.mem_cons_self _ _)) hN rfl
      have hstep : ∃ s1 : Run k,
          Run.TessellatePatch src grow
            ![o, o + verticesPerRow, o + verticesPerRow + verticesPerRow]
            { s with moved := false, calls := s.calls + 1 } n indexOffset =
            Except.ok (s1, (patchVertexCount n : Int)) ∧
          s1.newVertices = s.newVertices ++ patchVertices ctrl n ∧
          s1.newIndices = s.newIndices ++ patchIndices n indexOffset ∧
          s1.reads = s.reads ++
            patchReads ![o, o + verticesPerRow, o + verticesPerRow + verticesPerRow] n ∧
          s1.calls = s.calls + 1 ∧
          (n ≤ 0 ∨ Run.Room src s1 (rest.length * patchVertexCount n)) := by
        rcases hroom with hn | hr
        · obtain ⟨s1, h0, h1, h2, h3, h4⟩ :=
            Run.TessellatePatch_of_nonpos hs grow n indexOffset hn
          exact ⟨s1, h0, h1, h2, h3, h4, Or.inl hn⟩
        · have hr0 : Run.Room src { s with moved := false, calls := s.calls + 1 }
              (patchVertexCount n + rest.length * patchVertexCount n) :=
            hr.of_fields (by simp only [List.length_cons]; ring_nf; omega) rfl
          obtain ⟨s1, h0, h1, h2, h3, h4, h5⟩ :=
            Run.TessellatePatch_of_room hs grow n indexOffset _ hr0
          exact ⟨s1, h0, h1, h2, h3, h4, Or.inr h5⟩
      obtain ⟨s1, h0, h1, h2, h3, h4, hroom1⟩ := hstep
      have hN1 : N ≤ (src.elems s1.newVertices).length := by
        rw [h1]
        exact le_trans hN (Source.elems_length_le src _ _)
      obtain ⟨s', vs, g0, g1, g2, g3, g4, g5⟩ := Run.patchLoop_eq src grow n verticesPerRow N
        rest s1 (indexOffset + (patchVertexCount n : Int))
        (fun o' ho' => hin o' (List.mem_cons_of_mem _ ho')) hN1 hroom1
      refine ⟨s', patchVertices ctrl n ++ vs, ?_, ?_, ?_, ?_, ?_, ?_⟩
      · simp only [Run.patchLoop, h0, g0, List.length_cons]
        congr 2
        push_cast
        ring
      · rw [g1, h1, List.append_assoc]
      · rw [List.length_append, patchVertices_length, g2, List.length_cons]
        unfold patchVertexCount
        ring
      · rw [g3, h2]
        simp only [List.append_assoc, List.length_cons, List.range_succ_eq_map,
          List.flatMap_cons, List.flatMap_map]
        congr 2
        · simp
        · congr 1
          funext j
          congr 1
          push_cast
          ring
      · rw [g4, h3, List.flatMap_cons, List.append_assoc]
      · rw [g5, h4, List.length_cons]
        omega

/-- Every control read of a visited sub-patch is at one of the control
indices of the face. -/
theorem mem_controlIndices (f : Face k) (o : Int) (ho : o ∈ patchOffsets f) (r c : Fin 3) :
    ![o, o + f.BezierDimensions 0, o + f.BezierDimensions 0 + f.BezierDimensions 0] r +
      (c.val : Int) ∈ controlIndices f := by
  refine List.mem_flatMap.mpr ⟨o, ho, ?_⟩
  fin_cases r <;> fin_cases c <;> simp

theorem mem_firstRowReads (offs : Fin 3 → Int) (x : Int) (hx : x ∈ firstRowReads offs) :
    ∃ r c : Fin 3, x = offs r + (c.val : Int) := by
  simp only [firstRowReads, List.mem_cons, List.mem_singleton, List.not_mem_nil,
    or_false] at hx
  rcases hx with h | h | h
  · exact ⟨0, 0, h⟩
  · exact ⟨1, 0, h⟩
  · exact ⟨2, 0, h⟩

theorem mem_gridRowReads (offs : Fin 3 → Int) (x : Int) :
    x ∈ gridRowReads offs ↔ ∃ r c : Fin 3, x = offs r + (c.val : Int) := by
  constructor
  · intro hx
    simp only [gridRowReads, List.mem_cons, List.mem_singleton, List.not_mem_nil,
      or_false] at hx
    rcases hx with h | h | h | h | h | h | h | h | h
    · exact ⟨0, 0, h⟩
    · exact ⟨0, 1, h⟩
    · exact ⟨0, 2, h⟩
    · exact ⟨1, 0, h⟩
    · exact ⟨1, 1, h⟩
    · exact ⟨1, 2, h⟩
    · exact ⟨2, 0, h⟩
    · exact ⟨2, 1, h⟩
    · exact ⟨2, 2, h⟩
  · rintro ⟨r, c, rfl⟩
    fin_cases r <;> fin_cases c <;> simp [gridRowReads]

/-- Every read of a sub-patch call is a read of one of its nine control
points. -/
theorem mem_patchReads (offs : Fin 3 → Int) (n x : Int) (hx : x ∈ patchReads offs n) :
    ∃ r c : Fin 3, x = offs r + (c.val : Int) := by
  unfold patchReads at hx
  rcases List.mem_append.mp hx with h | h
  · obtain ⟨_, _, h⟩ := List.mem_flatMap.mp h
    exact mem_firstRowReads offs x h
  · obtain ⟨_, _, h⟩ := List.mem_flatMap.mp h
    exact (mem_gridRowReads offs x).mp h

/-- At a level `n ≥ 1` a sub-patch call reads each of its nine control
points. -/
theorem mem_patchReads_of_pos (offs : Fin 3 → Int) (n : Int) (hn : 1 ≤ n) (r c : Fin 3) :
    offs r + (c.val : Int) ∈ patchReads offs n := by
  unfold patchReads
  refine List.mem_append.mpr (Or.inr (List.mem_flatMap.mpr ⟨0, ?_, ?_⟩))
  · rw [List.mem_range]
    omega
  · exact (mem_gridRowReads offs _).mpr ⟨r, c, rfl⟩

/-- The control indices of a face are the indices `offs r + c` of its
sub-patches. -/
theorem mem_controlIndices_iff (f : Face k) (x : Int) :
    x ∈ controlIndices f ↔ ∃ o ∈ patchOffsets f, ∃ r c : Fin 3,
      x = ![o, o + f.BezierDimensions 0,
        o + f.BezierDimensions 0 + f.BezierDimensions 0] r + (c.val : Int) := by
  constructor
  · intro hx
    obtain ⟨o, ho, hxo⟩ := List.mem_flatMap.mp hx
    refine ⟨o, ho, ?_⟩
    simp only [List.mem_cons, List.mem_singleton, List.not_mem_nil, or_false] at hxo
    rcases hxo with h | h | h | h | h | h | h | h | h
    · exact ⟨0, 0, by simp [h]⟩
    · exact ⟨0, 1, by simp [h]⟩
    · exact ⟨0, 2, by simp [h]⟩
    · exact ⟨1, 0, by simp [h]⟩
    · exact ⟨1, 1, by simp [h]⟩
    · exact ⟨1, 2, by simp [h]⟩
    · exact ⟨2, 0, by simp [h]⟩
    · exact ⟨2, 1, by simp [h]⟩
    · exact ⟨2, 2, by simp [h]⟩
  · rintro ⟨o, ho, r, c, rfl⟩
    exact mem_controlIndices f o ho r c

/-- At a level `n ≥ 1` the elements a face-level run reads are the control
indices of the face; at any level they are among them. -/
theorem mem_reads_iff (f : Face k) (n : Int) (x : Int) :
    (x ∈ (patchOffsets f).flatMap (fun o =>
        patchReads ![o, o + f.BezierDimensions 0,
          o + f.BezierDimensions 0 + f.BezierDimensions 0] n) → x ∈ controlIndices f) ∧
    (1 ≤ n → x ∈ controlIndices f →
      x ∈ (patchOffsets f).flatMap (fun o =>
        patchReads ![o, o + f.BezierDimensions 0,
          o + f.BezierDimensions 0 + f.BezierDimensions 0] n)) := by
  constructor
  · intro hx
    obtain ⟨o, ho, hx'⟩ := List.mem_flatMap.mp hx
    obtain ⟨r, c, rfl⟩ := mem_patchReads _ n x hx'
    exact mem_controlIndices f o ho r c
  · intro hn hx
    obtain ⟨o, ho, r, c, rfl⟩ := (mem_controlIndices_iff f x).mp hx
    exact List.mem_flatMap.mpr ⟨o, ho, mem_patchReads_of_pos _ n hn r c⟩

/-- The face-level tessellator, in full.  On a face whose control indices lie
inside the source array, and when the control points stay where the pointers
found them, the run completes; with `K` sub-patches it appends
`K · patchVertexCount n` vertices and the index blocks
`patchIndices n (j · patchVertexCount n)`, `j < K`, it reads the control points
of the sub-patches in turn, and it rewrites the five range members of the
face. -/
theorem Tessellate_blocks (kPolygon : Int) (grow : Nat → Nat) (f : Face k) (src : Source k)
    (newVertices : List (Vertex k)) (capacity : Nat) (newIndices : List Int) (n : Int)
    (hb : ∀ x ∈ controlIndices f, 0 ≤ x ∧ x < ((src.elems newVertices).length : Int))
    (hs : src.Settled f newVertices capacity n) :
    ∃ (r : FaceOut k) (vs : List (Vertex k)),
      Tessellate kPolygon grow f src newVertices capacity newIndices n = Except.ok r ∧
      r.newVertices = newVertices ++ vs ∧
      vs.length = (patchOffsets f).length * patchVertexCount n ∧
      r.newIndices = newIndices ++
        (List.range (patchOffsets f).length).flatMap (fun (j : Nat) =>
          patchIndices n ((j : Int) * (patchVertexCount n : Int))) ∧
      r.reads = (patchOffsets f).flatMap (fun o =>
        patchReads ![o, o + f.BezierDimensions 0,
          o + f.BezierDimensions 0 + f.BezierDimensions 0] n) ∧
      r.calls = (patchOffsets f).length ∧
      r.f = { f with
                StartVertexIndex := (newVertices.length : Int)
                StartIndex := (newIndices.length : Int)
                NumIndices := (r.newIndices.length : Int) - (newIndices.length : Int)
                NumVertices := (r.newVertices.length : Int) - (newVertices.length : Int)
                FaceType := kPolygon } := by
  have hin : ∀ o ∈ patchOffsets f, ∀ r c : Fin 3,
      0 ≤ ![o, o + f.BezierDimensions 0,
        o + f.BezierDimensions 0 + f.BezierDimensions 0] r + (c.val : Int) ∧
      ![o, o + f.BezierDimensions 0,
        o + f.BezierDimensions 0 + f.BezierDimensions 0] r + (c.val : Int) <
          (((src.elems newVertices).length : Nat) : Int) :=
    fun o ho r c => hb _ (mem_controlIndices f o ho r c)
  have hroom : n ≤ 0 ∨ Run.Room src
      { newVertices := newVertices, capacity := capacity, moved := false,
        newIndices := newIndices, reads := [], calls := 0 }
      ((patchOffsets f).length * patchVertexCount n) := by
    cases src with
    | other vertices => exact Or.inr trivial
    | output =>
        rcases hs with h | h
        · exact Or.inl h
        · exact Or.inr h
  obtain ⟨s', vs, g0, g1, g2, g3, g4, g5⟩ := Run.patchLoop_eq src grow n
    (f.BezierDimensions 0) (src.elems newVertices).length (patchOffsets f)
    { newVertices := newVertices, capacity := capacity, moved := false,
      newIndices := newIndices, reads := [], calls := 0 } 0 hin (le_refl _) hroom
  simp only [zero_add, List.nil_append] at g0 g3 g4 g5
  have hrun : Tessellate kPolygon grow f src newVertices capacity newIndices n =
      Except.ok { f := { f with
                    StartVertexIndex := (newVertices.length : Int)
                    StartIndex := (newIndices.length : Int)
                    NumIndices := (s'.newIndices.length : Int) - (newIndices.length : Int)
                    NumVertices := (s'.newVertices.length : Int) - (newVertices.length : Int)
                    FaceType := kPolygon }
                  newVertices := s'.newVertices, capacity := s'.capacity,
                  newIndices := s'.newIndices, reads := s'.reads, calls := s'.calls } := by
    simp only [Tessellate, g0]
  exact ⟨_, vs, hrun, g1, g2, g3, g4, g5, rfl⟩

theorem Run.firstRowStep_dangling (grow : Nat → Nat) (offs : Fin 3 → Int) (n : Int)
    (s : Run k) (j : Nat) (hm : s.moved = true) :
    Run.firstRowStep Source.output grow offs n s j = Except.error PointerFault.dangling := by
  simp only [Run.firstRowStep, Run.control, hm, if_true, bind, Except.bind]

/-- The defect of the four-argument entry point.  When the source is the
output vector, the vector is full on entry, the face has a sub-patch and the
level is at least 1, the first `push_back` moves the vector and the next
pass of the first loop reads `controls[0][0]` through a pointer into the
released storage: the run has undefined behaviour. -/
theorem Tessellate_dangling (kPolygon : Int) (grow : Nat → Nat) (f : Face k)
    (newVertices : List (Vertex k)) (capacity : Nat) (newIndices : List Int) (n : Int)
    (hK : patchOffsets f ≠ []) (hn : 1 ≤ n) (hcap : capacity ≤ newVertices.length)
    (hb : ∀ x ∈ controlIndices f, 0 ≤ x ∧ x < (newVertices.length : Int)) :
    Tessellate kPolygon grow f Source.output newVertices capacity newIndices n =
      Except.error PointerFault.dangling := by
  obtain ⟨o, rest, hoffs⟩ := List.exists_cons_of_ne_nil hK
  have ho : o ∈ patchOffsets f := by rw [hoffs]; exact List.mem_cons_self _ _
  obtain ⟨ctrl, hs⟩ := Run.Steady.of_inRange (Source.output : Source k)
    ![o, o + f.BezierDimensions 0, o + f.BezierDimensions 0 + f.BezierDimensions 0]
    { newVertices := newVertices, capacity := capacity, moved := false,
      newIndices := newIndices, reads := [], calls := 0 + 1 } newVertices.length
    (fun r c => hb _ (mem_controlIndices f o ho r c)) (le_refl _) rfl
  obtain ⟨m, hm⟩ : ∃ m : Nat, (n + 1).toNat = m + 2 := ⟨(n + 1).toNat - 2, by omega⟩
  have hrange : List.range (m + 2) = 0 :: 1 :: (List.range m).map (fun x => x + 2) := by
    rw [List.range_succ_eq_map, List.range_succ_eq_map]
    simp [Function.comp_def]
  have hpatch : Run.TessellatePatch (Source.output : Source k) grow
      ![o, o + f.BezierDimensions 0, o + f.BezierDimensions 0 + f.BezierDimensions 0]
      { newVertices := newVertices, capacity := capacity, moved := false,
        newIndices := newIndices, reads := [], calls := 0 + 1 } n 0 =
      Except.error PointerFault.dangling := by
    unfold Run.TessellatePatch
    simp only [hm, hrange, List.foldlM_cons, Run.firstRowStep_eq hs, bind, Except.bind]
    rw [Run.push_back_of_ge grow _ _ hcap, Run.firstRowStep_dangling _ _ _ _ _ rfl]
  simp only [Tessellate, hoffs, Run.patchLoop, hpatch]

/-- C2: with output buffers of initial sizes `V0` and `I0`, a face-level run
that completes leaves `StartVertexIndex = V0`, `StartIndex = I0`,
`NumVertices = final vertex count - V0`, `NumIndices = final index count - I0`
and `FaceType = kPolygon`, and the run completes for every source array that
holds the control points of the face and stays in place during the call
(another vector than the output, or a level `n ≤ 0`, or reserved capacity for
all new vertices).  Through the four-argument entry point, on a vector that is
full on entry, a face with a sub-patch and `n ≥ 1`, the run reads a control
point through a dangling pointer instead: undefined behaviour, no face
ranges are guaranteed. -/
theorem Tessellate_face_ranges (kPolygon : Int) (grow : Nat → Nat) (f : Face k)
    (newVertices : List (Vertex k)) (capacity : Nat) (newIndices : List Int) (n : Int) :
    (∀ ogVertices : Source k,
      (∀ x ∈ controlIndices f,
        0 ≤ x ∧ x < ((ogVertices.elems newVertices).length : Int)) →
      ogVertices.Settled f newVertices capacity n →
      ∃ r : FaceOut k,
        Tessellate kPolygon grow f ogVertices newVertices capacity newIndices n =
          Except.ok r ∧
        r.f.StartVertexIndex = (newVertices.length : Int) ∧
        r.f.StartIndex = (newIndices.length : Int) ∧
        r.f.NumVertices = (r.newVertices.length : Int) - (newVertices.length : Int) ∧
        r.f.NumIndices = (r.newIndices.length : Int) - (newIndices.length : Int) ∧
        r.f.FaceType = kPolygon) ∧
    ((∀ x ∈ controlIndices f, 0 ≤ x ∧ x < (newVertices.length : Int)) →
      patchOffsets f ≠ [] → 1 ≤ n → capacity ≤ newVertices.length →
      Tessellate_inplace kPolygon grow f newVertices capacity newIndices n =
        Except.error PointerFault.dangling) := by
  refine ⟨fun ogVertices hb hs => ?_, fun hb hK hn hcap => ?_⟩
  · obtain ⟨r, vs, hrun, -, -, -, -, -, hf⟩ :=
      Tessellate_blocks kPolygon grow f ogVertices newVertices capacity newIndices n hb hs
    refine ⟨r, hrun, ?_, ?_, ?_, ?_, ?_⟩ <;> rw [hf]
  · exact Tessellate_dangling kPolygon grow f newVertices capacity newIndices n hK hn hcap hb

/-- C2 on `sampleFace` (a 3×3 patch at source index 2), output buffers that
already hold one vertex and two indices, two subdivisions, the source another
vector; and the four-argument call on the eleven sample vertices in a vector
of capacity 11 with one subdivision. -/
theorem Tessellate_face_ranges_witness :
    ((∀ x ∈ controlIndices sampleFace,
        0 ≤ x ∧ x < (((Source.other sampleVertices).elems [sampleVertex 0]).length : Int)) ∧
      (Source.other sampleVertices).Settled sampleFace [sampleVertex 0] 1 2 ∧
      ∃ r : FaceOut 4,
        Tessellate 1 doubling sampleFace (Source.other sampleVertices) [sampleVertex 0] 1
          [5, 6] 2 = Except.ok r ∧
        r.f.StartVertexIndex = (([sampleVertex 0] : List (Vertex 4)).length : Int) ∧
        r.f.StartIndex = (([5, 6] : List Int).length : Int) ∧
        r.f.NumVertices =
          (r.newVertices.length : Int) - (([sampleVertex 0] : List (Vertex 4)).length : Int) ∧
        r.f.NumIndices = (r.newIndices.length : Int) - (([5, 6] : List Int).length : Int) ∧
        r.f.FaceType = 1) ∧
    ((∀ x ∈ controlIndices sampleFace, 0 ≤ x ∧ x < (sampleVertices.length : Int)) ∧
      patchOffsets sampleFace ≠ [] ∧ (1 : Int) ≤ 1 ∧ 11 ≤ sampleVertices.length ∧
      Tessellate_inplace 1 doubling sampleFace sampleVertices 11 [5, 6] 1 =
        Except.error PointerFault.dangling) :=
  ⟨⟨by decide, trivial,
      (Tessellate_face_ranges 1 doubling sampleFace [sampleVertex 0] 1 [5, 6] 2).1
        (Source.other sampleVertices) (by decide) trivial⟩,
    ⟨by decide, by decide, by decide, by decide,
      (Tessellate_face_ranges 1 doubling sampleFace sampleVertices 11 [5, 6] 1).2
        (by decide) (by decide) (by decide) (by decide)⟩⟩

/-- C4: a face-level run that completes is append-only: the output vertex
list and the output index list keep their pre-call content as an unchanged
leading segment, and every member of the face other than `StartVertexIndex`,
`NumVertices`, `StartIndex`, `NumIndices` and `FaceType` is unchanged; the run
completes, at every subdivision level, for every source array that holds the
control points of the face and stays in place during the call.  Through the
four-argument entry point, on a vector that is full on entry, a face with a
sub-patch and `n ≥ 1`, the first `push_back` moves the source array under the
control pointers and the next read is undefined behaviour. -/
theorem Tessellate_append_only (kPolygon : Int) (grow : Nat → Nat) (f : Face k)
    (newVertices : List (Vertex k)) (capacity : Nat) (newIndices : List Int) (n : Int) :
    (∀ ogVertices : Source k,
      (∀ x ∈ controlIndices f,
        0 ≤ x ∧ x < ((ogVertices.elems newVertices).length : Int)) →
      ogVertices.Settled f newVertices capacity n →
      ∃ r : FaceOut k,
        Tessellate kPolygon grow f ogVertices newVertices capacity newIndices n =
          Except.ok r ∧
        (∃ vs, r.newVertices = newVertices ++ vs) ∧
        (∃ is, r.newIndices = newIndices ++ is) ∧
        r.f.TextureID = f.TextureID ∧ r.f.FogID = f.FogID ∧
        r.f.LightMapIDs = f.LightMapIDs ∧ r.f.LMX = f.LMX ∧ r.f.LMY = f.LMY ∧
        r.f.LMWidth = f.LMWidth ∧ r.f.LMHeight = f.LMHeight ∧
        r.f.LMOrigin = f.LMOrigin ∧ r.f.LMVecs = f.LMVecs ∧
        r.f.BezierDimensions = f.BezierDimensions ∧ r.f.Rest = f.Rest) ∧
    ((∀ x ∈ controlIndices f, 0 ≤ x ∧ x < (newVertices.length : Int)) →
      patchOffsets f ≠ [] → 1 ≤ n → capacity ≤ newVertices.length →
      Tessellate_inplace kPolygon grow f newVertices capacity newIndices n =
        Except.error PointerFault.dangling) := by
  refine ⟨fun ogVertices hb hs => ?_, fun hb hK hn hcap => ?_⟩
  · obtain ⟨r, vs, hrun, hv, -, hi, -, -, hf⟩ :=
      Tessellate_blocks kPolygon grow f ogVertices newVertices capacity newIndices n hb hs
    refine ⟨r, hrun, ⟨vs, hv⟩, ⟨_, hi⟩, ?_, ?_, ?_, ?_, ?_, ?_, ?_, ?_, ?_, ?_, ?_⟩ <;> rw [hf]
  · exact Tessellate_dangling kPolygon grow f newVertices capacity newIndices n hK hn hcap hb

/-- C4 on `sampleFace` with two subdivisions: from another vector into
output buffers that already hold one vertex and two indices; in place on the
eleven sample vertices in a vector with capacity 20, which holds the nine new
vertices; and the four-argument call on the same vertices in a vector of
capacity 11. -/
theorem Tessellate_append_only_witness :
    ((∀ x ∈ controlIndices sampleFace,
        0 ≤ x ∧ x < (((Source.other sampleVertices).elems [sampleVertex 0]).length : Int)) ∧
      (Source.other sampleVertices).Settled sampleFace [sampleVertex 0] 1 2 ∧
      ∃ r : FaceOut 4,
        Tessellate 1 doubling sampleFace (Source.other sampleVertices) [sampleVertex 0] 1
          [5, 6] 2 = Except.ok r ∧
        (∃ vs, r.newVertices = [sampleVertex 0] ++ vs) ∧
        (∃ is, r.newIndices = [5, 6] ++ is) ∧
        r.f.TextureID = sampleFace.TextureID ∧ r.f.FogID = sampleFace.FogID ∧
        r.f.LightMapIDs = sampleFace.LightMapIDs ∧ r.f.LMX = sampleFace.LMX ∧
        r.f.LMY = sampleFace.LMY ∧
        r.f.LMWidth = sampleFace.LMWidth ∧ r.f.LMHeight = sampleFace.LMHeight ∧
        r.f.LMOrigin = sampleFace.LMOrigin ∧ r.f.LMVecs = sampleFace.LMVecs ∧
        r.f.BezierDimensions = sampleFace.BezierDimensions ∧ r.f.Rest = sampleFace.Rest) ∧
    ((∀ x ∈ controlIndices sampleFace,
        0 ≤ x ∧ x < (((Source.output : Source 4).elems sampleVertices).length : Int)) ∧
      (Source.output : Source 4).Settled sampleFace sampleVertices 20 2 ∧
      ∃ r : FaceOut 4,
        Tessellate 1 doubling sampleFace Source.output sampleVertices 20 [] 2 = Except.ok r ∧
        (∃ vs, r.newVertices = sampleVertices ++ vs) ∧
        (∃ is, r.newIndices = [] ++ is) ∧
        r.f.TextureID = sampleFace.TextureID ∧ r.f.FogID = sampleFace.FogID ∧
        r.f.LightMapIDs = sampleFace.LightMapIDs ∧ r.f.LMX = sampleFace.LMX ∧
        r.f.LMY = sampleFace.LMY ∧
        r.f.LMWidth = sampleFace.LMWidth ∧ r.f.LMHeight = sampleFace.LMHeight ∧
        r.f.LMOrigin = sampleFace.LMOrigin ∧ r.f.LMVecs = sampleFace.LMVecs ∧
        r.f.BezierDimensions = sampleFace.BezierDimensions ∧ r.f.Rest = sampleFace.Rest) ∧
    ((∀ x ∈ controlIndices sampleFace, 0 ≤ x ∧ x < (sampleVertices.length : Int)) ∧
      patchOffsets sampleFace ≠ [] ∧ (1 : Int) ≤ 2 ∧ 11 ≤ sampleVertices.length ∧
      Tessellate_inplace 1 doubling sampleFace sampleVertices 11 [] 2 =
        Except.error PointerFault.dangling) :=
  ⟨⟨by decide, trivial,
      (Tessellate_append_only 1 doubling sampleFace [sampleVertex 0] 1 [5, 6] 2).1
        (Source.other sampleVertices) (by decide) trivial⟩,
    ⟨by decide, Or.inr (by decide),
      (Tessellate_append_only 1 doubling sampleFace sampleVertices 20 [] 2).1
        Source.output (by decide) (Or.inr (by decide))⟩,
    ⟨by decide, by decide, by decide, by decide,
      (Tessellate_append_only 1 doubling sampleFace sampleVertices 11 [] 2).2
        (by decide) (by decide) (by decide) (by decide)⟩⟩

end BSP

/-! ## Legacy-to-unified conversion -/

/-- The loop that stores one value at every listed channel of `LightMapIDs`
changes that member only, and exactly at the listed channels. -/
theorem foldl_setAt_LightMapIDs {k : Nat} (v : Int) (l : List Nat) (a : BSP.Face k) :
    l.foldl (fun (a : BSP.Face k) i => { a with LightMapIDs := setAt a.LightMapIDs i v }) a =
      { a with LightMapIDs := fun j => if j.val ∈ l then v else a.LightMapIDs j } := by
  induction l generalizing a with
  | nil => simp
  | cons x xs ih =>
      rw [List.foldl_cons, ih]
      congr 1
      funext j
      by_cases h1 : j.val ∈ xs
      · simp [h1]
      · by_cases h2 : j.val = x
        · simp [setAt, h2]
        · simp [setAt, h1, h2]

/-- C9: for every legacy face `b` (and `kMaxLightMaps = k + 1` channels),
`ibsp_to_rbsp(b)` has `LightMapIDs[0] = b.LightMapID`,
`LightMapIDs[i] = kLightMapNone` for every channel `1 ≤ i < kMaxLightMaps`,
copies `TextureID`, `FogID`, `FaceType`, `StartVertexIndex`, `NumVertices`,
`StartIndex`, `NumIndices`, `LMWidth`, `LMHeight`, `LMOrigin`, `LMVecs` and
`BezierDimensions` unchanged, and puts `b.LMX`, `b.LMY` in channel 0 of `LMX`,
`LMY`. -/
theorem ibsp_to_rbsp_Face_fields (k : Nat) (kLightMapNone : Int) (b : IBSP.Face) :
    (ibsp_to_rbsp_Face kLightMapNone b : BSP.Face (k + 1)).LightMapIDs 0 = b.LightMapID ∧
    (∀ i : Fin k,
      (ibsp_to_rbsp_Face kLightMapNone b : BSP.Face (k + 1)).LightMapIDs i.succ =
        kLightMapNone) ∧
    (ibsp_to_rbsp_Face kLightMapNone b : BSP.Face (k + 1)).TextureID = b.TextureID ∧
    (ibsp_to_rbsp_Face kLightMapNone b : BSP.Face (k + 1)).FogID = b.FogID ∧
    (ibsp_to_rbsp_Face kLightMapNone b : BSP.Face (k + 1)).FaceType = b.FaceType ∧
    (ibsp_to_rbsp_Face kLightMapNone b : BSP.Face (k + 1)).StartVertexIndex =
      b.StartVertexIndex ∧
    (ibsp_to_rbsp_Face kLightMapNone b : BSP.Face (k + 1)).NumVertices = b.NumVertices ∧
    (ibsp_to_rbsp_Face kLightMapNone b : BSP.Face (k + 1)).StartIndex = b.StartIndex ∧
    (ibsp_to_rbsp_Face kLightMapNone b : BSP.Face (k + 1)).NumIndices = b.NumIndices ∧
    (ibsp_to_rbsp_Face kLightMapNone b : BSP.Face (k + 1)).LMWidth = b.LMWidth ∧
    (ibsp_to_rbsp_Face kLightMapNone b : BSP.Face (k + 1)).LMHeight = b.LMHeight ∧
    (ibsp_to_rbsp_Face kLightMapNone b : BSP.Face (k + 1)).LMOrigin = b.LMOrigin ∧
    (ibsp_to_rbsp_Face kLightMapNone b : BSP.Face (k + 1)).LMVecs = b.LMVecs ∧
    (ibsp_to_rbsp_Face kLightMapNone b : BSP.Face (k + 1)).BezierDimensions =
      b.BezierDimensions ∧
    (ibsp_to_rbsp_Face kLightMapNone b : BSP.Face (k + 1)).LMX 0 = b.LMX ∧
    (ibsp_to_rbsp_Face kLightMapNone b : BSP.Face (k + 1)).LMY 0 = b.LMY := by
  refine ⟨?_, ?_, ?_, ?_, ?_, ?_, ?_, ?_, ?_, ?_, ?_, ?_, ?_, ?_, ?_, ?_⟩
  all_goals simp only [ibsp_to_rbsp_Face, foldl_setAt_LightMapIDs, copy_array]
  · simp [setAt]
  · intro i
    have hmem : (i.succ : Fin (k + 1)).val ∈ List.range' 1 (k + 1 - 1) := by
      rw [List.mem_range']
      exact ⟨i.val, i.isLt, by simp; omega⟩
    simp only [hmem, if_true]
  · simp [setAt]
  · simp [setAt]

/-- C10: for every legacy vertex `b` (and `kMaxLightMaps = k + 1` channels),
`ibsp_to_rbsp(b)` has `Position = b.Position`, `TexCoord = b.TexCoord`,
`Normal = b.Normal`, `LMCoord[0] = b.LMCoord` and `LMCoord[i] = (0, 0)` for
every channel `1 ≤ i < kMaxLightMaps`. -/
theorem ibsp_to_rbsp_Vertex_fields (k : Nat) (b : IBSP.Vertex) :
    (ibsp_to_rbsp_Vertex b : BSP.Vertex (k + 1)).Position = b.Position ∧
    (ibsp_to_rbsp_Vertex b : BSP.Vertex (k + 1)).TexCoord = b.TexCoord ∧
    (ibsp_to_rbsp_Vertex b : BSP.Vertex (k + 1)).Normal = b.Normal ∧
    (ibsp_to_rbsp_Vertex b : BSP.Vertex (k + 1)).LMCoord 0 = b.LMCoord ∧
    (∀ i : Fin k, ∀ c : Fin 2,
      (ibsp_to_rbsp_Vertex b : BSP.Vertex (k + 1)).LMCoord i.succ c = 0) := by
  refine ⟨rfl, rfl, rfl, ?_, ?_⟩
  · simp [ibsp_to_rbsp_Vertex, setAt, copy_array]
  · intro i c
    have h : ¬ ((i.succ : Fin (k + 1)).val = 0) := by simp
    simp only [ibsp_to_rbsp_Vertex, setAt, if_neg h]
    rfl

/-! ## Lump decoding -/

theorem slice_length (cursor : List UInt8) (start len : Nat)
    (h : start + len ≤ cursor.length) : (slice cursor start len).length = len := by
  unfold slice
  rw [List.length_take, List.length_drop]
  omega

theorem slice_getElem? (cursor : List UInt8) (start len t : Nat) (ht : t < len) :
    (slice cursor start len)[t]? = cursor[start + t]? := by
  unfold slice
  rw [List.getElem?_take_of_lt ht, List.getElem?_drop]

/-- An `Except` bind completes exactly when both of its parts do. -/
theorem bind_eq_ok {ε α β : Type} (x : Except ε α) (f : α → Except ε β) (b : β) :
    (x >>= f) = Except.ok b ↔ ∃ a, x = Except.ok a ∧ f a = Except.ok b := by
  cases x with
  | error e => simp [bind, Except.bind]
  | ok a => simp [bind, Except.bind]

/-- The typed reader leaves the destination untouched for an empty lump. -/
theorem ReadLump_length_zero {T : Type} (ndebug : Bool) (L : Layout T)
    (cursor : List UInt8) (array : List T) (lump : BSP.Lump) (h0 : lump.Length = 0) :
    ReadLump ndebug L cursor array lump = Except.ok array := by
  simp [ReadLump, h0]

/-- The typed reader on a lump that fits: the records cut from the buffer. -/
theorem ReadLump_of_fits {T : Type} (ndebug : Bool) (L : Layout T)
    (cursor : List UInt8) (array : List T) (lump : BSP.Lump)
    (hfit : BSP.LumpFits L.size cursor lump) (hdst : array = [] ∨ 0 < lump.Length) :
    ReadLump ndebug L cursor array lump =
      Except.ok ((List.range (lump.Length / L.size)).map
        (fun i => L.ofBytes (slice cursor (lump.Offset + i * L.size) L.size))) := by
  obtain ⟨hin, hmul⟩ := hfit
  have hcount : lump.Length / L.size * L.size = lump.Length :=
    Nat.div_mul_cancel (Nat.dvd_of_mod_eq_zero hmul)
  by_cases h0 : lump.Length = 0
  · have ha : array = [] := by
      rcases hdst with h | h
      · exact h
      · omega
    rw [ReadLump_length_zero ndebug L cursor array lump h0, ha, h0]
    simp
  · have hpos : lump.Length > 0 := Nat.pos_of_ne_zero h0
    unfold ReadLump
    rw [if_pos hpos]
    simp only [hcount]
    rw [if_neg (by simp), if_neg (by omega)]

/-- The typed reader completes on a lump that fits. -/
theorem ReadLump_completes {T : Type} (ndebug : Bool) (L : Layout T)
    (cursor : List UInt8) (array : List T) (lump : BSP.Lump)
    (hfit : BSP.LumpFits L.size cursor lump) (hdst : array = [] ∨ 0 < lump.Length) :
    ∃ out, ReadLump ndebug L cursor array lump = Except.ok out :=
  ⟨_, ReadLump_of_fits ndebug L cursor array lump hfit hdst⟩

/-- The upgrading reader appends nothing for an empty lump. -/
theorem UpgradeLump_length_zero {I R : Type} (ndebug : Bool) (L : Layout I) (conv : I → R)
    (cursor : List UInt8) (rbspArray : List R) (lump : BSP.Lump) (h0 : lump.Length = 0) :
    UpgradeLump ndebug L conv cursor rbspArray lump = Except.ok rbspArray := by
  simp [UpgradeLump, ReadLump_length_zero ndebug L cursor [] lump h0]

/-- Every record the upgrading reader appends is a converted legacy record. -/
theorem UpgradeLump_ok {I R : Type} (ndebug : Bool) (L : Layout I) (conv : I → R)
    (cursor : List UInt8) (rbspArray out : List R) (lump : BSP.Lump)
    (h : UpgradeLump ndebug L conv cursor rbspArray lump = Except.ok out) :
    ∃ ibspArray : List I, out = rbspArray ++ ibspArray.map conv := by
  unfold UpgradeLump at h
  split at h
  · cases h
  · rename_i ibspArray _
    exact ⟨ibspArray, by cases h; rfl⟩

/-- The upgrading reader on a lump that fits. -/
theorem UpgradeLump_of_fits {I R : Type} (ndebug : Bool) (L : Layout I) (conv : I → R)
    (cursor : List UInt8) (rbspArray : List R) (lump : BSP.Lump)
    (hfit : BSP.LumpFits L.size cursor lump) :
    ∃ out, UpgradeLump ndebug L conv cursor rbspArray lump = Except.ok out := by
  unfold UpgradeLump
  rw [ReadLump_of_fits ndebug L cursor [] lump hfit (Or.inl rfl)]
  exact ⟨_, rfl⟩

/-- C5: for every buffer and every typed lump descriptor with
`offset + length` inside the buffer and `length` an exact multiple of the
element size, `ReadLump` into an empty destination yields exactly
`length / elementSize` records, and record `i` is the byte-for-byte image of
`buffer[offset + i·elementSize .. offset + (i+1)·elementSize)`.  Every call of
`ReadLump` in `BSP.cpp` passes an empty destination (`Load` runs after
`Unload`, `UpgradeLump` passes a fresh vector); a destination that still
holds records is overwritten in the same way when the length is positive.
The buffer is an input only. -/
theorem ReadLump_records {T : Type} (ndebug : Bool) (L : Layout T)
    (cursor : List UInt8) (lump : BSP.Lump)
    (hin : lump.Offset + lump.Length ≤ cursor.length)
    (hmul : lump.Length % L.size = 0) :
    (∃ records : List (List UInt8),
      ReadLump ndebug L cursor [] lump = Except.ok (records.map L.ofBytes) ∧
      records.length = lump.Length / L.size ∧
      ∀ i, i < lump.Length / L.size →
        ∃ record, records[i]? = some record ∧ record.length = L.size ∧
          ∀ t, t < L.size → record[t]? = cursor[lump.Offset + i * L.size + t]?) ∧
    (∀ array : List T, 0 < lump.Length →
      ReadLump ndebug L cursor array lump = ReadLump ndebug L cursor [] lump) := by
  have hcount : lump.Length / L.size * L.size = lump.Length :=
    Nat.div_mul_cancel (Nat.dvd_of_mod_eq_zero hmul)
  refine ⟨⟨(List.range (lump.Length / L.size)).map
    (fun i => slice cursor (lump.Offset + i * L.size) L.size), ?_, by simp, ?_⟩, ?_⟩
  · rw [ReadLump_of_fits ndebug L cursor [] lump ⟨hin, hmul⟩ (Or.inl rfl), List.map_map]
    rfl
  · intro i hi
    refine ⟨slice cursor (lump.Offset + i * L.size) L.size, ?_, ?_, ?_⟩
    · rw [List.getElem?_map, List.getElem?_range hi]
      rfl
    · apply slice_length
      have : (i + 1) * L.size ≤ lump.Length / L.size * L.size := Nat.mul_le_mul_right _ hi
      rw [Nat.succ_mul] at this
      omega
    · intro t ht
      exact slice_getElem? cursor _ _ t ht
  · intro array hpos
    rw [ReadLump_of_fits ndebug L cursor array lump ⟨hin, hmul⟩ (Or.inr hpos),
      ReadLump_of_fits ndebug L cursor [] lump ⟨hin, hmul⟩ (Or.inl rfl)]

/-! ## The decoder -/

namespace BSP

variable {k : Nat}

theorem lumps_ok (cfg : Config k) (lpBytes : List UInt8) (i : Nat) (l : Lump)
    (h : lumps cfg lpBytes i = Except.ok l) : l = lumpAt cfg lpBytes i := by
  unfold lumps at h
  split at h
  · cases h
  · cases h; rfl

theorem lumps_of_inside (cfg : Config k) (lpBytes : List UInt8) (i : Nat)
    (h : cfg.sizeofHeader + i * 8 + 8 ≤ lpBytes.length) :
    lumps cfg lpBytes i = Except.ok (lumpAt cfg lpBytes i) := by
  unfold lumps
  rw [if_neg (by omega)]

/-- A completed visibility block changes the three visibility members only. -/
theorem LoadVisData_ok (lpBytes : List UInt8) (lump : Lump) (self t : State k)
    (h : LoadVisData lpBytes lump self = Except.ok t) :
    ∃ (c s : Nat) (bits : List UInt8),
      t = { self with NumClusters := c, ClusterVisDataSize := s, ClusterBits := bits } ∧
      (lump.Length = 0 → c = 0 ∧ s = 0 ∧ bits = self.ClusterBits) ∧
      (lump.Length ≠ 0 →
        c = u32 lpBytes lump.Offset ∧ s = u32 lpBytes (lump.Offset + 4) ∧
        bits = slice lpBytes (lump.Offset + 8) (c * s) ∧
        (c * s = 0 ∨ lump.Offset + 8 + c * s ≤ lpBytes.length)) := by
  unfold LoadVisData at h
  by_cases h0 : lump.Length = 0
  · simp only [h0, ne_eq, not_true_eq_false, if_false] at h
    cases h
    exact ⟨0, 0, self.ClusterBits, rfl, fun _ => ⟨rfl, rfl, rfl⟩, fun hne => absurd h0 hne⟩
  · simp only [ne_eq, h0, not_false_eq_true, if_true] at h
    split at h
    · cases h
    · split at h
      · cases h
      · rename_i hnot
        cases h
        refine ⟨u32 lpBytes lump.Offset, u32 lpBytes (lump.Offset + 4), _, rfl,
          fun h => absurd h h0, fun _ => ⟨rfl, rfl, rfl, ?_⟩⟩
        simp only [not_and, not_lt] at hnot
        by_cases hz : u32 lpBytes lump.Offset * u32 lpBytes (lump.Offset + 4) = 0
        · exact Or.inl hz
        · exact Or.inr (hnot (Nat.pos_of_ne_zero hz))

/-- The visibility block completes when the lump is empty or holds its two
words and `C * S` bytes. -/
theorem LoadVisData_of_fits (lpBytes : List UInt8) (lump : Lump) (self : State k)
    (h : lump.Length = 0 ∨ lump.Offset + 8 +
      u32 lpBytes lump.Offset * u32 lpBytes (lump.Offset + 4) ≤ lpBytes.length) :
    ∃ t, LoadVisData lpBytes lump self = Except.ok t := by
  unfold LoadVisData
  by_cases h0 : lump.Length = 0
  · simp only [h0, ne_eq, not_true_eq_false, if_false]
    exact ⟨_, rfl⟩
  · have hin := h.resolve_left h0
    simp only [ne_eq, h0, not_false_eq_true, if_true]
    rw [if_neg (by omega), if_neg (by omega)]
    exact ⟨_, rfl⟩

/-- The format dispatch leaves an array empty when its lump is empty. -/
theorem LoadUpgraded_length_zero (cfg : Config k) (lpBytes : List UInt8) (Format : Nat)
    (self : State k)
    (up : List BrushSide × List (Vertex k) × List (Face k) × List (LightVolume k))
    (h : LoadUpgraded cfg lpBytes Format (Unload self) = Except.ok up) :
    ((lumpAt cfg lpBytes cfg.kBrushSides).Length = 0 → up.1 = []) ∧
    ((lumpAt cfg lpBytes cfg.kVertices).Length = 0 → up.2.1 = []) ∧
    ((lumpAt cfg lpBytes cfg.kFaces).Length = 0 → up.2.2.1 = []) ∧
    ((lumpAt cfg lpBytes cfg.kLightVolumes).Length = 0 → up.2.2.2 = []) := by
  unfold LoadUpgraded at h
  split at h
  · simp only [bind_eq_ok] at h
    obtain ⟨l1, hl1, a1, ha1, l2, hl2, a2, ha2, l3, hl3, a3, ha3, l4, hl4, a4, ha4, h⟩ := h
    have e1 := lumps_ok cfg lpBytes _ _ hl1
    have e2 := lumps_ok cfg lpBytes _ _ hl2
    have e3 := lumps_ok cfg lpBytes _ _ hl3
    have e4 := lumps_ok cfg lpBytes _ _ hl4
    subst e1 e2 e3 e4
    cases h
    refine ⟨fun h0 => ?_, fun h0 => ?_, fun h0 => ?_, fun h0 => ?_⟩
    · rw [ReadLump_length_zero _ _ _ _ _ h0] at ha1
      cases ha1; rfl
    · rw [ReadLump_length_zero _ _ _ _ _ h0] at ha2
      cases ha2; rfl
    · rw [ReadLump_length_zero _ _ _ _ _ h0] at ha3
      cases ha3; rfl
    · rw [ReadLump_length_zero _ _ _ _ _ h0] at ha4
      cases ha4; rfl
  · simp only [bind_eq_ok] at h
    obtain ⟨l1, hl1, a1, ha1, l2, hl2, a2, ha2, l3, hl3, a3, ha3, l4, hl4, a4, ha4, h⟩ := h
    have e1 := lumps_ok cfg lpBytes _ _ hl1
    have e2 := lumps_ok cfg lpBytes _ _ hl2
    have e3 := lumps_ok cfg lpBytes _ _ hl3
    have e4 := lumps_ok cfg lpBytes _ _ hl4
    subst e1 e2 e3 e4
    cases h
    refine ⟨fun h0 => ?_, fun h0 => ?_, fun h0 => ?_, fun h0 => ?_⟩
    · rw [UpgradeLump_length_zero _ _ _ _ _ _ h0] at ha1
      cases ha1; rfl
    · rw [UpgradeLump_length_zero _ _ _ _ _ _ h0] at ha2
      cases ha2; rfl
    · rw [UpgradeLump_length_zero _ _ _ _ _ _ h0] at ha3
      cases ha3; rfl
    · rw [UpgradeLump_length_zero _ _ _ _ _ _ h0] at ha4
      cases ha4; rfl

/-- The brush sides of a legacy image all come out of `ibsp_to_rbsp`. -/
theorem LoadUpgraded_legacy_BrushSides (cfg : Config k) (lpBytes : List UInt8) (Format : Nat)
    (self : State k)
    (up : List BrushSide × List (Vertex k) × List (Face k) × List (LightVolume k))
    (hlegacy : Format ≠ cfg.kRBSPFormat)
    (h : LoadUpgraded cfg lpBytes Format (Unload self) = Except.ok up) :
    ∃ ibspArray : List IBSP.BrushSide, up.1 = ibspArray.map ibsp_to_rbsp_BrushSide := by
  unfold LoadUpgraded at h
  rw [if_neg hlegacy] at h
  simp only [bind_eq_ok] at h
  obtain ⟨l1, hl1, a1, ha1, l2, hl2, a2, ha2, l3, hl3, a3, ha3, l4, hl4, a4, ha4, h⟩ := h
  obtain ⟨ibspArray, hout⟩ := UpgradeLump_ok _ _ _ _ _ _ _ ha1
  cases h
  exact ⟨ibspArray, by rw [hout]; rfl⟩

/-- The format dispatch completes on a well-formed image. -/
theorem LoadUpgraded_of_fits (cfg : Config k) (lpBytes : List UInt8) (self : State k)
    (hl : ∀ i ∈ lumpKinds cfg, cfg.sizeofHeader + i * 8 + 8 ≤ lpBytes.length)
    (h : if u32 lpBytes cfg.offsetofFormat = cfg.kRBSPFormat then
        LumpFits cfg.layoutBrushSide.size lpBytes (lumpAt cfg lpBytes cfg.kBrushSides) ∧
        LumpFits cfg.layoutVertex.size lpBytes (lumpAt cfg lpBytes cfg.kVertices) ∧
        LumpFits cfg.layoutFace.size lpBytes (lumpAt cfg lpBytes cfg.kFaces) ∧
        LumpFits cfg.layoutLightVolume.size lpBytes (lumpAt cfg lpBytes cfg.kLightVolumes)
      else
        LumpFits IBSP.BrushSide.layout.size lpBytes (lumpAt cfg lpBytes cfg.kBrushSides) ∧
        LumpFits cfg.layoutLegacyVertex.size lpBytes (lumpAt cfg lpBytes cfg.kVertices) ∧
        LumpFits cfg.layoutLegacyFace.size lpBytes (lumpAt cfg lpBytes cfg.kFaces) ∧
        LumpFits cfg.layoutLegacyLightVolume.size lpBytes
          (lumpAt cfg lpBytes cfg.kLightVolumes)) :
    ∃ up, LoadUpgraded cfg lpBytes (u32 lpBytes cfg.offsetofFormat) (Unload self) =
      Except.ok up := by
  have h1 := lumps_of_inside cfg lpBytes cfg.kBrushSides (hl _ (by simp [lumpKinds]))
  have h2 := lumps_of_inside cfg lpBytes cfg.kVertices (hl _ (by simp [lumpKinds]))
  have h3 := lumps_of_inside cfg lpBytes cfg.kFaces (hl _ (by simp [lumpKinds]))
  have h4 := lumps_of_inside cfg lpBytes cfg.kLightVolumes (hl _ (by simp [lumpKinds]))
  unfold LoadUpgraded
  by_cases hf : u32 lpBytes cfg.offsetofFormat = cfg.kRBSPFormat
  · rw [if_pos hf] at h
    obtain ⟨f1, f2, f3, f4⟩ := h
    rw [if_pos hf]
    simp only [bind_eq_ok]
    exact ⟨_, _, h1, _, ReadLump_of_fits _ _ _ _ _ f1 (Or.inl rfl), _, h2, _,
      ReadLump_of_fits _ _ _ _ _ f2 (Or.inl rfl), _, h3, _,
      ReadLump_of_fits _ _ _ _ _ f3 (Or.inl rfl), _, h4, _,
      ReadLump_of_fits _ _ _ _ _ f4 (Or.inl rfl), rfl⟩
  · rw [if_neg hf] at h
    obtain ⟨f1, f2, f3, f4⟩ := h
    rw [if_neg hf]
    obtain ⟨o1, g1⟩ := UpgradeLump_of_fits cfg.ndebug IBSP.BrushSide.layout
      ibsp_to_rbsp_BrushSide lpBytes (Unload self).BrushSides _ f1
    obtain ⟨o2, g2⟩ := UpgradeLump_of_fits cfg.ndebug cfg.layoutLegacyVertex
      (ibsp_to_rbsp_Vertex : IBSP.Vertex → Vertex k) lpBytes (Unload self).Vertices _ f2
    obtain ⟨o3, g3⟩ := UpgradeLump_of_fits cfg.ndebug cfg.layoutLegacyFace
      (ibsp_to_rbsp_Face cfg.kLightMapNone : IBSP.Face → Face k) lpBytes
      (Unload self).Faces _ f3
    obtain ⟨o4, g4⟩ := UpgradeLump_of_fits cfg.ndebug cfg.layoutLegacyLightVolume
      (ibsp_to_rbsp_LightVolume : IBSP.LightVolume → LightVolume k) lpBytes
      (Unload self).LightVolumes _ f4
    simp only [bind_eq_ok]
    exact ⟨_, _, h1, _, g1, _, h2, _, g2, _, h3, _, g3, _, h4, _, g4, rfl⟩

/-- The decoder completes on every well-formed file image. -/
theorem Load_of_wellFormed (cfg : Config k) (lpBytes : List UInt8) (self : State k)
    (hw : WellFormed cfg lpBytes) : ∃ t, Load cfg lpBytes self = Except.ok t := by
  obtain ⟨hfmt, hl, f1, f2, f3, f4, f5, f6, f7, f8, fup, f9, f10, f11, hent, hvis⟩ := hw
  have hformat : readFormat cfg lpBytes = Except.ok (u32 lpBytes cfg.offsetofFormat) := by
    unfold readFormat
    rw [if_neg (by omega)]
  obtain ⟨up, hup⟩ := LoadUpgraded_of_fits cfg lpBytes self hl fup
  have hentities : ∃ es, LoadEntities lpBytes (lumpAt cfg lpBytes cfg.kEntities)
      (Unload self) = Except.ok es := by
    unfold LoadEntities
    by_cases h0 : (lumpAt cfg lpBytes cfg.kEntities).Length = 0
    · simp only [h0, ne_eq, not_true_eq_false, if_false]
      exact ⟨_, rfl⟩
    · have hsome := hent.resolve_left h0
      simp only [ne_eq, h0, not_false_eq_true, if_true]
      unfold ReadLumpString
      rw [if_pos (Nat.pos_of_ne_zero h0)]
      obtain ⟨s, hs⟩ := Option.isSome_iff_exists.mp hsome
      rw [hs]
      exact ⟨_, rfl⟩
  obtain ⟨es, hes⟩ := hentities
  obtain ⟨a1, g1⟩ := ReadLump_completes cfg.ndebug (Layout.raw cfg.sizeofTexture) lpBytes
    (Unload self).Materials _ f1 (Or.inl rfl)
  obtain ⟨a2, g2⟩ := ReadLump_completes cfg.ndebug (Layout.raw cfg.sizeofPlane) lpBytes
    (Unload self).Planes _ f2 (Or.inl rfl)
  obtain ⟨a3, g3⟩ := ReadLump_completes cfg.ndebug (Layout.raw cfg.sizeofNode) lpBytes
    (Unload self).Nodes _ f3 (Or.inl rfl)
  obtain ⟨a4, g4⟩ := ReadLump_completes cfg.ndebug (Layout.raw cfg.sizeofLeaf) lpBytes
    (Unload self).Leaves _ f4 (Or.inl rfl)
  obtain ⟨a5, g5⟩ := ReadLump_completes cfg.ndebug (Layout.raw cfg.sizeofLeafFace) lpBytes
    (Unload self).LeafFaces _ f5 (Or.inl rfl)
  obtain ⟨a6, g6⟩ := ReadLump_completes cfg.ndebug (Layout.raw cfg.sizeofLeafBrush) lpBytes
    (Unload self).LeafBrushes _ f6 (Or.inl rfl)
  obtain ⟨a7, g7⟩ := ReadLump_completes cfg.ndebug (Layout.raw cfg.sizeofModel) lpBytes
    (Unload self).Models _ f7 (Or.inl rfl)
  obtain ⟨a8, g8⟩ := ReadLump_completes cfg.ndebug (Layout.raw cfg.sizeofBrush) lpBytes
    (Unload self).Brushes _ f8 (Or.inl rfl)
  obtain ⟨a9, g9⟩ := ReadLump_completes cfg.ndebug cfg.layoutIndex lpBytes
    (Unload self).Indices _ f9 (Or.inl rfl)
  obtain ⟨a10, g10⟩ := ReadLump_completes cfg.ndebug (Layout.raw cfg.sizeofFog) lpBytes
    (Unload self).Fogs _ f10 (Or.inl rfl)
  obtain ⟨a11, g11⟩ := ReadLump_completes cfg.ndebug (Layout.raw cfg.sizeofLightMap) lpBytes
    (Unload self).LightMaps _ f11 (Or.inl rfl)
  obtain ⟨t, ht⟩ := LoadVisData_of_fits lpBytes (lumpAt cfg lpBytes cfg.kVisData)
    ({ Unload self with
      Format := u32 lpBytes cfg.offsetofFormat
      Materials := a1
      Planes := a2
      Nodes := a3
      Leaves := a4
      LeafFaces := a5
      LeafBrushes := a6
      Models := a7
      Brushes := a8
      BrushSides := up.1
      Vertices := up.2.1
      Faces := up.2.2.1
      LightVolumes := up.2.2.2
      Indices := a9
      Fogs := a10
      LightMaps := a11
      EntityString := es } : State k) hvis
  refine ⟨t, ?_⟩
  simp only [Load, bind_eq_ok]
  exact ⟨_, hformat,
    _, lumps_of_inside cfg lpBytes _ (hl _ (by simp [lumpKinds])), _, g1,
    _, lumps_of_inside cfg lpBytes _ (hl _ (by simp [lumpKinds])), _, g2,
    _, lumps_of_inside cfg lpBytes _ (hl _ (by simp [lumpKinds])), _, g3,
    _, lumps_of_inside cfg lpBytes _ (hl _ (by simp [lumpKinds])), _, g4,
    _, lumps_of_inside cfg lpBytes _ (hl _ (by simp [lumpKinds])), _, g5,
    _, lumps_of_inside cfg lpBytes _ (hl _ (by simp [lumpKinds])), _, g6,
    _, lumps_of_inside cfg lpBytes _ (hl _ (by simp [lumpKinds])), _, g7,
    _, lumps_of_inside cfg lpBytes _ (hl _ (by simp [lumpKinds])), _, g8,
    _, hup,
    _, lumps_of_inside cfg lpBytes _ (hl _ (by simp [lumpKinds])), _, g9,
    _, lumps_of_inside cfg lpBytes _ (hl _ (by simp [lumpKinds])), _, g10,
    _, lumps_of_inside cfg lpBytes _ (hl _ (by simp [lumpKinds])), _, g11,
    _, lumps_of_inside cfg lpBytes _ (hl _ (by simp [lumpKinds])), _, hes,
    _, lumps_of_inside cfg lpBytes _ (hl _ (by simp [lumpKinds])), ht⟩

/-- What a completed run of the decoder has read: the format tag, the
upgraded arrays, and a state that differs from the unloaded one only in
members read from lumps; arrays of empty lumps stay as `Unload` left them. -/
theorem Load_ok (cfg : Config k) (lpBytes : List UInt8) (self t : State k)
    (h : Load cfg lpBytes self = Except.ok t) :
    EmptyLumpsGiveEmptyArrays cfg lpBytes t ∧
    (∃ up, LoadUpgraded cfg lpBytes (u32 lpBytes cfg.offsetofFormat) (Unload self) =
        Except.ok up ∧
      t.BrushSides = up.1 ∧ t.Vertices = up.2.1 ∧ t.Faces = up.2.2.1 ∧
      t.LightVolumes = up.2.2.2) ∧
    t.Format = u32 lpBytes cfg.offsetofFormat ∧
    ((lumpAt cfg lpBytes cfg.kVisData).Length ≠ 0 →
      t.NumClusters = u32 lpBytes (lumpAt cfg lpBytes cfg.kVisData).Offset ∧
      t.ClusterVisDataSize = u32 lpBytes ((lumpAt cfg lpBytes cfg.kVisData).Offset + 4) ∧
      t.ClusterBits = slice lpBytes ((lumpAt cfg lpBytes cfg.kVisData).Offset + 8)
        (t.NumClusters * t.ClusterVisDataSize) ∧
      (t.NumClusters * t.ClusterVisDataSize = 0 ∨
        (lumpAt cfg lpBytes cfg.kVisData).Offset + 8 +
          t.NumClusters * t.ClusterVisDataSize ≤ lpBytes.length)) := by
  simp only [Load, bind_eq_ok] at h
  obtain ⟨fmt, hfmt, l1, hl1, a1, ha1, l2, hl2, a2, ha2, l3, hl3, a3, ha3, l4, hl4, a4, ha4,
    l5, hl5, a5, ha5, l6, hl6, a6, ha6, l7, hl7, a7, ha7, l8, hl8, a8, ha8, up, hup,
    l9, hl9, a9, ha9, l10, hl10, a10, ha10, l11, hl11, a11, ha11, le, hle, es, hes,
    lv, hlv, h⟩ := h
  have e1 := lumps_ok cfg lpBytes _ _ hl1
  have e2 := lumps_ok cfg lpBytes _ _ hl2
  have e3 := lumps_ok cfg lpBytes _ _ hl3
  have e4 := lumps_ok cfg lpBytes _ _ hl4
  have e5 := lumps_ok cfg lpBytes _ _ hl5
  have e6 := lumps_ok cfg lpBytes _ _ hl6
  have e7 := lumps_ok cfg lpBytes _ _ hl7
  have e8 := lumps_ok cfg lpBytes _ _ hl8
  have e9 := lumps_ok cfg lpBytes _ _ hl9
  have e10 := lumps_ok cfg lpBytes _ _ hl10
  have e11 := lumps_ok cfg lpBytes _ _ hl11
  have ee := lumps_ok cfg lpBytes _ _ hle
  have ev := lumps_ok cfg lpBytes _ _ hlv
  subst e1 e2 e3 e4 e5 e6 e7 e8 e9 e10 e11 ee ev
  have efmt : fmt = u32 lpBytes cfg.offsetofFormat := by
    unfold readFormat at hfmt
    split at hfmt
    · cases hfmt
    · cases hfmt; rfl
  subst efmt
  obtain ⟨c, s, bits, ht, hzero, hnonzero⟩ := LoadVisData_ok lpBytes _ _ t h
  subst ht
  have zr : ∀ {T : Type} (L : Layout T) (i : Nat) (a : List T),
      ReadLump cfg.ndebug L lpBytes [] (lumpAt cfg lpBytes i) = Except.ok a →
      (lumpAt cfg lpBytes i).Length = 0 → a = [] := by
    intro T L i a hr h0
    rw [ReadLump_length_zero cfg.ndebug L lpBytes [] _ h0] at hr
    cases hr; rfl
  refine ⟨⟨zr _ _ _ ha1, zr _ _ _ ha2, zr _ _ _ ha3, zr _ _ _ ha4, zr _ _ _ ha5,
    zr _ _ _ ha6, zr _ _ _ ha7, zr _ _ _ ha8, ?_, ?_, ?_, ?_, zr _ _ _ ha9, zr _ _ _ ha10,
    zr _ _ _ ha11, ?_, ?_⟩, ⟨up, hup, rfl, rfl, rfl, rfl⟩, rfl, ?_⟩
  · intro h0
    exact (LoadUpgraded_length_zero cfg lpBytes _ self up hup).1 h0
  · intro h0
    exact (LoadUpgraded_length_zero cfg lpBytes _ self up hup).2.1 h0
  · intro h0
    exact (LoadUpgraded_length_zero cfg lpBytes _ self up hup).2.2.1 h0
  · intro h0
    exact (LoadUpgraded_length_zero cfg lpBytes _ self up hup).2.2.2 h0
  · intro h0
    unfold LoadEntities at hes
    simp only [h0, ne_eq, not_true_eq_false, if_false] at hes
    cases hes
    rfl
  · intro h0
    obtain ⟨hc, hs, hb⟩ := hzero h0
    subst hc hs hb
    exact ⟨rfl, rfl, rfl⟩
  · intro hne
    obtain ⟨hc, hs, hb, hin⟩ := hnonzero hne
    exact ⟨hc, hs, hb, hin⟩

end BSP

/-! ## The claims about the decoder -/

set_option maxRecDepth 100000

namespace BSP

variable {k : Nat}

/-- C6: in every completed run of `Load`, when the visibility lump has length
`8 + C·S`, with `C` and `S` its first two 32-bit words, the new state has
`NumClusters = C`, `ClusterVisDataSize = S` and `ClusterBits` equal to the
`C·S` bytes that follow the two words, byte for byte; when the visibility
lump has length 0 the new state has `NumClusters = 0`,
`ClusterVisDataSize = 0` and empty `ClusterBits`.  On every well-formed file
image the run completes. -/
theorem Load_visibility (cfg : Config k) (lpBytes : List UInt8) (self : State k) :
    (WellFormed cfg lpBytes → ∃ t, Load cfg lpBytes self = Except.ok t) ∧
    ∀ t, Load cfg lpBytes self = Except.ok t →
      ((lumpAt cfg lpBytes cfg.kVisData).Length =
          8 + u32 lpBytes (lumpAt cfg lpBytes cfg.kVisData).Offset *
            u32 lpBytes ((lumpAt cfg lpBytes cfg.kVisData).Offset + 4) →
        t.NumClusters = u32 lpBytes (lumpAt cfg lpBytes cfg.kVisData).Offset ∧
        t.ClusterVisDataSize = u32 lpBytes ((lumpAt cfg lpBytes cfg.kVisData).Offset + 4) ∧
        t.ClusterBits.length = t.NumClusters * t.ClusterVisDataSize ∧
        ∀ i, i < t.NumClusters * t.ClusterVisDataSize →
          t.ClusterBits[i]? = lpBytes[(lumpAt cfg lpBytes cfg.kVisData).Offset + 8 + i]?) ∧
      ((lumpAt cfg lpBytes cfg.kVisData).Length = 0 →
        t.NumClusters = 0 ∧ t.ClusterVisDataSize = 0 ∧ t.ClusterBits = []) := by
  refine ⟨fun hw => Load_of_wellFormed cfg lpBytes self hw, fun t ht => ?_⟩
  obtain ⟨hempty, -, -, hvis⟩ := Load_ok cfg lpBytes self t ht
  refine ⟨?_, ?_⟩
  · intro hlen
    obtain ⟨hc, hs, hbits, hin⟩ := hvis (by omega)
    refine ⟨hc, hs, ?_, ?_⟩
    · rw [hbits]
      rcases hin with hz | hin
      · rw [hz]
        simp [slice]
      · exact slice_length lpBytes _ _ hin
    · intro i hi
      rw [hbits]
      exact slice_getElem? lpBytes _ _ i hi
  · intro h0
    obtain ⟨hb, hc, hs⟩ := hempty.2.2.2.2.2.2.2.2.2.2.2.2.2.2.2.2 h0
    exact ⟨hc, hs, hb⟩

/-- C7: reset on reload.  `Load` of a buffer gives the same outcome from
every earlier object state (one left by an earlier `Load` of any buffer, or
a freshly constructed one): every array, the entity string, the visibility
block and the format tag agree.  In a completed run every array whose lump is
empty in the buffer is empty, whatever the earlier state held; and the run
completes on every well-formed image. -/
theorem Load_reset (cfg : Config k) (lpBytes : List UInt8) (previous fresh : State k) :
    Load cfg lpBytes previous = Load cfg lpBytes fresh ∧
    (∀ t, Load cfg lpBytes previous = Except.ok t → EmptyLumpsGiveEmptyArrays cfg lpBytes t) ∧
    (WellFormed cfg lpBytes → ∃ t, Load cfg lpBytes previous = Except.ok t) := by
  have hunload : Unload previous = Unload fresh := rfl
  refine ⟨?_, fun t ht => (Load_ok cfg lpBytes previous t ht).1,
    fun hw => Load_of_wellFormed cfg lpBytes previous hw⟩
  unfold Load
  rw [hunload]

/-- C8: for every legacy brush side `b`, `ibsp_to_rbsp(b)` has
`Plane = b.Plane`, `TextureIndex = b.TextureIndex` and `DrawSurfIndex = -1`;
hence every brush side of a state that `Load` decoded from a buffer whose
format tag is not the newer-generation tag has `DrawSurfIndex = -1`, and on
a well-formed such buffer `Load` completes. -/
theorem ibsp_to_rbsp_BrushSide_fields :
    (∀ b : IBSP.BrushSide,
      (ibsp_to_rbsp_BrushSide b).Plane = b.Plane ∧
      (ibsp_to_rbsp_BrushSide b).TextureIndex = b.TextureIndex ∧
      (ibsp_to_rbsp_BrushSide b).DrawSurfIndex = -1) ∧
    (∀ (k : Nat) (cfg : Config k) (lpBytes : List UInt8) (self t : State k),
      u32 lpBytes cfg.offsetofFormat ≠ cfg.kRBSPFormat →
      Load cfg lpBytes self = Except.ok t →
      ∀ x ∈ t.BrushSides, x.DrawSurfIndex = -1) ∧
    (∀ (k : Nat) (cfg : Config k) (lpBytes : List UInt8) (self : State k),
      u32 lpBytes cfg.offsetofFormat ≠ cfg.kRBSPFormat → WellFormed cfg lpBytes →
      ∃ t, Load cfg lpBytes self = Except.ok t ∧
        ∀ x ∈ t.BrushSides, x.DrawSurfIndex = -1) := by
  have hrun : ∀ (k : Nat) (cfg : Config k) (lpBytes : List UInt8) (self t : State k),
      u32 lpBytes cfg.offsetofFormat ≠ cfg.kRBSPFormat →
      Load cfg lpBytes self = Except.ok t →
      ∀ x ∈ t.BrushSides, x.DrawSurfIndex = -1 := by
    intro k cfg lpBytes self t hlegacy ht x hx
    obtain ⟨-, ⟨up, hup, hbs, -⟩, -, -⟩ := Load_ok cfg lpBytes self t ht
    obtain ⟨ibspArray, hmap⟩ := LoadUpgraded_legacy_BrushSides cfg lpBytes _ self up hlegacy hup
    rw [hbs, hmap, List.mem_map] at hx
    obtain ⟨b, -, rfl⟩ := hx
    rfl
  refine ⟨fun b => ⟨rfl, rfl, rfl⟩, hrun, ?_⟩
  intro k cfg lpBytes self hlegacy hw
  obtain ⟨t, ht⟩ := Load_of_wellFormed cfg lpBytes self hw
  exact ⟨t, ht, hrun k cfg lpBytes self t hlegacy ht⟩

/-- C6 on `sampleBuffer`, loaded into an object that holds earlier data: the
image is well-formed, the run completes, and its visibility lump of length
`8 + 2·1` gives 2 clusters of stride 1 and the two bytes behind the words. -/
theorem Load_visibility_witness :
    WellFormed sampleConfig sampleBuffer ∧
    (lumpAt sampleConfig sampleBuffer sampleConfig.kVisData).Length =
      8 + u32 sampleBuffer (lumpAt sampleConfig sampleBuffer sampleConfig.kVisData).Offset *
        u32 sampleBuffer
          ((lumpAt sampleConfig sampleBuffer sampleConfig.kVisData).Offset + 4) ∧
    ∃ t, Load sampleConfig sampleBuffer sampleState = Except.ok t ∧
      t.NumClusters = 2 ∧ t.ClusterVisDataSize = 1 ∧ t.ClusterBits.length = 2 ∧
      t.ClusterBits[0]? = some 170 ∧ t.ClusterBits[1]? = some 187 := by
  have hw : WellFormed sampleConfig sampleBuffer := by decide
  have hlen : (lumpAt sampleConfig sampleBuffer sampleConfig.kVisData).Length =
      8 + u32 sampleBuffer (lumpAt sampleConfig sampleBuffer sampleConfig.kVisData).Offset *
        u32 sampleBuffer
          ((lumpAt sampleConfig sampleBuffer sampleConfig.kVisData).Offset + 4) := by decide
  obtain ⟨t, ht⟩ := (Load_visibility sampleConfig sampleBuffer sampleState).1 hw
  obtain ⟨hc, hs, hl, hbytes⟩ :=
    ((Load_visibility sampleConfig sampleBuffer sampleState).2 t ht).1 hlen
  have hc2 : t.NumClusters = 2 := by rw [hc]; decide
  have hs1 : t.ClusterVisDataSize = 1 := by rw [hs]; decide
  rw [hc2, hs1] at hl hbytes
  refine ⟨hw, hlen, t, ht, hc2, hs1, hl, ?_, ?_⟩
  · rw [hbytes 0 (by decide)]; decide
  · rw [hbytes 1 (by decide)]; decide

/-- C8 on `sampleBuffer`, a legacy image with one brush side. -/
theorem ibsp_to_rbsp_BrushSide_fields_witness :
    u32 sampleBuffer sampleConfig.offsetofFormat ≠ sampleConfig.kRBSPFormat ∧
    WellFormed sampleConfig sampleBuffer ∧
    ∃ t, Load sampleConfig sampleBuffer sampleState = Except.ok t ∧
      ∀ x ∈ t.BrushSides, x.DrawSurfIndex = -1 :=
  ⟨by decide, by decide,
    ibsp_to_rbsp_BrushSide_fields.2.2 4 sampleConfig sampleBuffer sampleState
      (by decide) (by decide)⟩

end BSP

/-- C5 on the brush-side lump of `sampleBuffer` (offset 144, length 8). -/
theorem ReadLump_records_witness :
    (144 + 8 ≤ BSP.sampleBuffer.length) ∧ (8 % IBSP.BrushSide.layout.size = 0) ∧
    (∃ records : List (List UInt8),
      ReadLump false IBSP.BrushSide.layout BSP.sampleBuffer [] { Offset := 144, Length := 8 } =
        Except.ok (records.map IBSP.BrushSide.layout.ofBytes) ∧
      records.length = 8 / IBSP.BrushSide.layout.size ∧
      ∀ i, i < 8 / IBSP.BrushSide.layout.size →
        ∃ record, records[i]? = some record ∧ record.length = IBSP.BrushSide.layout.size ∧
          ∀ t, t < IBSP.BrushSide.layout.size →
            record[t]? = BSP.sampleBuffer[144 + i * IBSP.BrushSide.layout.size + t]?) ∧
    (∀ array : List IBSP.BrushSide, 0 < 8 →
      ReadLump false IBSP.BrushSide.layout BSP.sampleBuffer array
          { Offset := 144, Length := 8 } =
        ReadLump false IBSP.BrushSide.layout BSP.sampleBuffer [] { Offset := 144, Length := 8 }) :=
  ⟨by decide, by decide,
    ReadLump_records false IBSP.BrushSide.layout BSP.sampleBuffer
      { Offset := 144, Length := 8 } (by decide) (by decide)⟩

namespace BSP

end BSP

/-! ## The Bezier formula -/

namespace BSP

variable {k : Nat}

end BSP

/-! ## The claims about the Bezier grid -/

namespace BSP

variable {k : Nat}

end BSP

/-! ## The colour of a legacy vertex -/

/-- C20: the legacy-to-unified vertex conversion discards the legacy colour.
Two legacy vertices that agree in position, texture coordinate, lightmap
coordinate and normal (and differ at most in `Color`) are converted to the
same unified vertex, and in the result every member other than `Position`,
`TexCoord`, `LMCoord[0]` and `Normal` holds the all-zero bytes of `memset`
(lightmap channels `≥ 1` are zero, the unnamed members are zeroed). -/
theorem ibsp_to_rbsp_Vertex_discards_Color (k : Nat) (b b' : IBSP.Vertex)
    (hPosition : b.Position = b'.Position) (hTexCoord : b.TexCoord = b'.TexCoord)
    (hLMCoord : b.LMCoord = b'.LMCoord) (hNormal : b.Normal = b'.Normal) :
    (ibsp_to_rbsp_Vertex b : BSP.Vertex (k + 1)) = ibsp_to_rbsp_Vertex b' ∧
    (ibsp_to_rbsp_Vertex b : BSP.Vertex (k + 1)).Rest = RestBytes.zeroed ∧
    (∀ i : Fin k, ∀ c : Fin 2,
      (ibsp_to_rbsp_Vertex b : BSP.Vertex (k + 1)).LMCoord i.succ c = 0) := by
  refine ⟨?_, rfl, ?_⟩
  · simp only [ibsp_to_rbsp_Vertex, hPosition, hTexCoord, hLMCoord, hNormal]
  · intro i c
    have h : ¬ ((i.succ : Fin (k + 1)).val = 0) := by simp
    simp only [ibsp_to_rbsp_Vertex, setAt, if_neg h]
    rfl

/-- C20 on two legacy vertices with colour bytes 255 and 0. -/
theorem ibsp_to_rbsp_Vertex_discards_Color_witness :
    (sampleLegacyVertex 255).Color ≠ (sampleLegacyVertex 0).Color ∧
    (sampleLegacyVertex 255).Position = (sampleLegacyVertex 0).Position ∧
    (sampleLegacyVertex 255).TexCoord = (sampleLegacyVertex 0).TexCoord ∧
    (sampleLegacyVertex 255).LMCoord = (sampleLegacyVertex 0).LMCoord ∧
    (sampleLegacyVertex 255).Normal = (sampleLegacyVertex 0).Normal ∧
    (ibsp_to_rbsp_Vertex (sampleLegacyVertex 255) : BSP.Vertex (3 + 1)) =
      ibsp_to_rbsp_Vertex (sampleLegacyVertex 0) ∧
    (ibsp_to_rbsp_Vertex (sampleLegacyVertex 255) : BSP.Vertex (3 + 1)).Rest =
      RestBytes.zeroed ∧
    (∀ i : Fin 3, ∀ c : Fin 2,
      (ibsp_to_rbsp_Vertex (sampleLegacyVertex 255) : BSP.Vertex (3 + 1)).LMCoord i.succ c =
        0) :=
  ⟨by decide, rfl, rfl, rfl, rfl,
    ibsp_to_rbsp_Vertex_discards_Color 3 (sampleLegacyVertex 255) (sampleLegacyVertex 0)
      rfl rfl rfl rfl⟩

/-! ## The control points the face-level tessellator reads -/

namespace BSP

variable {k : Nat}

/-- The sub-patch offsets of a face with `W = 2p + 3`, `H = 2q + 3`. -/
theorem patchOffsets_odd (f : Face k) (p q : Nat)
    (hW : f.BezierDimensions 0 = 2 * (p : Int) + 3)
    (hH : f.BezierDimensions 1 = 2 * (q : Int) + 3) :
    patchOffsets f = (List.range (q + 1)).flatMap (fun (j : Nat) =>
      (List.range (p + 1)).map (fun (i : Nat) =>
        f.StartVertexIndex + (j : Int) * (2 * (p : Int) + 3) * 2 + (i : Int) * 2)) := by
  have hx : (Int.tdiv (2 * (p : Int) + 3) 2).toNat = p + 1 := by
    rw [Int.tdiv_eq_ediv (by omega) (by omega)]; omega
  have hy : (Int.tdiv (2 * (q : Int) + 3) 2).toNat = q + 1 := by
    rw [Int.tdiv_eq_ediv (by omega) (by omega)]; omega
  simp only [patchOffsets, hW, hH, hx, hy]

theorem mem_patchOffsets_odd (f : Face k) (p q : Nat)
    (hW : f.BezierDimensions 0 = 2 * (p : Int) + 3)
    (hH : f.BezierDimensions 1 = 2 * (q : Int) + 3) (o : Int) :
    o ∈ patchOffsets f ↔ ∃ j i : Nat, j ≤ q ∧ i ≤ p ∧
      o = f.StartVertexIndex + (j : Int) * (2 * (p : Int) + 3) * 2 + (i : Int) * 2 := by
  rw [patchOffsets_odd f p q hW hH]
  constructor
  · intro h
    obtain ⟨j, hj, h⟩ := List.mem_flatMap.mp h
    obtain ⟨i, hi, h⟩ := List.mem_map.mp h
    rw [List.mem_range] at hj hi
    exact ⟨j, i, by omega, by omega, h.symm⟩
  · rintro ⟨j, i, hj, hi, rfl⟩
    exact List.mem_flatMap.mpr ⟨j, List.mem_range.mpr (by omega),
      List.mem_map.mpr ⟨i, List.mem_range.mpr (by omega), rfl⟩⟩

/-- The control indices of a face with odd dimensions `W, H ≥ 3`: they fill
the range `[StartVertexIndex, StartVertexIndex + W·H)`, its last index
included, and the face has `((W-1)/2) · ((H-1)/2)` sub-patches. -/
theorem controlIndices_odd (f : Face k)
    (hWodd : f.BezierDimensions 0 % 2 = 1) (hW3 : 3 ≤ f.BezierDimensions 0)
    (hHodd : f.BezierDimensions 1 % 2 = 1) (hH3 : 3 ≤ f.BezierDimensions 1) :
    ((patchOffsets f).length : Int) =
      (f.BezierDimensions 0 - 1) / 2 * ((f.BezierDimensions 1 - 1) / 2) ∧
    patchOffsets f ≠ [] ∧
    (∀ x ∈ controlIndices f, f.StartVertexIndex ≤ x ∧
      x < f.StartVertexIndex + f.BezierDimensions 0 * f.BezierDimensions 1) ∧
    ∃ o ∈ patchOffsets f,
      f.StartVertexIndex + f.BezierDimensions 0 * f.BezierDimensions 1 - 1 =
        ![o, o + f.BezierDimensions 0, o + f.BezierDimensions 0 + f.BezierDimensions 0] 2 +
          ((2 : Fin 3).val : Int) := by
  obtain ⟨p, hW⟩ : ∃ p : ℕ, f.BezierDimensions 0 = 2 * (p : Int) + 3 :=
    ⟨((f.BezierDimensions 0 - 3) / 2).toNat, by omega⟩
  obtain ⟨q, hH⟩ : ∃ q : ℕ, f.BezierDimensions 1 = 2 * (q : Int) + 3 :=
    ⟨((f.BezierDimensions 1 - 3) / 2).toNat, by omega⟩
  have hmem := mem_patchOffsets_odd f p q hW hH
  have hbound : ∀ x ∈ controlIndices f, f.StartVertexIndex ≤ x ∧
      x < f.StartVertexIndex + f.BezierDimensions 0 * f.BezierDimensions 1 := by
    intro x hx
    obtain ⟨o, ho, hxo⟩ := List.mem_flatMap.mp hx
    obtain ⟨j, i, hj, hi, rfl⟩ := (hmem o).mp ho
    rw [hW, hH]
    rw [hW] at hxo
    have hjq : (j : Int) ≤ q := by exact_mod_cast hj
    have hip : (i : Int) ≤ p := by exact_mod_cast hi
    have hj0 : (0 : Int) ≤ j := Int.ofNat_nonneg j
    have hi0 : (0 : Int) ≤ i := Int.ofNat_nonneg i
    have hp0 : (0 : Int) ≤ p := Int.ofNat_nonneg p
    have hjp0 : (0 : Int) ≤ (j : Int) * (p : Int) := mul_nonneg hj0 hp0
    have hjp : (j : Int) * (p : Int) ≤ (q : Int) * (p : Int) :=
      mul_le_mul_of_nonneg_right hjq hp0
    simp only [List.mem_cons, List.mem_singleton, List.not_mem_nil, or_false] at hxo
    rcases hxo with h | h | h | h | h | h | h | h | h <;> subst h <;>
      constructor <;> linarith
  have hcount : (patchOffsets f).length = (q + 1) * (p + 1) := by
    rw [patchOffsets_odd f p q hW hH]
    exact length_flatMap_range_const (q + 1) (p + 1) _ (by intro j; simp)
  refine ⟨?_, ?_, hbound, f.StartVertexIndex + (q : Int) * (2 * (p : Int) + 3) * 2 + (p : Int) * 2,
    (hmem _).mpr ⟨q, p, le_refl _, le_refl _, rfl⟩, ?_⟩
  · rw [hcount, hW, hH]
    have e1 : (2 * (p : Int) + 3 - 1) / 2 = p + 1 := by omega
    have e2 : (2 * (q : Int) + 3 - 1) / 2 = q + 1 := by omega
    rw [e1, e2]
    push_cast
    ring
  · intro h
    rw [h] at hcount
    simp at hcount
  · rw [hW, hH]
    simp
    ring

/-- C19: on a face whose `BezierDimensions` `W` and `H` are odd and `≥ 3` and
whose control range `[StartVertexIndex, StartVertexIndex + W·H)` lies inside a
source array that stays in place during the call, the face-level run
completes after exactly `((W-1)/2) · ((H-1)/2)` sub-patch calls, every index of
the source array it reads lies inside the control range (so inside the
array), and for `n ≥ 1` the index `StartVertexIndex + W·H - 1` is read and is
the largest.  Through the four-argument entry point, on a vector that is full
on entry and `n ≥ 1`, the same face makes the run read a control point through
a dangling pointer: a read outside every live object. -/
theorem Tessellate_control_reads (kPolygon : Int) (grow : Nat → Nat) (f : Face k)
    (newVertices : List (Vertex k)) (capacity : Nat) (newIndices : List Int) (n : Int)
    (hWodd : f.BezierDimensions 0 % 2 = 1) (hW3 : 3 ≤ f.BezierDimensions 0)
    (hHodd : f.BezierDimensions 1 % 2 = 1) (hH3 : 3 ≤ f.BezierDimensions 1)
    (hstart : 0 ≤ f.StartVertexIndex) :
    (∀ ogVertices : Source k,
      f.StartVertexIndex + f.BezierDimensions 0 * f.BezierDimensions 1 ≤
        ((ogVertices.elems newVertices).length : Int) →
      ogVertices.Settled f newVertices capacity n →
      ∃ r : FaceOut k,
        Tessellate kPolygon grow f ogVertices newVertices capacity newIndices n =
          Except.ok r ∧
        (r.calls : Int) = (f.BezierDimensions 0 - 1) / 2 * ((f.BezierDimensions 1 - 1) / 2) ∧
        (∀ x ∈ r.reads, f.StartVertexIndex ≤ x ∧
          x < f.StartVertexIndex + f.BezierDimensions 0 * f.BezierDimensions 1) ∧
        (∀ x ∈ r.reads, 0 ≤ x ∧ x < ((ogVertices.elems newVertices).length : Int)) ∧
        (1 ≤ n →
          (f.StartVertexIndex + f.BezierDimensions 0 * f.BezierDimensions 1 - 1) ∈ r.reads ∧
          ∀ x ∈ r.reads,
            x ≤ f.StartVertexIndex + f.BezierDimensions 0 * f.BezierDimensions 1 - 1)) ∧
    (f.StartVertexIndex + f.BezierDimensions 0 * f.BezierDimensions 1 ≤
        (newVertices.length : Int) →
      1 ≤ n → capacity ≤ newVertices.length →
      Tessellate_inplace kPolygon grow f newVertices capacity newIndices n =
        Except.error PointerFault.dangling) := by
  obtain ⟨hcount, hK, hbound, o, ho, hlast⟩ := controlIndices_odd f hWodd hW3 hHodd hH3
  have hinside : ∀ N : Int,
      f.StartVertexIndex + f.BezierDimensions 0 * f.BezierDimensions 1 ≤ N →
      ∀ x ∈ controlIndices f, 0 ≤ x ∧ x < N := by
    intro N hN x hx
    obtain ⟨h1, h2⟩ := hbound x hx
    exact ⟨by omega, by omega⟩
  refine ⟨fun ogVertices hrange hs => ?_, fun hrange hn hcap => ?_⟩
  · obtain ⟨r, vs, hrun, -, -, -, hreads, hcalls, -⟩ :=
      Tessellate_blocks kPolygon grow f ogVertices newVertices capacity newIndices n
        (hinside _ hrange) hs
    have hsub : ∀ x ∈ r.reads, x ∈ controlIndices f := by
      intro x hx
      rw [hreads] at hx
      obtain ⟨o', ho', hx'⟩ := List.mem_flatMap.mp hx
      obtain ⟨r', c', rfl⟩ := mem_patchReads _ n x hx'
      exact mem_controlIndices f o' ho' r' c'
    refine ⟨r, hrun, by rw [hcalls]; exact hcount, fun x hx => hbound x (hsub x hx),
      fun x hx => hinside _ hrange x (hsub x hx), fun hn => ⟨?_, fun x hx => ?_⟩⟩
    · rw [hreads, hlast]
      exact List.mem_flatMap.mpr ⟨o, ho, mem_patchReads_of_pos _ n hn 2 2⟩
    · have := (hbound x (hsub x hx)).2
      omega
  · exact Tessellate_dangling kPolygon grow f newVertices capacity newIndices n hK hn hcap
      (hinside _ hrange)

/-- C19 on `sampleFace`: a 3×3 grid at source index 2 of the 11 sample
vertices, read from another vector with two subdivisions; and the
four-argument call on the 11 sample vertices in a vector of capacity 11. -/
theorem Tessellate_control_reads_witness :
    sampleFace.BezierDimensions 0 % 2 = 1 ∧ 3 ≤ sampleFace.BezierDimensions 0 ∧
    sampleFace.BezierDimensions 1 % 2 = 1 ∧ 3 ≤ sampleFace.BezierDimensions 1 ∧
    0 ≤ sampleFace.StartVertexIndex ∧
    (sampleFace.StartVertexIndex +
        sampleFace.BezierDimensions 0 * sampleFace.BezierDimensions 1 ≤
        (((Source.other sampleVertices).elems [sampleVertex 0]).length : Int) ∧
      (Source.other sampleVertices).Settled sampleFace [sampleVertex 0] 1 2 ∧
      ∃ r : FaceOut 4,
        Tessellate 1 doubling sampleFace (Source.other sampleVertices) [sampleVertex 0] 1
          [5, 6] 2 = Except.ok r ∧
        (r.calls : Int) =
          (sampleFace.BezierDimensions 0 - 1) / 2 * ((sampleFace.BezierDimensions 1 - 1) / 2) ∧
        (∀ x ∈ r.reads, sampleFace.StartVertexIndex ≤ x ∧
          x < sampleFace.StartVertexIndex +
            sampleFace.BezierDimensions 0 * sampleFace.BezierDimensions 1) ∧
        (∀ x ∈ r.reads, 0 ≤ x ∧
          x < (((Source.other sampleVertices).elems [sampleVertex 0]).length : Int)) ∧
        ((1 : Int) ≤ 2 →
          (sampleFace.StartVertexIndex +
            sampleFace.BezierDimensions 0 * sampleFace.BezierDimensions 1 - 1) ∈ r.reads ∧
          ∀ x ∈ r.reads,
            x ≤ sampleFace.StartVertexIndex +
              sampleFace.BezierDimensions 0 * sampleFace.BezierDimensions 1 - 1)) ∧
    (sampleFace.StartVertexIndex +
        sampleFace.BezierDimensions 0 * sampleFace.BezierDimensions 1 ≤
        (sampleVertices.length : Int) ∧
      (1 : Int) ≤ 2 ∧ 11 ≤ sampleVertices.length ∧
      Tessellate_inplace 1 doubling sampleFace sampleVertices 11 [5, 6] 2 =
        Except.error PointerFault.dangling) :=
  ⟨by decide, by decide, by decide, by decide, by decide,
    ⟨by decide, trivial,
      (Tessellate_control_reads 1 doubling sampleFace [sampleVertex 0] 1 [5, 6] 2
        (by decide) (by decide) (by decide) (by decide) (by decide)).1
        (Source.other sampleVertices) (by decide) trivial⟩,
    ⟨by decide, by decide, by decide,
      (Tessellate_control_reads 1 doubling sampleFace sampleVertices 11 [5, 6] 2
        (by decide) (by decide) (by decide) (by decide) (by decide)).2
        (by decide) (by decide) (by decide)⟩⟩

end BSP

/-! ## Subdivision level 0 and unchecked dimensions -/

namespace BSP

variable {k : Nat}

theorem patchVertices_length_eq (controls : Fin 3 → Fin 3 → Vertex k) (n : Int) :
    (patchVertices controls n).length = patchVertexCount n :=
  patchVertices_length controls n

theorem patchVertexCount_zero : patchVertexCount 0 = 1 := rfl

theorem patchIndices_zero (indexOffset : Int) : patchIndices 0 indexOffset = [] := rfl

theorem flatMap_nil_of_forall {α β : Type} (l : List α) (g : α → List β)
    (h : ∀ a, g a = []) : l.flatMap g = [] := by
  induction l with
  | nil => rfl
  | cons a rest ih => rw [List.flatMap_cons, h a, ih]; rfl

/-- The sub-patch call at subdivision level 0: one vertex, no index,
return value 1. -/
theorem TessellatePatch_zero (controls : Fin 3 → Fin 3 → Vertex k)
    (vertices : List (Vertex k)) (indices : List Int) (indexOffset : Int) :
    (TessellatePatch controls vertices indices 0 indexOffset).vertices =
      vertices ++ [firstRowVertex controls 0 0] ∧
    (TessellatePatch controls vertices indices 0 indexOffset).indices = indices ∧
    (TessellatePatch controls vertices indices 0 indexOffset).ret = 1 := by
  refine ⟨?_, ?_, ?_⟩
  · rw [TessellatePatch_vertices]; rfl
  · rw [TessellatePatch_indices, patchIndices_zero, List.append_nil]
  · rw [TessellatePatch_ret, patchVertices_length_eq, patchVertexCount_zero]; rfl

/-- At a level `n ≤ 0` every source array stays in place. -/
theorem Source.settled_of_nonpos (src : Source k) (f : Face k) (newVertices : List (Vertex k))
    (capacity : Nat) (n : Int) (hn : n ≤ 0) : src.Settled f newVertices capacity n := by
  cases src with
  | other vertices => trivial
  | output => exact Or.inl hn

/-- The face-level call at subdivision level 0: one vertex per sub-patch
and no index, for every source array and every capacity. -/
theorem Tessellate_zero (kPolygon : Int) (grow : Nat → Nat) (f : Face k) (src : Source k)
    (newVertices : List (Vertex k)) (capacity : Nat) (newIndices : List Int)
    (hb : ∀ x ∈ controlIndices f, 0 ≤ x ∧ x < ((src.elems newVertices).length : Int)) :
    ∃ r : FaceOut k,
      Tessellate kPolygon grow f src newVertices capacity newIndices 0 = Except.ok r ∧
      r.newVertices.length = newVertices.length + (patchOffsets f).length ∧
      r.newIndices = newIndices ∧
      r.f.NumVertices = ((patchOffsets f).length : Int) ∧ r.f.NumIndices = 0 ∧
      r.f.FaceType = kPolygon := by
  obtain ⟨r, vs, hrun, hv, hlen, hi, -, -, hf⟩ :=
    Tessellate_blocks kPolygon grow f src newVertices capacity newIndices 0 hb
      (Source.settled_of_nonpos src f newVertices capacity 0 (le_refl _))
  have hi2 : r.newIndices = newIndices := by
    rw [hi, flatMap_nil_of_forall _ _ (fun j => patchIndices_zero _), List.append_nil]
  have hv2 : r.newVertices.length = newVertices.length + (patchOffsets f).length := by
    rw [hv, List.length_append, hlen, patchVertexCount_zero, Nat.mul_one]
  refine ⟨r, hrun, hv2, hi2, ?_, ?_, ?_⟩
  · rw [hf]
    show (r.newVertices.length : Int) - (newVertices.length : Int) = _
    rw [hv2]; push_cast; ring
  · rw [hf]
    show (r.newIndices.length : Int) - (newIndices.length : Int) = _
    rw [hi2]; ring
  · rw [hf]

/-- C14, amended: tessellating with subdivision level `n = 0` is not rejected.
Each sub-patch call runs its first loop once (with the parameter quotient
`0 / 0`), appends exactly one vertex and no index and returns 1; the
face-level call, when its control indices lie inside the source array,
completes with one new vertex per sub-patch, no new index, `NumIndices = 0`
and `FaceType = kPolygon`, whether the source array is another vector or the
output vector itself. -/
theorem Tessellate_zero_subdivisions (controls : Fin 3 → Fin 3 → Vertex k)
    (vertices : List (Vertex k)) (indices : List Int) (indexOffset kPolygon : Int)
    (grow : Nat → Nat) (f : Face k) (ogVertices : Source k) (newVertices : List (Vertex k))
    (capacity : Nat) (newIndices : List Int) :
    ((∃ v, (TessellatePatch controls vertices indices 0 indexOffset).vertices =
        vertices ++ [v]) ∧
      (TessellatePatch controls vertices indices 0 indexOffset).indices = indices ∧
      (TessellatePatch controls vertices indices 0 indexOffset).ret = 1) ∧
    ((∀ x ∈ controlIndices f, 0 ≤ x ∧ x < ((ogVertices.elems newVertices).length : Int)) →
      ∃ r : FaceOut k,
        Tessellate kPolygon grow f ogVertices newVertices capacity newIndices 0 =
          Except.ok r ∧
        r.newVertices.length = newVertices.length + (patchOffsets f).length ∧
        r.newIndices = newIndices ∧
        r.f.NumVertices = ((patchOffsets f).length : Int) ∧ r.f.NumIndices = 0 ∧
        r.f.FaceType = kPolygon) := by
  obtain ⟨h1, h2, h3⟩ := TessellatePatch_zero controls vertices indices indexOffset
  exact ⟨⟨⟨_, h1⟩, h2, h3⟩,
    fun hb => Tessellate_zero kPolygon grow f ogVertices newVertices capacity newIndices hb⟩

/-- C14 on `sampleFace`, read from another vector and through the
four-argument entry point. -/
theorem Tessellate_zero_subdivisions_witness :
    ((∃ v, (TessellatePatch sampleControls [sampleVertex 0] [5, 6] 0 0).vertices =
        [sampleVertex 0] ++ [v]) ∧
      (TessellatePatch sampleControls [sampleVertex 0] [5, 6] 0 0).indices = [5, 6] ∧
      (TessellatePatch sampleControls [sampleVertex 0] [5, 6] 0 0).ret = 1) ∧
    (∀ x ∈ controlIndices sampleFace,
      0 ≤ x ∧ x < (((Source.output : Source 4).elems sampleVertices).length : Int)) ∧
    ∃ r : FaceOut 4,
      Tessellate 1 doubling sampleFace Source.output sampleVertices 11 [5, 6] 0 =
        Except.ok r ∧
      r.newVertices.length = sampleVertices.length + (patchOffsets sampleFace).length ∧
      r.newIndices = [5, 6] ∧
      r.f.NumVertices = ((patchOffsets sampleFace).length : Int) ∧ r.f.NumIndices = 0 ∧
      r.f.FaceType = 1 :=
  ⟨(Tessellate_zero_subdivisions sampleControls [sampleVertex 0] [5, 6] 0 1 doubling
      sampleFace Source.output sampleVertices 11 [5, 6]).1,
    by decide,
    (Tessellate_zero_subdivisions sampleControls [sampleVertex 0] [5, 6] 0 1 doubling
      sampleFace Source.output sampleVertices 11 [5, 6]).2 (by decide)⟩

/-- C14 as stated fails: at subdivision level 0 the sub-patch call on
`sampleControls` is not rejected but emits one vertex and returns 1, and the
face-level call on `sampleFace` completes with one new vertex. -/
theorem Tessellate_zero_subdivisions_counterexample :
    (TessellatePatch sampleControls [] [] 0 0).vertices.length = 1 ∧
    (TessellatePatch sampleControls [] [] 0 0).ret = 1 ∧
    ∃ r : FaceOut 4,
      Tessellate 1 doubling sampleFace (Source.other sampleVertices) [] 0 [] 0 =
        Except.ok r ∧
      r.newVertices.length = 1 ∧ r.f.NumVertices = 1 ∧ r.f.FaceType = 1 := by
  obtain ⟨h1, -, h3⟩ := TessellatePatch_zero sampleControls [] [] 0
  obtain ⟨r, hrun, hv, -, hnv, -, hft⟩ :=
    Tessellate_zero 1 doubling sampleFace (Source.other sampleVertices) [] 0 [] (by decide)
  have hK : (patchOffsets sampleFace).length = 1 := by decide
  refine ⟨by rw [h1]; rfl, h3, r, hrun, ?_, ?_, hft⟩
  · rw [hv, hK]; rfl
  · rw [hnv, hK]; rfl

theorem tdiv_two_toNat_of_lt (W : Int) (h : W < 2) : (Int.tdiv W 2).toNat = 0 := by
  rcases lt_or_ge W 0 with hneg | hpos
  · have h1 : (0 : Int) ≤ (-W).tdiv 2 := Int.tdiv_nonneg (by omega) (by omega)
    have h2 : W.tdiv 2 = -((-W).tdiv 2) := by
      rw [← Int.neg_tdiv, Int.neg_neg]
    omega
  · rw [Int.tdiv_eq_zero_of_lt hpos h]
    rfl

theorem patchOffsets_length (f : Face k) :
    (patchOffsets f).length =
      (Int.tdiv (f.BezierDimensions 1) 2).toNat * (Int.tdiv (f.BezierDimensions 0) 2).toNat := by
  unfold patchOffsets
  exact length_flatMap_range_const _ _ _ (by intro j; simp)

/-- C15, amended: the face-level tessellator does not validate
`BezierDimensions` and never rejects a call.  Whatever the parity of `W` and
`H`, when the nine control indices of every sub-patch lie inside a source
array that stays in place during the call, the run completes after
`(H / 2) · (W / 2)` sub-patch calls (division truncating toward zero, none for
a negative quotient), reads control points of these sub-patches only (all
nine of each when `n ≥ 1`) and rewrites the face; and when `W < 2` or `H < 2` the run completes for every
source array, calls no sub-patch, reads no element, appends nothing and
rewrites the face to an empty polygon range. -/
theorem Tessellate_unchecked_dimensions (kPolygon : Int) (grow : Nat → Nat) (f : Face k)
    (ogVertices : Source k) (newVertices : List (Vertex k)) (capacity : Nat)
    (newIndices : List Int) (n : Int) :
    ((∀ x ∈ controlIndices f, 0 ≤ x ∧ x < ((ogVertices.elems newVertices).length : Int)) →
      ogVertices.Settled f newVertices capacity n →
      ∃ r : FaceOut k,
        Tessellate kPolygon grow f ogVertices newVertices capacity newIndices n =
          Except.ok r ∧
        r.calls = (Int.tdiv (f.BezierDimensions 1) 2).toNat *
          (Int.tdiv (f.BezierDimensions 0) 2).toNat ∧
        (∀ x ∈ r.reads, x ∈ controlIndices f) ∧
        (1 ≤ n → ∀ x ∈ controlIndices f, x ∈ r.reads) ∧
        r.newVertices.length = newVertices.length + r.calls * patchVertexCount n ∧
        r.f.StartVertexIndex = (newVertices.length : Int) ∧
        r.f.FaceType = kPolygon) ∧
    (f.BezierDimensions 0 < 2 ∨ f.BezierDimensions 1 < 2 →
      ∃ r : FaceOut k,
        Tessellate kPolygon grow f ogVertices newVertices capacity newIndices n =
          Except.ok r ∧
        r.calls = 0 ∧ r.reads = [] ∧
        r.newVertices = newVertices ∧ r.newIndices = newIndices ∧
        r.f.NumVertices = 0 ∧ r.f.NumIndices = 0 ∧ r.f.FaceType = kPolygon) := by
  refine ⟨fun hb hs => ?_, fun hsmall => ?_⟩
  · obtain ⟨r, vs, hrun, hv, hlen, -, hreads, hcalls, hf⟩ :=
      Tessellate_blocks kPolygon grow f ogVertices newVertices capacity newIndices n hb hs
    refine ⟨r, hrun, by rw [hcalls, patchOffsets_length],
      fun x hx => (mem_reads_iff f n x).1 (by rw [← hreads]; exact hx),
      fun hn x hx => by rw [hreads]; exact (mem_reads_iff f n x).2 hn hx,
      by rw [hv, List.length_append, hlen, hcalls], ?_, ?_⟩ <;> rw [hf]
  · have hK : (patchOffsets f).length = 0 := by
      rw [patchOffsets_length]
      rcases hsmall with h | h
      · rw [tdiv_two_toNat_of_lt _ h, Nat.mul_zero]
      · rw [tdiv_two_toNat_of_lt _ h, Nat.zero_mul]
    have hnil : patchOffsets f = [] := List.length_eq_zero.mp hK
    have hrun : Tessellate kPolygon grow f ogVertices newVertices capacity newIndices n =
        Except.ok { f := { f with
                      StartVertexIndex := (newVertices.length : Int)
                      StartIndex := (newIndices.length : Int)
                      NumIndices := (newIndices.length : Int) - (newIndices.length : Int)
                      NumVertices := (newVertices.length : Int) - (newVertices.length : Int)
                      FaceType := kPolygon }
                    newVertices := newVertices, capacity := capacity,
                    newIndices := newIndices, reads := [], calls := 0 } := by
      simp only [Tessellate, hnil, Run.patchLoop]
    exact ⟨_, hrun, rfl, rfl, rfl, rfl, by simp, by simp, rfl⟩

/-- C15 as stated fails: `evenFace` has the even control grid 2×2, yet the
face-level call is not rejected: it calls the sub-patch tessellator once,
reads the elements 0..6 of the source array (past the four control points of
the face) and completes with four new vertices; `tinyFace` (grid 1×1) is not
rejected either, its face record is rewritten to an empty polygon range. -/
theorem Tessellate_unchecked_dimensions_counterexample :
    evenFace.BezierDimensions 0 % 2 = 0 ∧
    (∃ r : FaceOut 4,
      Tessellate 1 doubling evenFace (Source.other sampleVertices) [] 0 [] 1 =
        Except.ok r ∧
      r.calls = 1 ∧ r.reads = [0, 2, 4, 0, 2, 4, 0, 1, 2, 2, 3, 4, 4, 5, 6] ∧
      r.newVertices.length = 4 ∧ r.f.FaceType = 1) ∧
    tinyFace.BezierDimensions 0 < 3 ∧
    (∃ r : FaceOut 4,
      Tessellate 1 doubling tinyFace (Source.other sampleVertices) [] 0 [] 1 =
        Except.ok r ∧
      r.calls = 0 ∧ r.newVertices.length = 0 ∧ r.f.NumVertices = 0 ∧ r.f.FaceType = 1) := by
  obtain ⟨r, vs, hrun, hv, hlen, -, hreads, hcalls, hf⟩ :=
    Tessellate_blocks 1 doubling evenFace (Source.other sampleVertices) [] 0 [] 1
      (by decide) trivial
  obtain ⟨r', vs', hrun', hv', hlen', -, -, hcalls', hf'⟩ :=
    Tessellate_blocks 1 doubling tinyFace (Source.other sampleVertices) [] 0 [] 1
      (by decide) trivial
  have hK : (patchOffsets evenFace).length * patchVertexCount 1 = 4 := by decide
  have hK' : (patchOffsets tinyFace).length * patchVertexCount 1 = 0 := by decide
  have hlen0 : r'.newVertices.length = 0 := by rw [hv', List.nil_append, hlen', hK']
  refine ⟨by decide, ⟨r, hrun, by rw [hcalls]; decide, by rw [hreads]; decide, ?_, ?_⟩,
    by decide, ⟨r', hrun', by rw [hcalls']; decide, hlen0, ?_, ?_⟩⟩
  · rw [hv, List.nil_append, hlen, hK]
  · rw [hf]
  · rw [hf']
    show (r'.newVertices.length : Int) - ((([] : List (Vertex 4)).length : Nat) : Int) = 0
    rw [hlen0]
    rfl
  · rw [hf']

end BSP

/-! ## The indices of a tessellated face -/

namespace BSP

variable {k : Nat}

theorem triangles_append : ∀ (l1 l2 : List Int), l1.length % 3 = 0 →
    triangles (l1 ++ l2) = triangles l1 ++ triangles l2
  | [], l2, _ => by simp [triangles]
  | [a], l2, h => by simp at h
  | [a, b], l2, h => by simp at h
  | a :: b :: c :: rest, l2, h => by
      have h' : rest.length % 3 = 0 := by
        simp only [List.length_cons] at h
        omega
      simp [triangles, triangles_append rest l2 h']

/-- A property of triangles that holds in every block of a `flatMap` holds in
the whole list, when every block is a whole number of triangles. -/
theorem triangles_flatMap {α : Type} (P : Int × Int × Int → Prop) (l : List α)
    (g : α → List Int)
    (h : ∀ a ∈ l, (g a).length % 3 = 0 ∧ ∀ tri ∈ triangles (g a), P tri) :
    (l.flatMap g).length % 3 = 0 ∧ ∀ tri ∈ triangles (l.flatMap g), P tri := by
  induction l with
  | nil => exact ⟨rfl, fun tri htri => by simp [triangles] at htri⟩
  | cons a rest ih =>
      obtain ⟨h1, h2⟩ := h a (List.mem_cons_self _ _)
      obtain ⟨h3, h4⟩ := ih (fun b hb => h b (List.mem_cons_of_mem _ hb))
      rw [List.flatMap_cons]
      refine ⟨by rw [List.length_append]; omega, ?_⟩
      intro tri htri
      rw [triangles_append _ _ h1, List.mem_append] at htri
      rcases htri with h | h
      · exact h2 tri h
      · exact h4 tri h

/-- The two triangles of one grid cell have pairwise distinct corners as
soon as a grid row holds at least two vertices. -/
theorem cellIndices_triangles (L1 indexOffset : Int) (i j : Nat) (hL : 2 ≤ L1) :
    (cellIndices L1 indexOffset i j).length % 3 = 0 ∧
    ∀ tri ∈ triangles (cellIndices L1 indexOffset i j),
      tri.1 ≠ tri.2.1 ∧ tri.2.1 ≠ tri.2.2 ∧ tri.1 ≠ tri.2.2 := by
  refine ⟨by simp [cellIndices], ?_⟩
  intro tri htri
  simp only [cellIndices, triangles, List.mem_cons, List.mem_singleton, List.not_mem_nil,
    or_false] at htri
  rcases htri with h | h <;> subst h <;> refine ⟨?_, ?_, ?_⟩ <;> simp only [ne_eq] <;>
    intro h <;> linarith

/-- Every index one sub-patch call emits is its `indexOffset` plus a position
of the `(m+1) × (m+1)` grid. -/
theorem mem_patchIndices (m : Nat) (indexOffset x : Int)
    (hx : x ∈ patchIndices (m : Int) indexOffset) :
    indexOffset ≤ x ∧ x < indexOffset + ((m : Int) + 1) ^ 2 := by
  unfold patchIndices at hx
  rw [Int.toNat_ofNat] at hx
  obtain ⟨i, hi, hx⟩ := List.mem_flatMap.mp hx
  obtain ⟨j, hj, hx⟩ := List.mem_flatMap.mp hx
  rw [List.mem_range] at hi hj
  have hi0 : (0 : Int) ≤ i := Int.ofNat_nonneg i
  have hj0 : (0 : Int) ≤ j := Int.ofNat_nonneg j
  have him : (i : Int) + 1 ≤ m := by exact_mod_cast hi
  have hjm : (j : Int) + 1 ≤ m := by exact_mod_cast hj
  have hm0 : (0 : Int) ≤ m := Int.ofNat_nonneg m
  have h1 : (0 : Int) ≤ (i : Int) * (m : Int) := mul_nonneg hi0 hm0
  have h2 : ((i : Int) + 1) * (m : Int) ≤ (m : Int) * (m : Int) :=
    mul_le_mul_of_nonneg_right him hm0
  simp only [cellIndices, List.mem_cons, List.mem_singleton, List.not_mem_nil,
    or_false] at hx
  rcases hx with h | h | h | h | h | h <;> subst h <;> constructor <;> nlinarith

theorem patchIndices_triangles (m : Nat) (hm : 1 ≤ m) (indexOffset : Int) :
    (patchIndices (m : Int) indexOffset).length % 3 = 0 ∧
    ∀ tri ∈ triangles (patchIndices (m : Int) indexOffset),
      tri.1 ≠ tri.2.1 ∧ tri.2.1 ≠ tri.2.2 ∧ tri.1 ≠ tri.2.2 := by
  unfold patchIndices
  refine triangles_flatMap _ _ _ (fun i _ => triangles_flatMap _ _ _ (fun j _ =>
    cellIndices_triangles _ _ i j (by omega)))

end BSP

namespace BSP

variable {k : Nat}

theorem patchVertexCount_ofNat (m : Nat) : patchVertexCount (m : Int) = (m + 1) ^ 2 := by
  have hm1 : ((m : Int) + 1).toNat = m + 1 := by omega
  unfold patchVertexCount
  rw [hm1, Int.toNat_ofNat]
  ring

/-- C18: for every `n ≥ 1`, a face-level run on a face whose control indices
lie inside a source array that stays in place during the call completes, and
the indices it appends split into one block per sub-patch call, in row-major
order; block `j` (counted from 0) has `6·n²` entries, all in
`[j·(n+1)², (j+1)·(n+1)²)`, that is, a local grid index plus the number of
vertices the earlier sub-patches emitted.  So every appended index is
non-negative and smaller than the face's new `NumVertices`, and the three
indices of each emitted triangle are pairwise distinct.  Through the
four-argument entry point, on a vector that is full on entry and a face with a
sub-patch, the run reads a control point through a dangling pointer before it
emits any index: undefined behaviour. -/
theorem Tessellate_index_ranges (kPolygon : Int) (grow : Nat → Nat) (f : Face k)
    (newVertices : List (Vertex k)) (capacity : Nat) (newIndices : List Int) (n : Int)
    (hn : 1 ≤ n) :
    (∀ ogVertices : Source k,
      (∀ x ∈ controlIndices f,
        0 ≤ x ∧ x < ((ogVertices.elems newVertices).length : Int)) →
      ogVertices.Settled f newVertices capacity n →
      ∃ (r : FaceOut k) (blocks : List (List Int)),
        Tessellate kPolygon grow f ogVertices newVertices capacity newIndices n =
          Except.ok r ∧
        r.newIndices = newIndices ++ blocks.flatten ∧
        blocks.length = r.calls ∧ r.calls = (patchOffsets f).length ∧
        (∀ (j : Nat) (block : List Int), blocks[j]? = some block →
          (block.length : Int) = 6 * n ^ 2 ∧
          ∀ x ∈ block, (j : Int) * (n + 1) ^ 2 ≤ x ∧ x < ((j : Int) + 1) * (n + 1) ^ 2) ∧
        (∀ x ∈ blocks.flatten, 0 ≤ x ∧ x < r.f.NumVertices) ∧
        (∀ tri ∈ triangles blocks.flatten,
          tri.1 ≠ tri.2.1 ∧ tri.2.1 ≠ tri.2.2 ∧ tri.1 ≠ tri.2.2)) ∧
    ((∀ x ∈ controlIndices f, 0 ≤ x ∧ x < (newVertices.length : Int)) →
      patchOffsets f ≠ [] → capacity ≤ newVertices.length →
      Tessellate_inplace kPolygon grow f newVertices capacity newIndices n =
        Except.error PointerFault.dangling) := by
  refine ⟨fun ogVertices hb hs => ?_, fun hb hK hcap =>
    Tessellate_dangling kPolygon grow f newVertices capacity newIndices n hK hn hcap hb⟩
  obtain ⟨m, rfl⟩ : ∃ m : ℕ, n = (m : Int) := ⟨n.toNat, (Int.toNat_of_nonneg (by omega)).symm⟩
  have hm : 1 ≤ m := by omega
  obtain ⟨r, vs, hrun, hv, hlen, hi, -, hcalls, hf⟩ :=
    Tessellate_blocks kPolygon grow f ogVertices newVertices capacity newIndices (m : Int) hb hs
  rw [patchVertexCount_ofNat] at hlen hi
  have hcount : r.f.NumVertices = ((patchOffsets f).length : Int) * ((m : Int) + 1) ^ 2 := by
    rw [hf]
    show (r.newVertices.length : Int) - (newVertices.length : Int) = _
    rw [hv, List.length_append, hlen]
    push_cast
    ring
  have hblock : ∀ (j : Nat) (block : List Int),
      ((List.range (patchOffsets f).length).map (fun (j : Nat) =>
        patchIndices (m : Int) ((j : Int) * (((m + 1) ^ 2 : Nat) : Int))))[j]? = some block →
      j < (patchOffsets f).length ∧
      block = patchIndices (m : Int) ((j : Int) * ((m : Int) + 1) ^ 2) := by
    intro j block hj
    rw [List.getElem?_map] at hj
    by_cases hjK : j < (patchOffsets f).length
    · rw [List.getElem?_range hjK] at hj
      simp only [Option.map_some', Option.some.injEq] at hj
      refine ⟨hjK, ?_⟩
      rw [← hj]
      push_cast
      rfl
    · rw [List.getElem?_eq_none (by rw [List.length_range]; omega)] at hj
      simp at hj
  have hinblock : ∀ (j : Nat) (x : Int),
      x ∈ patchIndices (m : Int) ((j : Int) * ((m : Int) + 1) ^ 2) →
      (j : Int) * ((m : Int) + 1) ^ 2 ≤ x ∧ x < ((j : Int) + 1) * ((m : Int) + 1) ^ 2 := by
    intro j x hx
    obtain ⟨h1, h2⟩ := mem_patchIndices m _ x hx
    exact ⟨h1, by linarith⟩
  refine ⟨r, (List.range (patchOffsets f).length).map (fun (j : Nat) =>
      patchIndices (m : Int) ((j : Int) * (((m + 1) ^ 2 : Nat) : Int))), hrun, ?_,
    by rw [hcalls]; simp, hcalls, ?_, ?_, ?_⟩
  · rw [hi, List.flatMap_def]
  · intro j block hj
    obtain ⟨-, rfl⟩ := hblock j block hj
    refine ⟨?_, hinblock j⟩
    rw [patchIndices_length, Int.toNat_ofNat]
    push_cast
    ring
  · intro x hx
    obtain ⟨block, hmem, hxb⟩ := List.mem_flatten.mp hx
    obtain ⟨j, hj⟩ := List.getElem?_of_mem hmem
    obtain ⟨hjK, rfl⟩ := hblock j block hj
    obtain ⟨h1, h2⟩ := hinblock j x hxb
    have hj0 : (0 : Int) ≤ j := Int.ofNat_nonneg j
    have hsq : (0 : Int) ≤ ((m : Int) + 1) ^ 2 := sq_nonneg _
    have hjK' : (j : Int) + 1 ≤ ((patchOffsets f).length : Int) := by exact_mod_cast hjK
    refine ⟨le_trans (mul_nonneg hj0 hsq) h1, ?_⟩
    rw [hcount]
    exact lt_of_lt_of_le h2 (mul_le_mul_of_nonneg_right hjK' hsq)
  · rw [← List.flatMap_def]
    exact (triangles_flatMap _ _ _ (fun j _ => patchIndices_triangles m hm _)).2

/-- C18 on `wideFace` (a 5×3 grid, two sub-patches) with two subdivisions:
read from another vector into output buffers that already hold one vertex and
two indices; and the four-argument call on the 15 control points in a vector
of capacity 15. -/
theorem Tessellate_index_ranges_witness :
    (1 : Int) ≤ 2 ∧
    ((∀ x ∈ controlIndices wideFace,
        0 ≤ x ∧ x < (((Source.other wideVertices).elems [sampleVertex 0]).length : Int)) ∧
      (Source.other wideVertices).Settled wideFace [sampleVertex 0] 1 2 ∧
      ∃ (r : FaceOut 4) (blocks : List (List Int)),
        Tessellate 1 doubling wideFace (Source.other wideVertices) [sampleVertex 0] 1
          [5, 6] 2 = Except.ok r ∧
        r.newIndices = [5, 6] ++ blocks.flatten ∧
        blocks.length = r.calls ∧ r.calls = (patchOffsets wideFace).length ∧
        (∀ (j : Nat) (block : List Int), blocks[j]? = some block →
          (block.length : Int) = 6 * 2 ^ 2 ∧
          ∀ x ∈ block, (j : Int) * (2 + 1) ^ 2 ≤ x ∧ x < ((j : Int) + 1) * (2 + 1) ^ 2) ∧
        (∀ x ∈ blocks.flatten, 0 ≤ x ∧ x < r.f.NumVertices) ∧
        (∀ tri ∈ triangles blocks.flatten,
          tri.1 ≠ tri.2.1 ∧ tri.2.1 ≠ tri.2.2 ∧ tri.1 ≠ tri.2.2)) ∧
    ((∀ x ∈ controlIndices wideFace, 0 ≤ x ∧ x < (wideVertices.length : Int)) ∧
      patchOffsets wideFace ≠ [] ∧ 15 ≤ wideVertices.length ∧
      Tessellate_inplace 1 doubling wideFace wideVertices 15 [] 2 =
        Except.error PointerFault.dangling) :=
  ⟨by decide,
    ⟨by decide, trivial,
      (Tessellate_index_ranges 1 doubling wideFace [sampleVertex 0] 1 [5, 6] 2
        (by decide)).1 (Source.other wideVertices) (by decide) trivial⟩,
    ⟨by decide, by decide, by decide,
      (Tessellate_index_ranges 1 doubling wideFace wideVertices 15 [] 2
        (by decide)).2 (by decide) (by decide) (by decide)⟩⟩

end BSP

/-! ## Unchecked lump descriptors -/

/-- A typed read behind the end of the buffer has no defined result. -/
theorem ReadLump_past_end {T : Type} (ndebug : Bool) (L : Layout T)
    (cursor : List UInt8) (array : List T) (lump : BSP.Lump)
    (hpos : 0 < lump.Length) (hmul : lump.Length % L.size = 0)
    (hout : cursor.length < lump.Offset + lump.Length) :
    ReadLump ndebug L cursor array lump = Except.error Fault.readPastEnd := by
  have hcount : lump.Length / L.size * L.size = lump.Length :=
    Nat.div_mul_cancel (Nat.dvd_of_mod_eq_zero hmul)
  unfold ReadLump
  rw [if_pos hpos]
  simp only [hcount]
  rw [if_neg (by simp), if_pos ⟨hpos, hout⟩]

/-- A typed read that completes on a descriptor of positive length that is a
multiple of the element size stayed inside the buffer. -/
theorem ReadLump_ok_inside {T : Type} (ndebug : Bool) (L : Layout T)
    (cursor : List UInt8) (array out : List T) (lump : BSP.Lump)
    (h : ReadLump ndebug L cursor array lump = Except.ok out)
    (hpos : 0 < lump.Length) (hmul : lump.Length % L.size = 0) :
    lump.Offset + lump.Length ≤ cursor.length := by
  by_contra hc
  rw [ReadLump_past_end ndebug L cursor array lump hpos hmul (by omega)] at h
  cases h

theorem UpgradeLump_ok_inside {I R : Type} (ndebug : Bool) (L : Layout I) (conv : I → R)
    (cursor : List UInt8) (rbspArray out : List R) (lump : BSP.Lump)
    (h : UpgradeLump ndebug L conv cursor rbspArray lump = Except.ok out)
    (hpos : 0 < lump.Length) (hmul : lump.Length % L.size = 0) :
    lump.Offset + lump.Length ≤ cursor.length := by
  unfold UpgradeLump at h
  split at h
  · cases h
  · rename_i ibspArray hread
    exact ReadLump_ok_inside ndebug L cursor [] ibspArray lump hread hpos hmul

namespace BSP

variable {k : Nat}

/-- A completed run of the decoder has read every typed lump of positive
length that is a whole number of records from inside the buffer. -/
theorem Load_ok_inside (cfg : Config k) (lpBytes : List UInt8) (self t : State k)
    (h : Load cfg lpBytes self = Except.ok t) :
    ∀ p ∈ typedLumps cfg (u32 lpBytes cfg.offsetofFormat),
      0 < (lumpAt cfg lpBytes p.1).Length → (lumpAt cfg lpBytes p.1).Length % p.2 = 0 →
      (lumpAt cfg lpBytes p.1).Offset + (lumpAt cfg lpBytes p.1).Length ≤ lpBytes.length := by
  simp only [Load, bind_eq_ok] at h
  obtain ⟨fmt, hfmt, l1, hl1, a1, ha1, l2, hl2, a2, ha2, l3, hl3, a3, ha3, l4, hl4, a4, ha4,
    l5, hl5, a5, ha5, l6, hl6, a6, ha6, l7, hl7, a7, ha7, l8, hl8, a8, ha8, up, hup,
    l9, hl9, a9, ha9, l10, hl10, a10, ha10, l11, hl11, a11, ha11, le, hle, es, hes,
    lv, hlv, h⟩ := h
  have e1 := lumps_ok cfg lpBytes _ _ hl1
  have e2 := lumps_ok cfg lpBytes _ _ hl2
  have e3 := lumps_ok cfg lpBytes _ _ hl3
  have e4 := lumps_ok cfg lpBytes _ _ hl4
  have e5 := lumps_ok cfg lpBytes _ _ hl5
  have e6 := lumps_ok cfg lpBytes _ _ hl6
  have e7 := lumps_ok cfg lpBytes _ _ hl7
  have e8 := lumps_ok cfg lpBytes _ _ hl8
  have e9 := lumps_ok cfg lpBytes _ _ hl9
  have e10 := lumps_ok cfg lpBytes _ _ hl10
  have e11 := lumps_ok cfg lpBytes _ _ hl11
  subst e1 e2 e3 e4 e5 e6 e7 e8 e9 e10 e11
  have efmt : fmt = u32 lpBytes cfg.offsetofFormat := by
    unfold readFormat at hfmt
    split at hfmt
    · cases hfmt
    · cases hfmt; rfl
  subst efmt
  have hdisp : ∀ p ∈ [ (cfg.kBrushSides,
        if u32 lpBytes cfg.offsetofFormat = cfg.kRBSPFormat then cfg.layoutBrushSide.size
        else IBSP.BrushSide.layout.size),
      (cfg.kVertices,
        if u32 lpBytes cfg.offsetofFormat = cfg.kRBSPFormat then cfg.layoutVertex.size
        else cfg.layoutLegacyVertex.size),
      (cfg.kFaces,
        if u32 lpBytes cfg.offsetofFormat = cfg.kRBSPFormat then cfg.layoutFace.size
        else cfg.layoutLegacyFace.size),
      (cfg.kLightVolumes,
        if u32 lpBytes cfg.offsetofFormat = cfg.kRBSPFormat then cfg.layoutLightVolume.size
        else cfg.layoutLegacyLightVolume.size) ],
      0 < (lumpAt cfg lpBytes p.1).Length → (lumpAt cfg lpBytes p.1).Length % p.2 = 0 →
      (lumpAt cfg lpBytes p.1).Offset + (lumpAt cfg lpBytes p.1).Length ≤ lpBytes.length := by
    unfold LoadUpgraded at hup
    split at hup
    · rename_i hf
      simp only [bind_eq_ok] at hup
      obtain ⟨m1, hm1, b1, hb1, m2, hm2, b2, hb2, m3, hm3, b3, hb3, m4, hm4, b4, hb4, -⟩ := hup
      have d1 := lumps_ok cfg lpBytes _ _ hm1
      have d2 := lumps_ok cfg lpBytes _ _ hm2
      have d3 := lumps_ok cfg lpBytes _ _ hm3
      have d4 := lumps_ok cfg lpBytes _ _ hm4
      subst d1 d2 d3 d4
      intro p hp hpos hmul
      simp only [if_pos hf, List.mem_cons, List.mem_singleton, List.not_mem_nil,
        or_false] at hp
      rcases hp with rfl | rfl | rfl | rfl
      · exact ReadLump_ok_inside _ _ _ _ _ _ hb1 hpos hmul
      · exact ReadLump_ok_inside _ _ _ _ _ _ hb2 hpos hmul
      · exact ReadLump_ok_inside _ _ _ _ _ _ hb3 hpos hmul
      · exact ReadLump_ok_inside _ _ _ _ _ _ hb4 hpos hmul
    · rename_i hf
      simp only [bind_eq_ok] at hup
      obtain ⟨m1, hm1, b1, hb1, m2, hm2, b2, hb2, m3, hm3, b3, hb3, m4, hm4, b4, hb4, -⟩ := hup
      have d1 := lumps_ok cfg lpBytes _ _ hm1
      have d2 := lumps_ok cfg lpBytes _ _ hm2
      have d3 := lumps_ok cfg lpBytes _ _ hm3
      have d4 := lumps_ok cfg lpBytes _ _ hm4
      subst d1 d2 d3 d4
      intro p hp hpos hmul
      simp only [if_neg hf, List.mem_cons, List.mem_singleton, List.not_mem_nil,
        or_false] at hp
      rcases hp with rfl | rfl | rfl | rfl
      · exact UpgradeLump_ok_inside _ _ _ _ _ _ _ hb1 hpos hmul
      · exact UpgradeLump_ok_inside _ _ _ _ _ _ _ hb2 hpos hmul
      · exact UpgradeLump_ok_inside _ _ _ _ _ _ _ hb3 hpos hmul
      · exact UpgradeLump_ok_inside _ _ _ _ _ _ _ hb4 hpos hmul
  intro p hp hpos hmul
  simp only [typedLumps, List.mem_cons, List.mem_singleton, List.not_mem_nil,
    or_false] at hp
  rcases hp with rfl | rfl | rfl | rfl | rfl | rfl | rfl | rfl | hp | hp | hp | hp |
    rfl | rfl | rfl
  · exact ReadLump_ok_inside _ (Layout.raw _) _ _ _ _ ha1 hpos hmul
  · exact ReadLump_ok_inside _ (Layout.raw _) _ _ _ _ ha2 hpos hmul
  · exact ReadLump_ok_inside _ (Layout.raw _) _ _ _ _ ha3 hpos hmul
  · exact ReadLump_ok_inside _ (Layout.raw _) _ _ _ _ ha4 hpos hmul
  · exact ReadLump_ok_inside _ (Layout.raw _) _ _ _ _ ha5 hpos hmul
  · exact ReadLump_ok_inside _ (Layout.raw _) _ _ _ _ ha6 hpos hmul
  · exact ReadLump_ok_inside _ (Layout.raw _) _ _ _ _ ha7 hpos hmul
  · exact ReadLump_ok_inside _ (Layout.raw _) _ _ _ _ ha8 hpos hmul
  · exact hdisp p (by rw [hp]; simp) hpos hmul
  · exact hdisp p (by rw [hp]; simp) hpos hmul
  · exact hdisp p (by rw [hp]; simp) hpos hmul
  · exact hdisp p (by rw [hp]; simp) hpos hmul
  · exact ReadLump_ok_inside _ _ _ _ _ _ ha9 hpos hmul
  · exact ReadLump_ok_inside _ (Layout.raw _) _ _ _ _ ha10 hpos hmul
  · exact ReadLump_ok_inside _ (Layout.raw _) _ _ _ _ ha11 hpos hmul

end BSP

/-- C11, amended: decoding performs no bounds check and has no `OutOfBounds`
result.  For the typed lump reader: a descriptor of length 0 is accepted
wherever its offset points, the call completes and leaves the destination as
it was; for a descriptor of positive length that is a multiple of the element
size the copy of `length` bytes from `offset` runs unchecked, it completes
with the records cut from the buffer when `offset + length ≤ N`, and it reads
behind the end of the buffer, which is undefined behaviour and not a failure
result, exactly when `offset + length > N`.  For `Load`: a run that returns
has read every typed lump of positive length that is a whole number of
records from inside the buffer; with such a lump behind the end of the buffer
the run does not return a failure, it is undefined. -/
theorem ReadLump_unchecked {T : Type} (ndebug : Bool) (L : Layout T)
    (cursor : List UInt8) (array : List T) (lump : BSP.Lump) {k : Nat} (cfg : BSP.Config k)
    (self : BSP.State k) :
    (lump.Length = 0 → ReadLump ndebug L cursor array lump = Except.ok array) ∧
    (0 < lump.Length → lump.Length % L.size = 0 →
      (lump.Offset + lump.Length ≤ cursor.length →
        ReadLump ndebug L cursor array lump = Except.ok (lumpRecords L cursor lump)) ∧
      (cursor.length < lump.Offset + lump.Length →
        ReadLump ndebug L cursor array lump = Except.error Fault.readPastEnd) ∧
      (ReadLump ndebug L cursor array lump = Except.error Fault.readPastEnd ↔
        cursor.length < lump.Offset + lump.Length)) ∧
    (∀ p ∈ BSP.typedLumps cfg (u32 cursor cfg.offsetofFormat),
      0 < (BSP.lumpAt cfg cursor p.1).Length → (BSP.lumpAt cfg cursor p.1).Length % p.2 = 0 →
      cursor.length < (BSP.lumpAt cfg cursor p.1).Offset + (BSP.lumpAt cfg cursor p.1).Length →
      ∀ t, BSP.Load cfg cursor self ≠ Except.ok t) := by
  refine ⟨fun h0 => ReadLump_length_zero ndebug L cursor array lump h0,
    fun hpos hmul => ?_, fun p hp hpos hmul hout t ht => ?_⟩
  · have hin : lump.Offset + lump.Length ≤ cursor.length →
        ReadLump ndebug L cursor array lump = Except.ok (lumpRecords L cursor lump) :=
      fun hin => ReadLump_of_fits ndebug L cursor array lump ⟨hin, hmul⟩ (Or.inr hpos)
    have hout : cursor.length < lump.Offset + lump.Length →
        ReadLump ndebug L cursor array lump = Except.error Fault.readPastEnd :=
      fun hout => ReadLump_past_end ndebug L cursor array lump hpos hmul hout
    refine ⟨hin, hout, fun h => ?_, hout⟩
    by_contra hc
    rw [hin (by omega)] at h
    cases h
  · have := BSP.Load_ok_inside cfg cursor self t ht p hp hpos hmul
    omega

/-- C11 as stated fails on the 165 bytes of `sampleBuffer`.  The descriptor
`(1000, 0)` has `offset + length > 165`, yet the reader completes without any
failure, and so does `Load` on `farLumpBuffer`, whose lump table holds that
descriptor.  The descriptor `(160, 8)` with element size 8 has
`offset + length = 168 > 165`, and the copy runs behind the buffer: there is
no check, and the run has no defined result. -/
theorem ReadLump_unchecked_counterexample :
    BSP.sampleBuffer.length = 165 ∧
    ReadLump false IBSP.BrushSide.layout BSP.sampleBuffer []
      { Offset := 1000, Length := 0 } = Except.ok [] ∧
    (BSP.farLumpBuffer.length = 165 ∧
      BSP.lumpAt BSP.sampleConfig BSP.farLumpBuffer BSP.sampleConfig.kTextures =
        { Offset := 1000, Length := 0 } ∧
      ∃ t, BSP.Load BSP.sampleConfig BSP.farLumpBuffer BSP.sampleState = Except.ok t) ∧
    ReadLump false IBSP.BrushSide.layout BSP.sampleBuffer []
      { Offset := 160, Length := 8 } = Except.error Fault.readPastEnd := by
  refine ⟨by decide, rfl, ⟨by decide, by decide, ?_⟩, ?_⟩
  · have hrun : (BSP.Load BSP.sampleConfig BSP.farLumpBuffer BSP.sampleState).isOk = true := by
      decide
    cases h : BSP.Load BSP.sampleConfig BSP.farLumpBuffer BSP.sampleState with
    | ok t => exact ⟨t, rfl⟩
    | error e =>
        rw [h] at hrun
        cases hrun
  · exact ReadLump_past_end false IBSP.BrushSide.layout BSP.sampleBuffer []
      { Offset := 160, Length := 8 } (by decide) (by decide) (by decide)

/-- With assertions enabled a length that is not a multiple of the element
size stops the typed reader at its `assert`. -/
theorem ReadLump_assert {T : Type} (L : Layout T) (cursor : List UInt8) (array : List T)
    (lump : BSP.Lump) (hmul : lump.Length % L.size ≠ 0) :
    ReadLump false L cursor array lump = Except.error Fault.assertFailed := by
  have hpos : lump.Length > 0 := by
    rcases Nat.eq_zero_or_pos lump.Length with h | h
    · rw [h, Nat.zero_mod] at hmul
      exact absurd rfl hmul
    · exact h
  have hne : lump.Length / L.size * L.size ≠ lump.Length := by
    intro h
    apply hmul
    rw [← h]
    exact Nat.mul_mod_left _ _
  unfold ReadLump
  rw [if_pos hpos, if_pos ⟨rfl, hne⟩]

/-- C12, amended: for every typed lump whose length is not an exact multiple
of its element size, materializing the lump in a build with assertions
enabled stops at the `assert` of BSP.cpp:162: no array is returned, truncated
or not, and no byte is copied.  The stop is a process abort, not a
`MalformedLump` result. -/
theorem ReadLump_not_multiple {T : Type} (L : Layout T) (cursor : List UInt8)
    (array : List T) (lump : BSP.Lump) (hmul : lump.Length % L.size ≠ 0) :
    ReadLump false L cursor array lump = Except.error Fault.assertFailed ∧
    (∀ out, ReadLump false L cursor array lump ≠ Except.ok out) ∧
    ReadLump_reads false L lump = [] := by
  have h := ReadLump_assert L cursor array lump hmul
  refine ⟨h, fun out hout => ?_, ?_⟩
  · rw [h] at hout
    cases hout
  · have hne : lump.Length / L.size * L.size ≠ lump.Length := by
      intro h'
      apply hmul
      rw [← h']
      exact Nat.mul_mod_left _ _
    unfold ReadLump_reads
    split
    · rw [if_pos ⟨rfl, hne⟩]
    · rfl

/-- C12 on the descriptor `(144, 10)` of `sampleBuffer` with the 8-byte
legacy brush side. -/
theorem ReadLump_not_multiple_witness :
    (10 % IBSP.BrushSide.layout.size ≠ 0) ∧
    ReadLump false IBSP.BrushSide.layout BSP.sampleBuffer []
      { Offset := 144, Length := 10 } = Except.error Fault.assertFailed ∧
    (∀ out, ReadLump false IBSP.BrushSide.layout BSP.sampleBuffer []
      { Offset := 144, Length := 10 } ≠ Except.ok out) ∧
    ReadLump_reads false IBSP.BrushSide.layout { Offset := 144, Length := 10 } = [] :=
  ⟨by decide, ReadLump_not_multiple IBSP.BrushSide.layout BSP.sampleBuffer []
    { Offset := 144, Length := 10 } (by decide)⟩

/-- C12 as stated fails: for the descriptor `(144, 10)` of `sampleBuffer` and
the 8-byte legacy brush side, a build with `NDEBUG` returns the truncated
array of `10 / 8 = 1` record, and a build with assertions stops at the
`assert`; neither yields a `MalformedLump` result. -/
theorem ReadLump_not_multiple_counterexample :
    (10 % IBSP.BrushSide.layout.size ≠ 0) ∧
    ReadLump true IBSP.BrushSide.layout BSP.sampleBuffer []
      { Offset := 144, Length := 10 } =
        Except.ok [{ Plane := 5, TextureIndex := -1 }] ∧
    ReadLump false IBSP.BrushSide.layout BSP.sampleBuffer []
      { Offset := 144, Length := 10 } = Except.error Fault.assertFailed := by
  refine ⟨by decide, ?_, ?_⟩
  · have h : lumpRecords IBSP.BrushSide.layout BSP.sampleBuffer
        { Offset := 144, Length := 10 } = [{ Plane := 5, TextureIndex := -1 }] := by decide
    rw [← h]
    rfl
  exact ReadLump_assert IBSP.BrushSide.layout BSP.sampleBuffer []
    { Offset := 144, Length := 10 } (by decide)

/-! ## Format dispatch and the entity text -/

theorem ReadLump_ok_nil {T : Type} (ndebug : Bool) (L : Layout T) (cursor : List UInt8)
    (lump : BSP.Lump) (out : List T)
    (h : ReadLump ndebug L cursor [] lump = Except.ok out) :
    out = lumpRecords L cursor lump := by
  unfold ReadLump at h
  split at h
  · simp only at h
    split at h
    · cases h
    · split at h
      · cases h
      · cases h; rfl
  · rename_i hpos
    have h0 : lump.Length = 0 := by omega
    cases h
    simp [lumpRecords, h0]

theorem UpgradeLump_ok_nil {I R : Type} (ndebug : Bool) (L : Layout I) (conv : I → R)
    (cursor : List UInt8) (lump : BSP.Lump) (out : List R)
    (h : UpgradeLump ndebug L conv cursor [] lump = Except.ok out) :
    out = (lumpRecords L cursor lump).map conv := by
  unfold UpgradeLump at h
  split at h
  · cases h
  · rename_i ibspArray hread
    cases h
    rw [ReadLump_ok_nil ndebug L cursor lump ibspArray hread, List.nil_append]

/-- The C string at the head of a list whose first zero byte is at position
`z`: the `z` bytes before it. -/
theorem cstring_of_first_zero : ∀ (l : List UInt8) (z : Nat), l[z]? = some 0 →
    (∀ i, i < z → l[i]? ≠ some 0) → cstring l = some (l.take z)
  | [], z, hz, _ => by simp at hz
  | c :: rest, 0, hz, _ => by
      simp only [List.getElem?_cons_zero, Option.some.injEq] at hz
      simp [cstring, hz]
  | c :: rest, z + 1, hz, hnz => by
      have hc : c ≠ 0 := by
        intro h
        exact hnz 0 (by omega) (by simp [h])
      have hrest := cstring_of_first_zero rest z (by simpa using hz)
        (fun i hi => by simpa using hnz (i + 1) (by omega))
      simp [cstring, hc, hrest]

namespace BSP

variable {k : Nat}

/-- The format dispatch, read back from its result. -/
theorem LoadUpgraded_ok (cfg : Config k) (lpBytes : List UInt8) (Format : Nat)
    (self : State k)
    (up : List BrushSide × List (Vertex k) × List (Face k) × List (LightVolume k))
    (h : LoadUpgraded cfg lpBytes Format (Unload self) = Except.ok up) :
    (Format = cfg.kRBSPFormat →
      up.1 = lumpRecords cfg.layoutBrushSide lpBytes (lumpAt cfg lpBytes cfg.kBrushSides) ∧
      up.2.1 = lumpRecords cfg.layoutVertex lpBytes (lumpAt cfg lpBytes cfg.kVertices) ∧
      up.2.2.1 = lumpRecords cfg.layoutFace lpBytes (lumpAt cfg lpBytes cfg.kFaces) ∧
      up.2.2.2 = lumpRecords cfg.layoutLightVolume lpBytes
        (lumpAt cfg lpBytes cfg.kLightVolumes)) ∧
    (Format ≠ cfg.kRBSPFormat →
      up.1 = (lumpRecords IBSP.BrushSide.layout lpBytes
        (lumpAt cfg lpBytes cfg.kBrushSides)).map ibsp_to_rbsp_BrushSide ∧
      up.2.1 = (lumpRecords cfg.layoutLegacyVertex lpBytes
        (lumpAt cfg lpBytes cfg.kVertices)).map ibsp_to_rbsp_Vertex ∧
      up.2.2.1 = (lumpRecords cfg.layoutLegacyFace lpBytes
        (lumpAt cfg lpBytes cfg.kFaces)).map (ibsp_to_rbsp_Face cfg.kLightMapNone) ∧
      up.2.2.2 = (lumpRecords cfg.layoutLegacyLightVolume lpBytes
        (lumpAt cfg lpBytes cfg.kLightVolumes)).map ibsp_to_rbsp_LightVolume) := by
  unfold LoadUpgraded at h
  split at h
  · rename_i hf
    simp only [bind_eq_ok] at h
    obtain ⟨l1, hl1, a1, ha1, l2, hl2, a2, ha2, l3, hl3, a3, ha3, l4, hl4, a4, ha4, h⟩ := h
    have e1 := lumps_ok cfg lpBytes _ _ hl1
    have e2 := lumps_ok cfg lpBytes _ _ hl2
    have e3 := lumps_ok cfg lpBytes _ _ hl3
    have e4 := lumps_ok cfg lpBytes _ _ hl4
    subst e1 e2 e3 e4
    cases h
    exact ⟨fun _ => ⟨ReadLump_ok_nil _ _ _ _ _ ha1, ReadLump_ok_nil _ _ _ _ _ ha2,
      ReadLump_ok_nil _ _ _ _ _ ha3, ReadLump_ok_nil _ _ _ _ _ ha4⟩, fun hne => absurd hf hne⟩
  · rename_i hf
    simp only [bind_eq_ok] at h
    obtain ⟨l1, hl1, a1, ha1, l2, hl2, a2, ha2, l3, hl3, a3, ha3, l4, hl4, a4, ha4, h⟩ := h
    have e1 := lumps_ok cfg lpBytes _ _ hl1
    have e2 := lumps_ok cfg lpBytes _ _ hl2
    have e3 := lumps_ok cfg lpBytes _ _ hl3
    have e4 := lumps_ok cfg lpBytes _ _ hl4
    subst e1 e2 e3 e4
    cases h
    exact ⟨fun he => absurd he hf, fun _ => ⟨UpgradeLump_ok_nil _ _ _ _ _ _ ha1,
      UpgradeLump_ok_nil _ _ _ _ _ _ ha2, UpgradeLump_ok_nil _ _ _ _ _ _ ha3,
      UpgradeLump_ok_nil _ _ _ _ _ _ ha4⟩⟩

/-- The four dispatched arrays of a completed run. -/
theorem Load_dispatch (cfg : Config k) (lpBytes : List UInt8) (self t : State k)
    (h : Load cfg lpBytes self = Except.ok t) :
    (u32 lpBytes cfg.offsetofFormat = cfg.kRBSPFormat →
      t.BrushSides =
        lumpRecords cfg.layoutBrushSide lpBytes (lumpAt cfg lpBytes cfg.kBrushSides) ∧
      t.Vertices = lumpRecords cfg.layoutVertex lpBytes (lumpAt cfg lpBytes cfg.kVertices) ∧
      t.Faces = lumpRecords cfg.layoutFace lpBytes (lumpAt cfg lpBytes cfg.kFaces) ∧
      t.LightVolumes = lumpRecords cfg.layoutLightVolume lpBytes
        (lumpAt cfg lpBytes cfg.kLightVolumes)) ∧
    (u32 lpBytes cfg.offsetofFormat ≠ cfg.kRBSPFormat →
      t.BrushSides = (lumpRecords IBSP.BrushSide.layout lpBytes
        (lumpAt cfg lpBytes cfg.kBrushSides)).map ibsp_to_rbsp_BrushSide ∧
      t.Vertices = (lumpRecords cfg.layoutLegacyVertex lpBytes
        (lumpAt cfg lpBytes cfg.kVertices)).map ibsp_to_rbsp_Vertex ∧
      t.Faces = (lumpRecords cfg.layoutLegacyFace lpBytes
        (lumpAt cfg lpBytes cfg.kFaces)).map (ibsp_to_rbsp_Face cfg.kLightMapNone) ∧
      t.LightVolumes = (lumpRecords cfg.layoutLegacyLightVolume lpBytes
        (lumpAt cfg lpBytes cfg.kLightVolumes)).map ibsp_to_rbsp_LightVolume) := by
  obtain ⟨-, ⟨up, hup, h1, h2, h3, h4⟩, -, -⟩ := Load_ok cfg lpBytes self t h
  obtain ⟨hdirect, hlegacy⟩ := LoadUpgraded_ok cfg lpBytes _ self up hup
  rw [h1, h2, h3, h4]
  exact ⟨hdirect, hlegacy⟩

/-- The entity text of a completed run is what the entity block read. -/
theorem Load_entities (cfg : Config k) (lpBytes : List UInt8) (self t : State k)
    (h : Load cfg lpBytes self = Except.ok t) :
    LoadEntities lpBytes (lumpAt cfg lpBytes cfg.kEntities) (Unload self) =
      Except.ok t.EntityString := by
  simp only [Load, bind_eq_ok] at h
  obtain ⟨fmt, hfmt, l1, hl1, a1, ha1, l2, hl2, a2, ha2, l3, hl3, a3, ha3, l4, hl4, a4, ha4,
    l5, hl5, a5, ha5, l6, hl6, a6, ha6, l7, hl7, a7, ha7, l8, hl8, a8, ha8, up, hup,
    l9, hl9, a9, ha9, l10, hl10, a10, ha10, l11, hl11, a11, ha11, le, hle, es, hes,
    lv, hlv, h⟩ := h
  have ee := lumps_ok cfg lpBytes _ _ hle
  subst ee
  obtain ⟨c, s, bits, ht, -, -⟩ := LoadVisData_ok lpBytes _ _ t h
  subst ht
  exact hes

/-- The entity text of a completed run whose entity lump is not empty: the
bytes before the first zero byte at or behind the lump's offset. -/
theorem Load_entities_cut (cfg : Config k) (lpBytes : List UInt8) (self t : State k)
    (h : Load cfg lpBytes self = Except.ok t)
    (hpos : 0 < (lumpAt cfg lpBytes cfg.kEntities).Length) (z : Nat)
    (hzero : lpBytes[(lumpAt cfg lpBytes cfg.kEntities).Offset + z]? = some 0)
    (hfirst : ∀ i, i < z → lpBytes[(lumpAt cfg lpBytes cfg.kEntities).Offset + i]? ≠ some 0) :
    t.EntityString = slice lpBytes (lumpAt cfg lpBytes cfg.kEntities).Offset z := by
  have hes := Load_entities cfg lpBytes self t h
  unfold LoadEntities at hes
  rw [if_pos (by omega)] at hes
  unfold ReadLumpString at hes
  rw [if_pos hpos] at hes
  have hc := cstring_of_first_zero (lpBytes.drop (lumpAt cfg lpBytes cfg.kEntities).Offset) z
    (by rw [List.getElem?_drop]; exact hzero)
    (fun i hi => by rw [List.getElem?_drop]; exact hfirst i hi)
  rw [hc] at hes
  simp only [Except.ok.injEq] at hes
  rw [← hes]
  rfl

end BSP

/-! ## The claims about format dispatch and the entity text -/

namespace BSP

variable {k : Nat}

/-- C13, amended: the format dispatch of `Load` is a two-way branch on the
format tag.  A tag equal to `kRBSPFormat` reads brush sides, vertices, faces
and light volumes directly, with no conversion; every other tag, the legacy
tag and any unrecognized tag alike, reads them with the legacy record
layouts and through the legacy-to-unified conversion.  No tag makes `Load`
fail: on a well-formed image the run completes whatever the tag is. -/
theorem Load_format_dispatch (cfg : Config k) (lpBytes : List UInt8) (self : State k) :
    (WellFormed cfg lpBytes → ∃ t, Load cfg lpBytes self = Except.ok t) ∧
    ∀ t, Load cfg lpBytes self = Except.ok t →
      t.Format = u32 lpBytes cfg.offsetofFormat ∧
      (u32 lpBytes cfg.offsetofFormat = cfg.kRBSPFormat →
        t.BrushSides =
          lumpRecords cfg.layoutBrushSide lpBytes (lumpAt cfg lpBytes cfg.kBrushSides) ∧
        t.Vertices =
          lumpRecords cfg.layoutVertex lpBytes (lumpAt cfg lpBytes cfg.kVertices) ∧
        t.Faces = lumpRecords cfg.layoutFace lpBytes (lumpAt cfg lpBytes cfg.kFaces) ∧
        t.LightVolumes = lumpRecords cfg.layoutLightVolume lpBytes
          (lumpAt cfg lpBytes cfg.kLightVolumes)) ∧
      (u32 lpBytes cfg.offsetofFormat ≠ cfg.kRBSPFormat →
        t.BrushSides = (lumpRecords IBSP.BrushSide.layout lpBytes
          (lumpAt cfg lpBytes cfg.kBrushSides)).map ibsp_to_rbsp_BrushSide ∧
        t.Vertices = (lumpRecords cfg.layoutLegacyVertex lpBytes
          (lumpAt cfg lpBytes cfg.kVertices)).map ibsp_to_rbsp_Vertex ∧
        t.Faces = (lumpRecords cfg.layoutLegacyFace lpBytes
          (lumpAt cfg lpBytes cfg.kFaces)).map (ibsp_to_rbsp_Face cfg.kLightMapNone) ∧
        t.LightVolumes = (lumpRecords cfg.layoutLegacyLightVolume lpBytes
          (lumpAt cfg lpBytes cfg.kLightVolumes)).map ibsp_to_rbsp_LightVolume) := by
  refine ⟨fun hw => Load_of_wellFormed cfg lpBytes self hw, fun t ht => ?_⟩
  obtain ⟨hdirect, hlegacy⟩ := Load_dispatch cfg lpBytes self t ht
  exact ⟨(Load_ok cfg lpBytes self t ht).2.2.1, hdirect, hlegacy⟩

/-- C13 as stated fails: `unknownTagBuffer` carries the tag 0, which is
neither the newer-generation tag nor the legacy tag `IBSP` (1347633737), yet
`Load` does not fail: it completes, keeps the tag, and decodes the brush
side through the legacy conversion. -/
theorem Load_format_dispatch_counterexample :
    u32 unknownTagBuffer sampleConfig.offsetofFormat = 0 ∧
    (0 : Nat) ≠ sampleConfig.kRBSPFormat ∧ (0 : Nat) ≠ 1347633737 ∧
    ∃ t, Load sampleConfig unknownTagBuffer sampleState = Except.ok t ∧
      t.Format = 0 ∧
      t.BrushSides =
        [{ Plane := 5, TextureIndex := -1, DrawSurfIndex := -1, Rest := RestBytes.zeroed }] := by
  have htag : u32 unknownTagBuffer sampleConfig.offsetofFormat = 0 := by decide
  obtain ⟨t, ht⟩ := Load_of_wellFormed sampleConfig unknownTagBuffer sampleState (by decide)
  have hfmt := (Load_ok sampleConfig unknownTagBuffer sampleState t ht).2.2.1
  have hbs := ((Load_dispatch sampleConfig unknownTagBuffer sampleState t ht).2
    (by rw [htag]; decide)).1
  refine ⟨htag, by decide, by decide, t, ht, by rw [hfmt, htag], ?_⟩
  rw [hbs]
  decide

/-- C16, amended: for every completed run of `Load` on a buffer whose
entities lump (offset `o`, length `L > 0`) holds a zero byte at position
`z < L` and none before it, the entity string is exactly the `z` bytes
`buffer[o .. o + z)` that precede that zero byte: the text is a C string, cut
at the first zero byte, so a zero-terminated lump of `L` bytes yields at most
`L - 1` bytes.  On every well-formed image the run completes. -/
theorem Load_EntityString (cfg : Config k) (lpBytes : List UInt8) (self : State k) :
    (WellFormed cfg lpBytes → ∃ t, Load cfg lpBytes self = Except.ok t) ∧
    ∀ t, Load cfg lpBytes self = Except.ok t →
      ∀ z, z < (lumpAt cfg lpBytes cfg.kEntities).Length →
        lpBytes[(lumpAt cfg lpBytes cfg.kEntities).Offset + z]? = some 0 →
        (∀ i, i < z →
          lpBytes[(lumpAt cfg lpBytes cfg.kEntities).Offset + i]? ≠ some 0) →
        t.EntityString = slice lpBytes (lumpAt cfg lpBytes cfg.kEntities).Offset z ∧
        t.EntityString.length = z := by
  refine ⟨fun hw => Load_of_wellFormed cfg lpBytes self hw, fun t ht z hz hzero hfirst => ?_⟩
  have hcut := Load_entities_cut cfg lpBytes self t ht (by omega) z hzero hfirst
  refine ⟨hcut, ?_⟩
  rw [hcut]
  apply slice_length
  have hlt : (lumpAt cfg lpBytes cfg.kEntities).Offset + z < lpBytes.length := by
    by_contra hge
    rw [List.getElem?_eq_none (by omega)] at hzero
    cases hzero
  omega

/-- C16 as stated fails on `sampleBuffer`: the entities lump is
`(offset 162, length 3)`, inside the buffer, and holds the bytes
`{`, `}`, zero; the entity string of the completed run is the two bytes
before the zero byte, not the three bytes of the lump. -/
theorem Load_EntityString_counterexample :
    lumpAt sampleConfig sampleBuffer sampleConfig.kEntities = { Offset := 162, Length := 3 } ∧
    162 + 3 ≤ sampleBuffer.length ∧
    slice sampleBuffer 162 3 = [123, 125, 0] ∧
    ∃ t, Load sampleConfig sampleBuffer sampleState = Except.ok t ∧
      t.EntityString = [123, 125] ∧ t.EntityString ≠ slice sampleBuffer 162 3 := by
  have hlump : lumpAt sampleConfig sampleBuffer sampleConfig.kEntities =
      { Offset := 162, Length := 3 } := by decide
  obtain ⟨t, ht⟩ := Load_of_wellFormed sampleConfig sampleBuffer sampleState (by decide)
  have hcut := Load_entities_cut sampleConfig sampleBuffer sampleState t ht
    (by rw [hlump]; decide) 2 (by rw [hlump]; decide)
    (by rw [hlump]; intro i hi; interval_cases i <;> decide)
  rw [hlump] at hcut
  have hs : slice sampleBuffer 162 2 = [123, 125] := by decide
  rw [hs] at hcut
  refine ⟨hlump, by decide, by decide, t, ht, hcut, ?_⟩
  rw [hcut]
  decide

end BSP

/-! ## Corners in binary32 arithmetic -/

namespace Binary32

variable {k : Nat}

end Binary32

end id3bsp
